import Mathlib

/-! Open3D tensor PLY reader (`cpp/open3d/t/io/file_format/FilePLY.cpp`).

A shallow embedding of `ReadPointCloudFromPLY` and its helpers
(`GetDtype`, `ReadAttrCallback`, `ConcatColumns`) together with the properties
established about them.

Conventions of the embedding.

* The rply tokenizer is an external library.  A file as seen through rply is a
  value of `PlyFile`: whether `ply_open` / `ply_read_header` succeed, the
  declared elements, the number `ply_set_read_cb` returns for a property, the
  sequence of value events `ply_read` delivers to the registered callbacks
  (callback id and raw value), and the status `ply_read` returns.
* `utility::LogError` throws; a throwing run is the outcome `threw`, which
  records the content of the caller's point cloud at the moment of the throw.
* Raw values (the `double` carrier of rply) have type `R`, stored scalars type
  `V`, and `static_cast<T>` is the parameter `cast : Dtype → R → V`.
* Counts (`long`, `int64_t`) are natural numbers; no count in the reader can
  reach `2^63`.
* A `std::shared_ptr<AttrState>` is the index of the slot in
  `id_to_attr_state_`: every slot is pushed there when it is created and is
  never removed, so the pointer stored under a name and the pointer stored
  under an id denote the same object.
* Memory that was allocated and never written holds `none`.
* An unchecked access outside an allocation is the outcome `undefined`.
-/

namespace FilePLY

/-! ## Type tags -/

/-- The type tags of rply (`e_ply_type` in `rply.h`), in declaration order. -/
inductive e_ply_type where
  | PLY_INT8 | PLY_UINT8 | PLY_INT16 | PLY_UINT16
  | PLY_INT32 | PLY_UIN32 | PLY_FLOAT32 | PLY_FLOAT64
  | PLY_CHAR | PLY_UCHAR | PLY_SHORT | PLY_USHORT
  | PLY_INT | PLY_UINT | PLY_FLOAT | PLY_DOUBLE
  | PLY_LIST
  deriving DecidableEq

/-- Modelled from the spec: `core::Dtype` is not among the sources.  The
element types named in FilePLY.cpp are `UInt8`, `UInt16`, `Int32`, `Float32`,
`Float64` and `Undefined`; `Int64` and `Bool` are the remaining ones of the
tensor library. -/
inductive Dtype where
  | Undefined | Float32 | Float64 | Int32 | Int64 | UInt8 | UInt16 | Bool
  deriving DecidableEq

open e_ply_type in
/-- `GetDtype` (FilePLY.cpp, lines 130-155). -/
def GetDtype (type : e_ply_type) : Dtype :=
  if type = PLY_UINT8 then Dtype.UInt8
  else if type = PLY_UINT16 then Dtype.UInt16
  else if type = PLY_INT32 then Dtype.Int32
  else if type = PLY_FLOAT32 then Dtype.Float32
  else if type = PLY_FLOAT64 then Dtype.Float64
  else if type = PLY_UCHAR then Dtype.UInt8
  else if type = PLY_INT then Dtype.Int32
  else if type = PLY_FLOAT then Dtype.Float32
  else if type = PLY_DOUBLE then Dtype.Float64
  else Dtype.Undefined

/-- Whether a scalar type holds integers or floating point numbers. -/
inductive ScalarKind where
  | unsignedInt | signedInt | float
  deriving DecidableEq

open e_ply_type in
/-- Bit width and kind of the scalar a PLY type tag declares (PLY format);
the list tag declares no scalar. -/
def plyScalar : e_ply_type → Option (Nat × ScalarKind)
  | PLY_INT8 => some (8, .signedInt)
  | PLY_UINT8 => some (8, .unsignedInt)
  | PLY_INT16 => some (16, .signedInt)
  | PLY_UINT16 => some (16, .unsignedInt)
  | PLY_INT32 => some (32, .signedInt)
  | PLY_UIN32 => some (32, .unsignedInt)
  | PLY_FLOAT32 => some (32, .float)
  | PLY_FLOAT64 => some (64, .float)
  | PLY_CHAR => some (8, .signedInt)
  | PLY_UCHAR => some (8, .unsignedInt)
  | PLY_SHORT => some (16, .signedInt)
  | PLY_USHORT => some (16, .unsignedInt)
  | PLY_INT => some (32, .signedInt)
  | PLY_UINT => some (32, .unsignedInt)
  | PLY_FLOAT => some (32, .float)
  | PLY_DOUBLE => some (64, .float)
  | PLY_LIST => none

/-- Bit width and kind of a tensor element type; `Undefined` and `Bool` are
not numeric scalars. -/
def dtypeScalar : Dtype → Option (Nat × ScalarKind)
  | .Float32 => some (32, .float)
  | .Float64 => some (64, .float)
  | .Int32 => some (32, .signedInt)
  | .Int64 => some (64, .signedInt)
  | .UInt8 => some (8, .unsignedInt)
  | .UInt16 => some (16, .unsignedInt)
  | .Undefined => none
  | .Bool => none

/-! ## Tensors -/

/-- Modelled from the spec: `core::Tensor` is not among the sources.  A tensor
is its shape, its element type and its contiguous row-major contents. -/
structure Tensor (V : Type) where
  shape : List Nat
  dtype : Dtype
  data : List (Option V)
  deriving DecidableEq

/-- Modelled from the spec: `core::Tensor({n}, dtype)`, a fresh
one-dimensional buffer of `n` elements, none of them written. -/
def Tensor.create {V : Type} (n : Nat) (dtype : Dtype) : Tensor V :=
  { shape := [n], dtype := dtype, data := List.replicate n none }

/-- Modelled from the spec: `Tensor::NumDims`, the number of dimensions. -/
def Tensor.NumDims {V : Type} (t : Tensor V) : Nat := t.shape.length

/-- Modelled from the spec: `GetShape()[0]`, the length of a column. -/
def Tensor.dim0 {V : Type} (t : Tensor V) : Nat := t.shape.getD 0 0

/-- Modelled from the spec: `core::TensorList` is not among the sources.  An
attribute is `size` records of shape `element_shape`; `data` holds one entry
per record, the row-major components of that record. -/
structure TensorList (V : Type) where
  size : Nat
  element_shape : List Nat
  dtype : Dtype
  data : List (List (Option V))
  deriving DecidableEq

/-- Modelled from the spec: `core::TensorList(size, element_shape, dtype)`,
`size` records none of whose components is written. -/
def TensorList.create {V : Type} (size : Nat) (element_shape : List Nat) (dtype : Dtype) :
    TensorList V :=
  { size := size, element_shape := element_shape, dtype := dtype,
    data := List.replicate size (List.replicate element_shape.prod none) }

/-- Modelled from the spec: `combined.AsTensor().IndexExtract(1, j) = a` for
records of shape `{k}` and a one-dimensional `a`, which places `a[i]` as
component `j` of record `i`. -/
def TensorList.assignColumn {V : Type} (t : TensorList V) (j : Nat) (a : Tensor V) :
    TensorList V :=
  { t with data := List.zipWith (fun row v => row.set j v) t.data a.data }

/-- Modelled from the spec: `core::TensorList::FromTensor` on a
one-dimensional tensor, which yields one single-component record per entry. -/
def TensorList.FromTensor {V : Type} (t : Tensor V) : TensorList V :=
  { size := t.dim0, element_shape := t.shape.tail, dtype := t.dtype,
    data := t.data.map fun v => [v] }

/-! ## Errors and outcomes -/

/-- Modelled from the spec: `utility::LogError` is not among the sources; the
conditions it reports in FilePLY.cpp are fatal and abort the decode, which the
embedding renders as a thrown exception carrying one of these values. -/
inductive PLYError where
  /-- "Read PLY failed: only 1D attrs are supported." -/
  | only_1D
  /-- "Read PLY failed: size mismatch in base attrs." -/
  | size_mismatch
  /-- "Read PLY failed: datatype mismatch in base attrs." -/
  | datatype_mismatch
  /-- "Total size of property {} ({}) is not equal to size of {} ({})." -/
  | total_size_mismatch (name : String) (total_size : Nat) (element_name : String)
      (element_total_size : Nat)
  deriving DecidableEq

/-- `ConcatColumns` (FilePLY.cpp, lines 78-96). -/
def ConcatColumns {V : Type} (a b c : Tensor V) : Except PLYError (TensorList V) :=
  if a.NumDims ≠ 1 ∨ b.NumDims ≠ 1 ∨ c.NumDims ≠ 1 then
    .error .only_1D
  else if a.dim0 ≠ b.dim0 ∨ a.dim0 ≠ c.dim0 then
    .error .size_mismatch
  else if a.dtype ≠ b.dtype ∨ a.dtype ≠ c.dtype then
    .error .datatype_mismatch
  else
    let combined : TensorList V := TensorList.create a.dim0 [3] a.dtype
    let combined := combined.assignColumn 0 a
    let combined := combined.assignColumn 1 b
    let combined := combined.assignColumn 2 c
    .ok combined

/-! ## The output point cloud -/

/-- Modelled from the spec: the point cloud class (`t::geometry::PointCloud`)
is not among the sources.  The output holds a positions attribute, an optional
normals attribute, an optional colors attribute and a mapping from attribute
names to columns; `none` is an attribute that is not set. -/
structure PointCloud (V : Type) where
  points : Option (TensorList V)
  point_normals : Option (TensorList V)
  point_colors : Option (TensorList V)
  point_attr : List (String × TensorList V)
  deriving DecidableEq

/-- Modelled from the spec: `PointCloud::Clear`, after which no attribute is
set. -/
def PointCloud.Clear {V : Type} (_pointcloud : PointCloud V) : PointCloud V :=
  { points := none, point_normals := none, point_colors := none, point_attr := [] }

/-- Modelled from the spec: `PointCloud::SetPoints`. -/
def PointCloud.SetPoints {V : Type} (pointcloud : PointCloud V) (value : TensorList V) :
    PointCloud V :=
  { pointcloud with points := some value }

/-- Modelled from the spec: `PointCloud::SetPointNormals`. -/
def PointCloud.SetPointNormals {V : Type} (pointcloud : PointCloud V) (value : TensorList V) :
    PointCloud V :=
  { pointcloud with point_normals := some value }

/-- Modelled from the spec: `PointCloud::SetPointColors`. -/
def PointCloud.SetPointColors {V : Type} (pointcloud : PointCloud V) (value : TensorList V) :
    PointCloud V :=
  { pointcloud with point_colors := some value }

/-- Modelled from the spec: `PointCloud::SetPointAttr`, which binds `key` to
`value` in the name-to-column mapping, replacing an earlier binding. -/
def PointCloud.SetPointAttr {V : Type} (pointcloud : PointCloud V) (key : String)
    (value : TensorList V) : PointCloud V :=
  { pointcloud with
    point_attr := (pointcloud.point_attr.filter fun kv => kv.1 ≠ key) ++ [(key, value)] }

/-- The column bound to `key` in the name-to-column mapping of the output. -/
def PointCloud.GetPointAttr {V : Type} (pointcloud : PointCloud V) (key : String) :
    Option (TensorList V) :=
  pointcloud.point_attr.lookup key

/-- How a run of (a part of) the reader ends: normally with a value, by an
exception thrown from `utility::LogError`, or in an access outside an
allocation.  The first two record the content of the caller's point cloud. -/
inductive Outcome (V : Type) (α : Type) where
  | done (value : α) (pointcloud : PointCloud V)
  | threw (e : PLYError) (pointcloud : PointCloud V)
  | undefined
  deriving DecidableEq

/-! ## The decode session -/

/-- `PLYReaderState::AttrState`. -/
structure AttrState (V : Type) where
  name_ : String
  data_ : Tensor V
  total_size_ : Nat
  current_size_ : Nat
  deriving DecidableEq

/-- `PLYReaderState`.  `name_to_attr_state_` maps a name to the index in
`id_to_attr_state_` of the slot it points to; `progress_bar_` is the sequence
of arguments of the `Update` calls made so far. -/
structure PLYReaderState (V : Type) where
  name_to_attr_state_ : List (String × Nat)
  id_to_attr_state_ : List (AttrState V)
  progress_bar_ : List Nat
  deriving DecidableEq

/-- The session declared at FilePLY.cpp, line 182: both containers empty, no
progress reported. -/
def PLYReaderState.init {V : Type} : PLYReaderState V :=
  { name_to_attr_state_ := [], id_to_attr_state_ := [], progress_bar_ := [] }

/-- `std::unordered_map::count`. -/
def mapCount (m : List (String × Nat)) (key : String) : Nat :=
  if (m.lookup key).isSome then 1 else 0

/-- `std::unordered_map::insert`: a key that is present keeps its value. -/
def mapInsert (m : List (String × Nat)) (key : String) (value : Nat) : List (String × Nat) :=
  if (m.lookup key).isSome then m else m ++ [(key, value)]

/-- `std::unordered_map::erase` by key. -/
def mapErase (m : List (String × Nat)) (key : String) : List (String × Nat) :=
  m.filter fun kv => kv.1 ≠ key

/-- `state.name_to_attr_state_.at(key)` followed by `->`: the slot the entry
of `key` points to. -/
def PLYReaderState.at {V : Type} (state : PLYReaderState V) (key : String) :
    Option (AttrState V) :=
  (state.name_to_attr_state_.lookup key).bind fun p => state.id_to_attr_state_[p]?

/-- `ReadAttrCallback<T>` (FilePLY.cpp, lines 59-76), called with the user
data `(state, id)` and the raw value `value`.  `T` is the element type the
callback was registered with at line 198, which is the element type of the
tensor created for the same id at line 209.  The result is the state after the
call and the returned `int`. -/
def ReadAttrCallback {R V : Type} (cast : Dtype → R → V) (state : PLYReaderState V)
    (id : Nat) (value : R) : Option (PLYReaderState V × Nat) :=
  match state.id_to_attr_state_[id]? with
  | none => none
  | some attr_state =>
    if attr_state.current_size_ < attr_state.data_.data.length then
      let attr_state : AttrState V :=
        { attr_state with
          data_ := { attr_state.data_ with
            data := attr_state.data_.data.set attr_state.current_size_
              (some (cast attr_state.data_.dtype value)) }
          current_size_ := attr_state.current_size_ + 1 }
      let state : PLYReaderState V :=
        { state with id_to_attr_state_ := state.id_to_attr_state_.set id attr_state }
      let state : PLYReaderState V :=
        if attr_state.current_size_ % 1000 = 0 then
          { state with progress_bar_ := state.progress_bar_ ++ [attr_state.current_size_] }
        else state
      some (state, 1)
    else none

/-- The invariant of a decode session for an element of `N` records: the names
in the map are distinct, every entry of the map points to a slot of that name,
and every slot owns a one-dimensional buffer of `N` entries with its cursor
inside it. -/
structure SessionInv {V : Type} (N : Nat) (state : PLYReaderState V) : Prop where
  keys_nodup : (state.name_to_attr_state_.map Prod.fst).Nodup
  entries : ∀ key p, (key, p) ∈ state.name_to_attr_state_ →
    ∃ slot, state.id_to_attr_state_[p]? = some slot ∧ slot.name_ = key
  slots : ∀ slot ∈ state.id_to_attr_state_,
    slot.data_.shape = [N] ∧ slot.data_.data.length = N ∧ slot.total_size_ = N ∧
      slot.current_size_ ≤ N

/-! ## The file as seen through rply -/

/-- A property of an element: `ply_get_property_info`. -/
structure PlyProperty where
  name : String
  type : e_ply_type
  deriving DecidableEq

/-- An element of the header: `ply_get_element_info` and the properties
enumerated by `ply_get_next_property`. -/
structure PlyElement where
  name : String
  ninstances : Nat
  properties : List PlyProperty
  deriving DecidableEq

/-- What rply reports about a file.  `set_read_cb element_name name` is the
number `ply_set_read_cb` returns; `events` are the callback invocations of
`ply_read`, in order, each with the id the callback was registered with and the
value `ply_get_argument_value` yields; `read_ok` is the status `ply_read`
returns when no callback stops it. -/
structure PlyFile (R : Type) where
  open_ok : Bool
  header_ok : Bool
  elements : List PlyElement
  set_read_cb : String → String → Nat
  events : List (Nat × R)
  read_ok : Bool

/-- The raw values the events deliver to the callback of `id`, in delivery
order. -/
def delivered {R : Type} (events : List (Nat × R)) (id : Nat) : List R :=
  (events.filter fun event => event.1 = id).map Prod.snd

/-- `ply_read`: every event invokes the callback registered for its id; a
callback returning `0` stops the pass with a failure. -/
def ply_read {R V : Type} (cast : Dtype → R → V) (read_ok : Bool) :
    PLYReaderState V → List (Nat × R) → Option (PLYReaderState V × Bool)
  | state, [] => some (state, read_ok)
  | state, (id, value) :: rest =>
    match ReadAttrCallback cast state id value with
    | none => none
    | some (state, ret) =>
      if ret = 0 then some (state, false) else ply_read cast read_ok state rest

/-- The arguments of the `Update` calls made between `state` and `state'`:
what was appended to the log of the progress reporter. -/
def updatesOfStep {V : Type} (state state' : PLYReaderState V) : List Nat :=
  state'.progress_bar_.drop state.progress_bar_.length

/-- The `Update` calls of a pass of `ply_read`, in order, each paired with the
id of the callback invocation that made it. -/
def taggedUpdates {R V : Type} (cast : Dtype → R → V) :
    PLYReaderState V → List (Nat × R) → List (Nat × Nat)
  | _, [] => []
  | state, (id, value) :: rest =>
    match ReadAttrCallback cast state id value with
    | none => []
    | some (state', _) =>
      (updatesOfStep state state').map (fun count => (id, count)) ++
        taggedUpdates cast state' rest

/-- The body of the property loop (FilePLY.cpp, lines 185-214) for the
property `attr`.  `DISPATCH_DTYPE_TO_TEMPLATE` runs its body for each of the
five element types `GetDtype` returns (the macro is not among the sources). -/
def registerProperty {R V : Type} (ply_file : PlyFile R) (element_name : String)
    (element_total_size : Nat) (state : PLYReaderState V) (attr : PlyProperty) :
    Except PLYError (PLYReaderState V) :=
  if GetDtype attr.type = Dtype.Undefined then
    .ok state
  else
    let id := state.id_to_attr_state_.length
    let total_size := ply_file.set_read_cb element_name attr.name
    if total_size ≠ element_total_size then
      .error (.total_size_mismatch attr.name total_size element_name element_total_size)
    else
      let attr_state : AttrState V :=
        { name_ := attr.name
          data_ := Tensor.create total_size (GetDtype attr.type)
          total_size_ := total_size
          current_size_ := 0 }
      .ok { state with
            name_to_attr_state_ := mapInsert state.name_to_attr_state_ attr.name id
            id_to_attr_state_ := state.id_to_attr_state_ ++ [attr_state] }

/-- The properties of a list whose type `GetDtype` maps to an element type,
in declared order. -/
def supportedProperties (attrs : List PlyProperty) : List PlyProperty :=
  attrs.filter fun attr => GetDtype attr.type ≠ Dtype.Undefined

/-- The property loop `while (attr)` (FilePLY.cpp, lines 183-216). -/
def registerProperties {R V : Type} (ply_file : PlyFile R) (element_name : String)
    (element_total_size : Nat) :
    PLYReaderState V → List PlyProperty → Except PLYError (PLYReaderState V)
  | state, [] => .ok state
  | state, attr :: rest =>
    match registerProperty ply_file element_name element_total_size state attr with
    | .error e => .error e
    | .ok state => registerProperties ply_file element_name element_total_size state rest

/-- The `(name, id)` arguments of the calls of `ply_set_read_cb` the property
loop makes (FilePLY.cpp, lines 195-199), in order. -/
def registrationCalls {R V : Type} (ply_file : PlyFile R) (element_name : String)
    (element_total_size : Nat) : PLYReaderState V → List PlyProperty → List (String × Nat)
  | _, [] => []
  | state, attr :: rest =>
    (if GetDtype attr.type = Dtype.Undefined then []
      else [(attr.name, state.id_to_attr_state_.length)]) ++
    match registerProperty ply_file element_name element_total_size state attr with
    | .error _ => []
    | .ok state' => registrationCalls ply_file element_name element_total_size state' rest

/-- The condition of the `if` that guards a triplet block (FilePLY.cpp, lines
233-235, 245-247, 257-259): the three names are all in the name map. -/
abbrev tripletComplete (m : List (String × Nat)) (n1 n2 n3 : String) : Prop :=
  mapCount m n1 ≠ 0 ∧ mapCount m n2 ≠ 0 ∧ mapCount m n3 ≠ 0

/-- One of the three blocks at FilePLY.cpp, lines 233-268, which differ only
in the three names and in the setter: if the three names are in the map, the
columns are concatenated, the names erased and the attribute set. -/
def mergeTriplet {V : Type} (n1 n2 n3 : String)
    (setter : PointCloud V → TensorList V → PointCloud V)
    (state : PLYReaderState V) (pointcloud : PointCloud V) :
    Outcome V (PLYReaderState V) :=
  if tripletComplete state.name_to_attr_state_ n1 n2 n3 then
    match state.at n1, state.at n2, state.at n3 with
    | some a, some b, some c =>
      match ConcatColumns a.data_ b.data_ c.data_ with
      | .error e => .threw e pointcloud
      | .ok columns =>
        let state : PLYReaderState V :=
          { state with
            name_to_attr_state_ :=
              mapErase (mapErase (mapErase state.name_to_attr_state_ n1) n2) n3 }
        .done state (setter pointcloud columns)
    | _, _, _ => .undefined
  else
    .done state pointcloud

/-- The three names are in the map and the element types of their slots are
not all equal. -/
def inconsistentTriplet {V : Type} (state : PLYReaderState V) (n1 n2 n3 : String) : Prop :=
  ∃ a b c, state.at n1 = some a ∧ state.at n2 = some b ∧ state.at n3 = some c ∧
    ¬ (a.data_.dtype = b.data_.dtype ∧ a.data_.dtype = c.data_.dtype)

/-- The columns `ConcatColumns` returns for the slots of the three names, when
the three names are in the map and `ConcatColumns` succeeds. -/
def mergedAttr {V : Type} (state : PLYReaderState V) (n1 n2 n3 : String) :
    Option (TensorList V) :=
  match state.at n1, state.at n2, state.at n3 with
  | some a, some b, some c =>
    match ConcatColumns a.data_ b.data_ c.data_ with
    | .ok columns => some columns
    | .error _ => none
  | _, _, _ => none

/-- The name `key` is one of the three names of a triplet, among positions,
normals and colors, whose names are all in the map `m`. -/
def inCompleteTriplet (m : List (String × Nat)) (key : String) : Prop :=
  (tripletComplete m "x" "y" "z" ∧ key ∈ ["x", "y", "z"]) ∨
  (tripletComplete m "nx" "ny" "nz" ∧ key ∈ ["nx", "ny", "nz"]) ∨
  (tripletComplete m "red" "green" "blue" ∧ key ∈ ["red", "green", "blue"])

/-- The loop at FilePLY.cpp, lines 269-273, over the entries `entries` of the
name map. -/
def setRemainingAttrs {V : Type} (state : PLYReaderState V) :
    List (String × Nat) → PointCloud V → Option (PointCloud V)
  | [], pointcloud => some pointcloud
  | it :: rest, pointcloud =>
    match state.id_to_attr_state_[it.2]? with
    | none => none
    | some second =>
      setRemainingAttrs state rest
        (pointcloud.SetPointAttr second.name_ (TensorList.FromTensor second.data_))

/-- The assembly stage (FilePLY.cpp, lines 231-277). -/
def assemble {V : Type} (state : PLYReaderState V) (pointcloud : PointCloud V) :
    Outcome V Bool :=
  let pointcloud := pointcloud.Clear
  match mergeTriplet "x" "y" "z" PointCloud.SetPoints state pointcloud with
  | .threw e pointcloud => .threw e pointcloud
  | .undefined => .undefined
  | .done state pointcloud =>
  match mergeTriplet "nx" "ny" "nz" PointCloud.SetPointNormals state pointcloud with
  | .threw e pointcloud => .threw e pointcloud
  | .undefined => .undefined
  | .done state pointcloud =>
  match mergeTriplet "red" "green" "blue" PointCloud.SetPointColors state pointcloud with
  | .threw e pointcloud => .threw e pointcloud
  | .undefined => .undefined
  | .done state pointcloud =>
  match setRemainingAttrs state state.name_to_attr_state_ pointcloud with
  | none => .undefined
  | some pointcloud => .done true pointcloud

/-! ## The reader -/

/-- The body of the element loop for an element named "vertex" (FilePLY.cpp,
lines 182-277). -/
def readVertexElement {R V : Type} (cast : Dtype → R → V) (ply_file : PlyFile R)
    (element : PlyElement) (pointcloud : PointCloud V) : Outcome V Bool :=
  let state : PLYReaderState V := PLYReaderState.init
  match registerProperties ply_file element.name element.ninstances state element.properties with
  | .error e => .threw e pointcloud
  | .ok state =>
    match ply_read cast ply_file.read_ok state ply_file.events with
    | none => .undefined
    | some (state, ok) =>
      if !ok then .done false pointcloud
      else assemble state pointcloud

/-- The element loop `while (element)` (FilePLY.cpp, lines 174-281).  The loop
variable `element` is assigned once, before the loop; `fuel` bounds the number
of times the loop condition is evaluated and `none` is a run that has not
finished within that bound. -/
def elementLoop {R V : Type} (cast : Dtype → R → V) (ply_file : PlyFile R)
    (pointcloud : PointCloud V) : Nat → Option PlyElement → Option (Outcome V Bool)
  | 0, _ => none
  | _ + 1, none => some (.done false pointcloud)
  | fuel + 1, some element =>
    if element.name ≠ "vertex" then
      elementLoop cast ply_file pointcloud fuel (some element)
    else
      some (readVertexElement cast ply_file element pointcloud)

/-- `ReadPointCloudFromPLY` (FilePLY.cpp, lines 157-282).  The value of the
outcome is the returned `bool`. -/
def ReadPointCloudFromPLY {R V : Type} (cast : Dtype → R → V) (fuel : Nat)
    (ply_file : PlyFile R) (pointcloud : PointCloud V) : Option (Outcome V Bool) :=
  if !ply_file.open_ok then some (.done false pointcloud)
  else if !ply_file.header_ok then some (.done false pointcloud)
  else elementLoop cast ply_file pointcloud fuel ply_file.elements.head?

/-! ## Concrete inputs -/

/-- A completely written slot holding `values`. -/
def column (name : String) (dtype : Dtype) (values : List Int) : AttrState Int :=
  { name_ := name
    data_ := { shape := [values.length], dtype := dtype, data := values.map some }
    total_size_ := values.length
    current_size_ := values.length }

/-- A point cloud with no attribute set. -/
def emptyCloud : PointCloud Int :=
  { points := none, point_normals := none, point_colors := none, point_attr := [] }

/-- The cast that keeps the value, as `static_cast` does on a value the target
type represents exactly. -/
def identityCast : Dtype → Int → Int := fun _ value => value

/-- One vertex with positions and two of the three normal components. -/
def twoNormalsFile : PlyFile Int :=
  { open_ok := true
    header_ok := true
    elements :=
      [{ name := "vertex", ninstances := 1,
         properties :=
          [⟨"x", e_ply_type.PLY_FLOAT32⟩, ⟨"y", e_ply_type.PLY_FLOAT32⟩,
           ⟨"z", e_ply_type.PLY_FLOAT32⟩, ⟨"nx", e_ply_type.PLY_FLOAT32⟩,
           ⟨"ny", e_ply_type.PLY_FLOAT32⟩] }]
    set_read_cb := fun _ _ => 1
    events := [(0, 1), (1, 2), (2, 3), (3, 4), (4, 5)]
    read_ok := true }

/-- The point cloud decoded from `twoNormalsFile`. -/
def twoNormalsCloud : PointCloud Int :=
  { points := some ⟨1, [3], Dtype.Float32, [[some 1, some 2, some 3]]⟩
    point_normals := none
    point_colors := none
    point_attr :=
      [("nx", ⟨1, [], Dtype.Float32, [[some 4]]⟩), ("ny", ⟨1, [], Dtype.Float32, [[some 5]]⟩)] }

/-- A slot as registration creates it: `size` entries, none written. -/
def freshSlot (name : String) (dtype : Dtype) (size : Nat) : AttrState Int :=
  { name_ := name, data_ := Tensor.create size dtype, total_size_ := size, current_size_ := 0 }

/-- Positions and normals, the third normal component declared `float64`. -/
def mixedNormalsProperties : List PlyProperty :=
  [⟨"x", e_ply_type.PLY_FLOAT32⟩, ⟨"y", e_ply_type.PLY_FLOAT32⟩,
   ⟨"z", e_ply_type.PLY_FLOAT32⟩, ⟨"nx", e_ply_type.PLY_FLOAT32⟩,
   ⟨"ny", e_ply_type.PLY_FLOAT32⟩, ⟨"nz", e_ply_type.PLY_FLOAT64⟩]

/-- One vertex with the properties `mixedNormalsProperties`. -/
def mixedNormalsFile : PlyFile Int :=
  { open_ok := true
    header_ok := true
    elements := [{ name := "vertex", ninstances := 1, properties := mixedNormalsProperties }]
    set_read_cb := fun _ _ => 1
    events := [(0, 1), (1, 2), (2, 3), (3, 4), (4, 5), (5, 6)]
    read_ok := true }

/-- The session of `mixedNormalsFile` after registration. -/
def mixedNormalsRegistered : PLYReaderState Int :=
  { name_to_attr_state_ := [("x", 0), ("y", 1), ("z", 2), ("nx", 3), ("ny", 4), ("nz", 5)]
    id_to_attr_state_ :=
      [freshSlot "x" Dtype.Float32 1, freshSlot "y" Dtype.Float32 1,
       freshSlot "z" Dtype.Float32 1, freshSlot "nx" Dtype.Float32 1,
       freshSlot "ny" Dtype.Float32 1, freshSlot "nz" Dtype.Float64 1]
    progress_bar_ := [] }

/-- The session of `mixedNormalsFile` after the pass. -/
def mixedNormalsSession : PLYReaderState Int :=
  { name_to_attr_state_ := [("x", 0), ("y", 1), ("z", 2), ("nx", 3), ("ny", 4), ("nz", 5)]
    id_to_attr_state_ :=
      [column "x" Dtype.Float32 [1], column "y" Dtype.Float32 [2],
       column "z" Dtype.Float32 [3], column "nx" Dtype.Float32 [4],
       column "ny" Dtype.Float32 [5], column "nz" Dtype.Float64 [6]]
    progress_bar_ := [] }

/-- The content of the output after the failed read of `mixedNormalsFile`. -/
def mixedNormalsCloud : PointCloud Int :=
  { points := some ⟨1, [3], Dtype.Float32, [[some 1, some 2, some 3]]⟩
    point_normals := none
    point_colors := none
    point_attr := [] }

/-- Two vertices; rply promises three values for `y`. -/
def shortCountFile : PlyFile Int :=
  { open_ok := true
    header_ok := true
    elements :=
      [{ name := "vertex", ninstances := 2,
         properties := [⟨"x", e_ply_type.PLY_FLOAT32⟩, ⟨"y", e_ply_type.PLY_FLOAT32⟩] }]
    set_read_cb := fun _ name => if name = "y" then 3 else 2
    events := []
    read_ok := true }

/-- A file that parses and declares the single element "face". -/
def faceOnlyFile : PlyFile Int :=
  { open_ok := true
    header_ok := true
    elements := [{ name := "face", ninstances := 0, properties := [] }]
    set_read_cb := fun _ _ => 0
    events := []
    read_ok := true }

/-- The events rply delivers for `records` when every property of the element
is registered, in declared order, with the ids `0, 1, 2, ...`: the values of
a record one after the other, record after record. -/
def recordEvents (records : List (List Int)) : List (Nat × Int) :=
  records.flatMap fun record => record.enum

/-- The file of the end-to-end scenario: three vertices with `float32`
positions and `uint8` colors. -/
def triangleFile : PlyFile Int :=
  { open_ok := true
    header_ok := true
    elements :=
      [{ name := "vertex", ninstances := 3,
         properties :=
          [⟨"x", e_ply_type.PLY_FLOAT32⟩, ⟨"y", e_ply_type.PLY_FLOAT32⟩,
           ⟨"z", e_ply_type.PLY_FLOAT32⟩, ⟨"red", e_ply_type.PLY_UINT8⟩,
           ⟨"green", e_ply_type.PLY_UINT8⟩, ⟨"blue", e_ply_type.PLY_UINT8⟩] }]
    set_read_cb := fun _ _ => 3
    events := recordEvents [[0, 0, 0, 255, 0, 0], [1, 0, 0, 0, 255, 0], [0, 1, 0, 0, 0, 255]]
    read_ok := true }

/-- The session of `triangleFile` after registration. -/
def triangleRegistered : PLYReaderState Int :=
  { name_to_attr_state_ :=
      [("x", 0), ("y", 1), ("z", 2), ("red", 3), ("green", 4), ("blue", 5)]
    id_to_attr_state_ :=
      [freshSlot "x" Dtype.Float32 3, freshSlot "y" Dtype.Float32 3,
       freshSlot "z" Dtype.Float32 3, freshSlot "red" Dtype.UInt8 3,
       freshSlot "green" Dtype.UInt8 3, freshSlot "blue" Dtype.UInt8 3]
    progress_bar_ := [] }

/-- The session of `triangleFile` after the pass. -/
def triangleSession : PLYReaderState Int :=
  { name_to_attr_state_ :=
      [("x", 0), ("y", 1), ("z", 2), ("red", 3), ("green", 4), ("blue", 5)]
    id_to_attr_state_ :=
      [column "x" Dtype.Float32 [0, 1, 0], column "y" Dtype.Float32 [0, 0, 1],
       column "z" Dtype.Float32 [0, 0, 0], column "red" Dtype.UInt8 [255, 0, 0],
       column "green" Dtype.UInt8 [0, 255, 0], column "blue" Dtype.UInt8 [0, 0, 255]]
    progress_bar_ := [] }

/-- A session with two registered properties of two records each. -/
def twoSlotSession : PLYReaderState Int :=
  { name_to_attr_state_ := [("x", 0), ("red", 1)]
    id_to_attr_state_ := [freshSlot "x" Dtype.Float32 2, freshSlot "red" Dtype.UInt8 2]
    progress_bar_ := [] }

/-- Two vertices declared; the stream ends after the first value of the second
record and `ply_read` reports failure. -/
def truncatedFile : PlyFile Int :=
  { open_ok := true
    header_ok := true
    elements :=
      [{ name := "vertex", ninstances := 2,
         properties := [⟨"x", e_ply_type.PLY_FLOAT32⟩, ⟨"y", e_ply_type.PLY_FLOAT32⟩] }]
    set_read_cb := fun _ _ => 2
    events := [(0, 1), (1, 2), (0, 3)]
    read_ok := false }

/-- A session whose single slot of 1000 entries has its cursor at 999. -/
def nearThousandSession : PLYReaderState Int :=
  { name_to_attr_state_ := [("x", 0)]
    id_to_attr_state_ :=
      [{ name_ := "x", data_ := Tensor.create 1000 Dtype.Float32, total_size_ := 1000,
         current_size_ := 999 }]
    progress_bar_ := [] }

/-- A file that declares the element "face" before the element "vertex". -/
def vertexAfterFaceFile : PlyFile Int :=
  { open_ok := true
    header_ok := true
    elements :=
      [{ name := "face", ninstances := 0, properties := [] },
       { name := "vertex", ninstances := 1,
         properties :=
          [⟨"x", e_ply_type.PLY_FLOAT32⟩, ⟨"y", e_ply_type.PLY_FLOAT32⟩,
           ⟨"z", e_ply_type.PLY_FLOAT32⟩] }]
    set_read_cb := fun _ _ => 1
    events := [(0, 1), (1, 2), (2, 3)]
    read_ok := true }

/-- One vertex with `x`, `y` and an intensity, and no `z`. -/
def intensityFile : PlyFile Int :=
  { open_ok := true
    header_ok := true
    elements :=
      [{ name := "vertex", ninstances := 1,
         properties :=
          [⟨"x", e_ply_type.PLY_FLOAT32⟩, ⟨"y", e_ply_type.PLY_FLOAT32⟩,
           ⟨"intensity", e_ply_type.PLY_UCHAR⟩] }]
    set_read_cb := fun _ _ => 1
    events := [(0, 1), (1, 2), (2, 9)]
    read_ok := true }

/-- The point cloud decoded from `intensityFile`. -/
def intensityCloud : PointCloud Int :=
  { points := none
    point_normals := none
    point_colors := none
    point_attr :=
      [("x", ⟨1, [], Dtype.Float32, [[some 1]]⟩), ("y", ⟨1, [], Dtype.Float32, [[some 2]]⟩),
       ("intensity", ⟨1, [], Dtype.UInt8, [[some 9]]⟩)] }

theorem lookup_mem {β : Type} (m : List (String × β)) (key : String) (p : β)
    (h : m.lookup key = some p) : (key, p) ∈ m := by
  induction m with
  | nil => simp at h
  | cons kv m ih =>
    obtain ⟨k, q⟩ := kv
    by_cases hk : key = k
    · subst hk
      simp [List.lookup_cons] at h
      simp [h]
    · have h2 : (key == k) = false := by simpa using hk
      simp only [List.lookup_cons, h2] at h
      exact List.mem_cons_of_mem _ (ih h)

theorem lookup_eq_none_iff {β : Type} (m : List (String × β)) (key : String) :
    m.lookup key = none ↔ key ∉ m.map Prod.fst := by
  induction m with
  | nil => simp
  | cons kv m ih =>
    obtain ⟨k, q⟩ := kv
    by_cases hk : key = k
    · subst hk
      simp [List.lookup_cons]
    · have h2 : (key == k) = false := by simpa using hk
      simp only [List.lookup_cons, h2, List.map_cons, List.mem_cons, hk, false_or]
      exact ih

theorem SessionInv_init {V : Type} (N : Nat) : SessionInv N (PLYReaderState.init : PLYReaderState V) :=
  ⟨by simp [PLYReaderState.init], by simp [PLYReaderState.init], by simp [PLYReaderState.init]⟩

theorem registerProperty_inv {R V : Type} (ply_file : PlyFile R) (element_name : String)
    (N : Nat) (state state' : PLYReaderState V) (attr : PlyProperty)
    (hinv : SessionInv N state)
    (h : registerProperty ply_file element_name N state attr = .ok state') :
    SessionInv N state' := by
  unfold registerProperty at h
  split at h
  · cases h; exact hinv
  · simp only at h
    split at h
    · cases h
    · rename_i hsz
      have hsz : ply_file.set_read_cb element_name attr.name = N := by simpa using hsz
      cases h
      refine ⟨?_, ?_, ?_⟩
      · simp only [mapInsert]
        split
        · exact hinv.keys_nodup
        · rename_i hl
          have hl : state.name_to_attr_state_.lookup attr.name = none := by
            cases hx : state.name_to_attr_state_.lookup attr.name with
            | none => rfl
            | some v => simp [hx] at hl
          rw [List.map_append, List.nodup_append]
          refine ⟨hinv.keys_nodup, by simp, ?_⟩
          intro a ha hb
          simp at hb
          subst hb
          exact (lookup_eq_none_iff _ _).mp hl ha
      · intro key p hmem
        simp only [mapInsert] at hmem
        have hold : ∀ (extra : List (AttrState V)) key p,
            (key, p) ∈ state.name_to_attr_state_ →
            ∃ slot, (state.id_to_attr_state_ ++ extra)[p]? = some slot ∧ slot.name_ = key := by
          intro extra key p hm
          obtain ⟨slot, hs, hn⟩ := hinv.entries key p hm
          refine ⟨slot, ?_, hn⟩
          have hlt : p < state.id_to_attr_state_.length := by
            by_contra hge
            rw [List.getElem?_eq_none (by omega)] at hs
            cases hs
          rw [List.getElem?_append_left hlt]
          exact hs
        split at hmem
        · exact hold _ key p hmem
        · rcases List.mem_append.mp hmem with hm | hm
          · exact hold _ key p hm
          · simp at hm
            obtain ⟨rfl, rfl⟩ := hm
            exact ⟨_, List.getElem?_concat_length _ _, rfl⟩
      · intro slot hs
        rcases List.mem_append.mp hs with hs | hs
        · exact hinv.slots slot hs
        · simp at hs
          subst hs
          simp [Tensor.create, hsz]

theorem registerProperties_inv {R V : Type} (ply_file : PlyFile R) (element_name : String)
    (N : Nat) (attrs : List PlyProperty) (state state' : PLYReaderState V)
    (hinv : SessionInv N state)
    (h : registerProperties ply_file element_name N state attrs = .ok state') :
    SessionInv N state' := by
  induction attrs generalizing state with
  | nil => simp [registerProperties] at h; cases h; exact hinv
  | cons attr rest ih =>
    simp only [registerProperties] at h
    split at h
    · cases h
    · rename_i st1 h1
      exact ih st1 (registerProperty_inv ply_file element_name N state st1 attr hinv h1) h

theorem ReadAttrCallback_inv {R V : Type} (cast : Dtype → R → V) (N : Nat)
    (state state' : PLYReaderState V) (id : Nat) (value : R) (ret : Nat)
    (hinv : SessionInv N state)
    (h : ReadAttrCallback cast state id value = some (state', ret)) :
    SessionInv N state' := by
  unfold ReadAttrCallback at h
  split at h
  · cases h
  · rename_i attr_state hget
    split at h
    · rename_i hlt
      simp only [Option.some.injEq, Prod.mk.injEq] at h
      obtain ⟨hst, -⟩ := h
      have hmem : attr_state ∈ state.id_to_attr_state_ := List.getElem?_mem hget
      obtain ⟨hs1, hs2, hs3, hs4⟩ := hinv.slots attr_state hmem
      have hmap : state'.name_to_attr_state_ = state.name_to_attr_state_ := by
        rw [← hst]; split <;> rfl
      have hids : state'.id_to_attr_state_ = state.id_to_attr_state_.set id
          { attr_state with
            data_ := { attr_state.data_ with
              data := attr_state.data_.data.set attr_state.current_size_
                (some (cast attr_state.data_.dtype value)) }
            current_size_ := attr_state.current_size_ + 1 } := by
        rw [← hst]; split <;> rfl
      refine ⟨by rw [hmap]; exact hinv.keys_nodup, ?_, ?_⟩
      · intro key p hm
        rw [hmap] at hm
        obtain ⟨slot, hs, hn⟩ := hinv.entries key p hm
        rw [hids]
        by_cases hp : id = p
        · subst hp
          rw [hget] at hs
          cases hs
          have hlt2 : id < state.id_to_attr_state_.length := by
            by_contra hge
            rw [List.getElem?_eq_none (by omega)] at hget
            cases hget
          exact ⟨_, List.getElem?_set_self hlt2, hn⟩
        · exact ⟨slot, by rw [List.getElem?_set_ne hp]; exact hs, hn⟩
      · intro slot hs
        rw [hids] at hs
        rcases List.mem_or_eq_of_mem_set hs with hs | hs
        · exact hinv.slots slot hs
        · subst hs
          refine ⟨hs1, by simp [hs2], hs3, ?_⟩
          simp only
          omega
    · cases h

theorem ply_read_inv {R V : Type} (cast : Dtype → R → V) (N : Nat) (read_ok : Bool)
    (events : List (Nat × R)) (state state' : PLYReaderState V) (ok : Bool)
    (hinv : SessionInv N state)
    (h : ply_read cast read_ok state events = some (state', ok)) :
    SessionInv N state' := by
  induction events generalizing state with
  | nil => simp [ply_read] at h; rw [← h.1]; exact hinv
  | cons ev rest ih =>
    obtain ⟨id, value⟩ := ev
    simp only [ply_read] at h
    split at h
    · cases h
    · rename_i st1 ret h1
      have hinv1 := ReadAttrCallback_inv cast N state st1 id value ret hinv h1
      split at h
      · simp only [Option.some.injEq, Prod.mk.injEq] at h
        rw [← h.1]; exact hinv1
      · exact ih st1 hinv1 h

theorem lookup_mapErase_self (m : List (String × Nat)) (key : String) :
    (mapErase m key).lookup key = none := by
  induction m with
  | nil => rfl
  | cons kv m ih =>
    obtain ⟨k, p⟩ := kv
    by_cases h : k = key
    · simpa [mapErase, List.filter_cons, h] using ih
    · have h2 : (key == k) = false := by simpa using fun e => h e.symm
      simpa [mapErase, List.filter_cons, h, List.lookup_cons, h2] using ih

theorem lookup_mapErase_of_ne (m : List (String × Nat)) (key other : String) (h : other ≠ key) :
    (mapErase m key).lookup other = m.lookup other := by
  induction m with
  | nil => rfl
  | cons kv m ih =>
    obtain ⟨k, p⟩ := kv
    by_cases hk : k = key
    · subst hk
      have h2 : (other == k) = false := by simpa using h
      simpa [mapErase, List.filter_cons, List.lookup_cons, h2] using ih
    · by_cases ho : other = k
      · simp [mapErase, List.filter_cons, hk, List.lookup_cons, ho]
      · have h2 : (other == k) = false := by simpa using ho
        simpa [mapErase, List.filter_cons, hk, List.lookup_cons, h2] using ih

theorem mapCount_ne_zero (m : List (String × Nat)) (key : String) :
    mapCount m key ≠ 0 ↔ (m.lookup key).isSome = true := by
  unfold mapCount; split <;> simp_all

theorem at_isSome_count {V : Type} (state : PLYReaderState V) (key : String) (slot : AttrState V)
    (h : state.at key = some slot) : mapCount state.name_to_attr_state_ key ≠ 0 := by
  rw [mapCount_ne_zero]
  unfold PLYReaderState.at at h
  cases hl : state.name_to_attr_state_.lookup key with
  | none => simp [hl] at h
  | some p => rfl

theorem assignColumns_eq_zipWith3 {V : Type} (N : Nat) (la lb lc : List (Option V)) (ha : la.length = N) (hb : lb.length = N) (hc : lc.length = N) :
  List.zipWith (fun row v => row.set 2 v) (List.zipWith (fun row v => row.set 1 v) (List.zipWith (fun row v => row.set 0 v) (List.replicate N [none, none, none]) la) lb) lc
   = List.zipWith3 (fun x y z => [x, y, z]) la lb lc := by
  induction N generalizing la lb lc with
  | zero => 
    simp at ha hb hc; subst ha hb hc; rfl
  | succ n ih =>
    cases la with
    | nil => simp at ha
    | cons x la => 
      cases lb with
      | nil => simp at hb
      | cons y lb =>
        cases lc with
        | nil => simp at hc
        | cons z lc =>
          simp at ha hb hc
          simp [List.replicate_succ, List.zipWith3, ih la lb lc ha hb hc]

theorem ConcatColumns_ok {V : Type} (a b c : Tensor V) (N : Nat) (dtype : Dtype)
    (hsa : a.shape = [N]) (hsb : b.shape = [N]) (hsc : c.shape = [N])
    (hla : a.data.length = N) (hlb : b.data.length = N) (hlc : c.data.length = N)
    (hda : a.dtype = dtype) (hdb : b.dtype = dtype) (hdc : c.dtype = dtype) :
    ConcatColumns a b c = .ok
      { size := N, element_shape := [3], dtype := dtype,
        data := List.zipWith3 (fun x y z => [x, y, z]) a.data b.data c.data } := by
  simp [ConcatColumns, Tensor.NumDims, Tensor.dim0, hsa, hsb, hsc, hda, hdb, hdc,
    TensorList.create, TensorList.assignColumn, List.replicate, assignColumns_eq_zipWith3 N a.data b.data c.data hla hlb hlc]

theorem lookup_filter_append_self {β : Type} (l : List (String × β)) (key : String) (v : β) :
    ((l.filter fun kv => kv.1 ≠ key) ++ [(key, v)]).lookup key = some v := by
  induction l with
  | nil => simp [List.lookup_cons]
  | cons kv l ih =>
    obtain ⟨k, q⟩ := kv
    by_cases h : k = key
    · simpa [List.filter_cons, h] using ih
    · have h2 : (key == k) = false := by simpa using fun e => h e.symm
      simpa [List.filter_cons, h, List.lookup_cons, h2] using ih

theorem lookup_filter_append_of_ne {β : Type} (l : List (String × β)) (key other : String)
    (v : β) (h : other ≠ key) :
    ((l.filter fun kv => kv.1 ≠ key) ++ [(key, v)]).lookup other = l.lookup other := by
  have h3 : (other == key) = false := by simpa using h
  induction l with
  | nil => simp [List.lookup_cons, h3]
  | cons kv l ih =>
    obtain ⟨k, q⟩ := kv
    by_cases hk : k = key
    · subst hk
      have h2 : (other == k) = false := by simpa using h
      simpa [List.filter_cons, List.lookup_cons, h2] using ih
    · by_cases ho : other = k
      · simp [List.filter_cons, hk, List.lookup_cons, ho]
      · have h2 : (other == k) = false := by simpa using ho
        simpa [List.filter_cons, hk, List.lookup_cons, h2] using ih

theorem GetPointAttr_SetPointAttr_self {V : Type} (pointcloud : PointCloud V) (key : String)
    (value : TensorList V) : (pointcloud.SetPointAttr key value).GetPointAttr key = some value :=
  lookup_filter_append_self pointcloud.point_attr key value

theorem GetPointAttr_SetPointAttr_of_ne {V : Type} (pointcloud : PointCloud V)
    (key other : String) (value : TensorList V) (h : other ≠ key) :
    (pointcloud.SetPointAttr key value).GetPointAttr other = pointcloud.GetPointAttr other :=
  lookup_filter_append_of_ne pointcloud.point_attr key other value h

theorem setRemainingAttrs_some {V : Type} (state : PLYReaderState V)
    (entries : List (String × Nat)) (pointcloud : PointCloud V)
    (hcons : ∀ key p, (key, p) ∈ entries →
      ∃ slot, state.id_to_attr_state_[p]? = some slot ∧ slot.name_ = key) :
    ∃ pointcloud', setRemainingAttrs state entries pointcloud = some pointcloud' := by
  induction entries generalizing pointcloud with
  | nil => exact ⟨_, rfl⟩
  | cons it rest ih =>
    obtain ⟨slot, hs, -⟩ := hcons it.1 it.2 (List.mem_cons_self _ _)
    simp only [setRemainingAttrs, hs]
    exact ih _ fun key p hm => hcons key p (List.mem_cons_of_mem _ hm)

theorem setRemainingAttrs_frame {V : Type} (state : PLYReaderState V)
    (entries : List (String × Nat)) (pointcloud pointcloud' : PointCloud V)
    (hcons : ∀ key p, (key, p) ∈ entries →
      ∃ slot, state.id_to_attr_state_[p]? = some slot ∧ slot.name_ = key)
    (h : setRemainingAttrs state entries pointcloud = some pointcloud') :
    pointcloud'.points = pointcloud.points ∧
    pointcloud'.point_normals = pointcloud.point_normals ∧
    pointcloud'.point_colors = pointcloud.point_colors ∧
    ∀ key, key ∉ entries.map Prod.fst →
      pointcloud'.GetPointAttr key = pointcloud.GetPointAttr key := by
  induction entries generalizing pointcloud with
  | nil =>
    simp only [setRemainingAttrs, Option.some.injEq] at h
    subst h
    exact ⟨rfl, rfl, rfl, fun _ _ => rfl⟩
  | cons it rest ih =>
    obtain ⟨slot, hs, hn⟩ := hcons it.1 it.2 (List.mem_cons_self _ _)
    simp only [setRemainingAttrs, hs] at h
    obtain ⟨h1, h2, h3, h4⟩ := ih _ (fun key p hm => hcons key p (List.mem_cons_of_mem _ hm)) h
    refine ⟨h1, h2, h3, ?_⟩
    intro key hk
    simp only [List.map_cons, List.mem_cons, not_or] at hk
    rw [h4 key hk.2, GetPointAttr_SetPointAttr_of_ne]
    rw [hn]
    exact hk.1

theorem setRemainingAttrs_lookup {V : Type} (state : PLYReaderState V)
    (entries : List (String × Nat)) (pointcloud pointcloud' : PointCloud V)
    (hnodup : (entries.map Prod.fst).Nodup)
    (hcons : ∀ key p, (key, p) ∈ entries →
      ∃ slot, state.id_to_attr_state_[p]? = some slot ∧ slot.name_ = key)
    (h : setRemainingAttrs state entries pointcloud = some pointcloud')
    (key : String) (p : Nat) (slot : AttrState V) (hmem : (key, p) ∈ entries)
    (hslot : state.id_to_attr_state_[p]? = some slot) :
    pointcloud'.GetPointAttr key = some (TensorList.FromTensor slot.data_) := by
  induction entries generalizing pointcloud with
  | nil => simp at hmem
  | cons it rest ih =>
    obtain ⟨slot1, hs, hn⟩ := hcons it.1 it.2 (List.mem_cons_self _ _)
    simp only [setRemainingAttrs, hs] at h
    simp only [List.map_cons, List.nodup_cons] at hnodup
    have hcons' : ∀ key p, (key, p) ∈ rest →
        ∃ slot, state.id_to_attr_state_[p]? = some slot ∧ slot.name_ = key :=
      fun key p hm => hcons key p (List.mem_cons_of_mem _ hm)
    rcases List.mem_cons.mp hmem with hm | hm
    · subst hm
      simp only at hs hn hnodup
      rw [hslot] at hs
      cases hs
      rw [(setRemainingAttrs_frame state rest _ _ hcons' h).2.2.2 key hnodup.1, hn]
      exact GetPointAttr_SetPointAttr_self _ _ _
    · exact ih _ hnodup.2 hcons' h hm

theorem mapCount_eq_zero (m : List (String × Nat)) (key : String) :
    mapCount m key = 0 ↔ m.lookup key = none := by
  unfold mapCount
  cases m.lookup key <;> simp

theorem mergeTriplet_done {V : Type} (n1 n2 n3 : String)
    (setter : PointCloud V → TensorList V → PointCloud V)
    (state state' : PLYReaderState V) (pointcloud pointcloud' : PointCloud V)
    (h : mergeTriplet n1 n2 n3 setter state pointcloud = .done state' pointcloud') :
    state'.id_to_attr_state_ = state.id_to_attr_state_ ∧
    (∀ key, key ≠ n1 → key ≠ n2 → key ≠ n3 →
      state'.name_to_attr_state_.lookup key = state.name_to_attr_state_.lookup key) ∧
    (¬ tripletComplete state.name_to_attr_state_ n1 n2 n3 →
      state' = state ∧ pointcloud' = pointcloud) ∧
    state'.name_to_attr_state_.Sublist state.name_to_attr_state_ ∧
    (pointcloud' = pointcloud ∨ ∃ columns, pointcloud' = setter pointcloud columns) := by
  unfold mergeTriplet at h
  split at h
  · rename_i hc
    split at h
    · split at h
      · cases h
      · simp only [Outcome.done.injEq] at h
        obtain ⟨rfl, rfl⟩ := h
        refine ⟨rfl, ?_, ?_, ?_, Or.inr ⟨_, rfl⟩⟩
        · intro key k1 k2 k3
          simp [lookup_mapErase_of_ne, k1, k2, k3]
        · intro hm
          exact absurd hc hm
        · exact (List.filter_sublist _).trans
            ((List.filter_sublist _).trans (List.filter_sublist _))
    · cases h
  · simp only [Outcome.done.injEq] at h
    obtain ⟨rfl, rfl⟩ := h
    exact ⟨rfl, fun _ _ _ _ => rfl, fun _ => ⟨rfl, rfl⟩, List.Sublist.refl _, Or.inl rfl⟩
theorem tripletComplete_congr (m m' : List (String × Nat)) (n1 n2 n3 : String)
    (h1 : m'.lookup n1 = m.lookup n1) (h2 : m'.lookup n2 = m.lookup n2)
    (h3 : m'.lookup n3 = m.lookup n3) :
    tripletComplete m' n1 n2 n3 ↔ tripletComplete m n1 n2 n3 := by
  simp only [tripletComplete, mapCount, h1, h2, h3]

theorem at_eq_some {V : Type} (state : PLYReaderState V) (key : String) (slot : AttrState V) :
    state.at key = some slot ↔
      ∃ p, state.name_to_attr_state_.lookup key = some p ∧
        state.id_to_attr_state_[p]? = some slot := by
  unfold PLYReaderState.at
  cases state.name_to_attr_state_.lookup key <;> simp

theorem assemble_done {V : Type} (N : Nat) (state : PLYReaderState V)
    (pointcloud pointcloud' : PointCloud V) (ok : Bool) (hinv : SessionInv N state)
    (h : assemble state pointcloud = .done ok pointcloud') :
    ok = true ∧
    (¬ tripletComplete state.name_to_attr_state_ "x" "y" "z" → pointcloud'.points = none) ∧
    (¬ tripletComplete state.name_to_attr_state_ "nx" "ny" "nz" →
      pointcloud'.point_normals = none) ∧
    (¬ tripletComplete state.name_to_attr_state_ "red" "green" "blue" →
      pointcloud'.point_colors = none) ∧
    ∀ key slot, state.at key = some slot →
      (key ∈ ["x", "y", "z"] → ¬ tripletComplete state.name_to_attr_state_ "x" "y" "z") →
      (key ∈ ["nx", "ny", "nz"] →
        ¬ tripletComplete state.name_to_attr_state_ "nx" "ny" "nz") →
      (key ∈ ["red", "green", "blue"] →
        ¬ tripletComplete state.name_to_attr_state_ "red" "green" "blue") →
      pointcloud'.GetPointAttr key = some (TensorList.FromTensor slot.data_) := by
  unfold assemble at h
  simp only at h
  split at h
  · cases h
  · cases h
  · rename_i st1 pc1 h1
    split at h
    · cases h
    · cases h
    · rename_i st2 pc2 h2
      split at h
      · cases h
      · cases h
      · rename_i st3 pc3 h3
        split at h
        · cases h
        · rename_i pc4 h4
          simp only [Outcome.done.injEq] at h
          obtain ⟨rfl, rfl⟩ := h
          obtain ⟨a1, b1, c1, d1, e1⟩ := mergeTriplet_done _ _ _ _ _ _ _ _ h1
          obtain ⟨a2, b2, c2, d2, e2⟩ := mergeTriplet_done _ _ _ _ _ _ _ _ h2
          obtain ⟨a3, b3, c3, d3, e3⟩ := mergeTriplet_done _ _ _ _ _ _ _ _ h3
          have hsub : st3.name_to_attr_state_.Sublist state.name_to_attr_state_ :=
            d3.trans (d2.trans d1)
          have hids : st3.id_to_attr_state_ = state.id_to_attr_state_ := by
            rw [a3, a2, a1]
          have hcons : ∀ key p, (key, p) ∈ st3.name_to_attr_state_ →
              ∃ slot, st3.id_to_attr_state_[p]? = some slot ∧ slot.name_ = key := by
            intro key p hm
            rw [hids]
            exact hinv.entries key p (hsub.subset hm)
          have hnodup : (st3.name_to_attr_state_.map Prod.fst).Nodup :=
            hinv.keys_nodup.sublist (hsub.map _)
          obtain ⟨f1, f2, f3, -⟩ := setRemainingAttrs_frame st3 _ pc3 pc4 hcons h4
          have hn1 : tripletComplete st1.name_to_attr_state_ "nx" "ny" "nz" ↔
              tripletComplete state.name_to_attr_state_ "nx" "ny" "nz" :=
            tripletComplete_congr _ _ _ _ _
              (b1 _ (by decide) (by decide) (by decide))
              (b1 _ (by decide) (by decide) (by decide))
              (b1 _ (by decide) (by decide) (by decide))
          have hn2 : tripletComplete st2.name_to_attr_state_ "red" "green" "blue" ↔
              tripletComplete state.name_to_attr_state_ "red" "green" "blue" :=
            tripletComplete_congr _ _ _ _ _
              ((b2 _ (by decide) (by decide) (by decide)).trans
                (b1 _ (by decide) (by decide) (by decide)))
              ((b2 _ (by decide) (by decide) (by decide)).trans
                (b1 _ (by decide) (by decide) (by decide)))
              ((b2 _ (by decide) (by decide) (by decide)).trans
                (b1 _ (by decide) (by decide) (by decide)))
          have p32 : pc3.points = pc2.points ∧ pc3.point_normals = pc2.point_normals := by
            rcases e3 with rfl | ⟨c, rfl⟩ <;> exact ⟨rfl, rfl⟩
          have p21 : pc2.points = pc1.points ∧ pc2.point_colors = pc1.point_colors := by
            rcases e2 with rfl | ⟨c, rfl⟩ <;> exact ⟨rfl, rfl⟩
          have p10 : pc1.point_normals = none ∧ pc1.point_colors = none := by
            rcases e1 with rfl | ⟨c, rfl⟩ <;> exact ⟨rfl, rfl⟩
          refine ⟨rfl, ?_, ?_, ?_, ?_⟩
          · intro hx
            rw [f1, p32.1, p21.1, (c1 hx).2]
            rfl
          · intro hx
            rw [f2, p32.2, (c2 (mt hn1.mp hx)).2, p10.1]
          · intro hx
            rw [f3, (c3 (mt hn2.mp hx)).2, p21.2, p10.2]
          · intro key slot hat hx hn hc
            obtain ⟨p, hl, hs⟩ := (at_eq_some state key slot).mp hat
            have l1 : st1.name_to_attr_state_.lookup key = some p := by
              by_cases hk : key ∈ ["x", "y", "z"]
              · rw [(c1 (hx hk)).1]; exact hl
              · simp only [List.mem_cons, List.mem_singleton, List.not_mem_nil, or_false,
                  not_or] at hk
                rw [b1 key hk.1 hk.2.1 hk.2.2]; exact hl
            have l2 : st2.name_to_attr_state_.lookup key = some p := by
              by_cases hk : key ∈ ["nx", "ny", "nz"]
              · rw [(c2 (mt hn1.mp (hn hk))).1]; exact l1
              · simp only [List.mem_cons, List.mem_singleton, List.not_mem_nil, or_false,
                  not_or] at hk
                rw [b2 key hk.1 hk.2.1 hk.2.2]; exact l1
            have l3 : st3.name_to_attr_state_.lookup key = some p := by
              by_cases hk : key ∈ ["red", "green", "blue"]
              · rw [(c3 (mt hn2.mp (hc hk))).1]; exact l2
              · simp only [List.mem_cons, List.mem_singleton, List.not_mem_nil, or_false,
                  not_or] at hk
                rw [b3 key hk.1 hk.2.1 hk.2.2]; exact l2
            exact setRemainingAttrs_lookup st3 _ pc3 pc4 hnodup hcons h4 key p slot
              (lookup_mem _ _ _ l3) (by rw [hids]; exact hs)

theorem elementLoop_diverges {R V : Type} (cast : Dtype → R → V) (ply_file : PlyFile R)
    (pointcloud : PointCloud V) (element : PlyElement) (hname : element.name ≠ "vertex")
    (fuel : Nat) : elementLoop cast ply_file pointcloud fuel (some element) = none := by
  induction fuel with
  | zero => rfl
  | succ n ih => simp only [elementLoop, hname, ne_eq, not_false_eq_true, if_true, ih]

theorem elementLoop_some {R V : Type} (cast : Dtype → R → V) (ply_file : PlyFile R)
    (pointcloud : PointCloud V) (fuel : Nat) (element : Option PlyElement)
    (out : Outcome V Bool)
    (h : elementLoop cast ply_file pointcloud fuel element = some out) :
    (element = none ∧ out = .done false pointcloud) ∨
    (∃ e, element = some e ∧ e.name = "vertex" ∧
      out = readVertexElement cast ply_file e pointcloud) := by
  cases element with
  | none =>
    cases fuel with
    | zero => simp [elementLoop] at h
    | succ n => simp only [elementLoop, Option.some.injEq] at h; exact Or.inl ⟨rfl, h.symm⟩
  | some e =>
    by_cases hname : e.name = "vertex"
    · cases fuel with
      | zero => simp [elementLoop] at h
      | succ n =>
        simp only [elementLoop, hname, ne_eq, not_true_eq_false, if_false,
          Option.some.injEq] at h
        exact Or.inr ⟨e, rfl, hname, h.symm⟩
    · rw [elementLoop_diverges cast ply_file pointcloud e hname fuel] at h
      cases h

theorem ReadPointCloudFromPLY_true {R V : Type} (cast : Dtype → R → V) (fuel : Nat)
    (ply_file : PlyFile R) (pointcloud pointcloud' : PointCloud V)
    (h : ReadPointCloudFromPLY cast fuel ply_file pointcloud = some (.done true pointcloud')) :
    ∃ element, ply_file.elements.head? = some element ∧ element.name = "vertex" ∧
      readVertexElement cast ply_file element pointcloud = .done true pointcloud' := by
  unfold ReadPointCloudFromPLY at h
  split at h
  · simp at h
  · split at h
    · simp at h
    · rcases elementLoop_some cast ply_file pointcloud fuel _ _ h with ⟨-, h2⟩ | ⟨e, h1, h2, h3⟩
      · simp at h2
      · exact ⟨e, h1, h2, h3.symm⟩

theorem readVertexElement_done {R V : Type} (cast : Dtype → R → V) (ply_file : PlyFile R)
    (element : PlyElement) (pointcloud pointcloud' : PointCloud V) (ok : Bool)
    (h : readVertexElement cast ply_file element pointcloud = .done ok pointcloud') :
    ∃ (state0 state : PLYReaderState V) (read_ok : Bool),
      registerProperties ply_file element.name element.ninstances PLYReaderState.init
        element.properties = .ok state0 ∧
      ply_read cast ply_file.read_ok state0 ply_file.events = some (state, read_ok) ∧
      SessionInv element.ninstances state ∧
      ((read_ok = false ∧ ok = false ∧ pointcloud' = pointcloud) ∨
        (read_ok = true ∧ assemble state pointcloud = .done ok pointcloud')) := by
  unfold readVertexElement at h
  simp only at h
  split at h
  · cases h
  · rename_i state0 h0
    split at h
    · cases h
    · rename_i state read_ok h1
      have hinv : SessionInv element.ninstances state :=
        ply_read_inv cast _ _ _ _ _ _
          (registerProperties_inv ply_file _ _ _ _ _ (SessionInv_init _) h0) h1
      refine ⟨state0, state, read_ok, h0, h1, hinv, ?_⟩
      cases read_ok with
      | false =>
        simp only [Bool.not_false, if_true, Outcome.done.injEq] at h
        exact Or.inl ⟨rfl, h.1.symm, h.2.symm⟩
      | true =>
        simp only [Bool.not_true, Bool.false_eq_true, if_false] at h
        exact Or.inr ⟨rfl, h⟩

theorem FromTensor_slot {V : Type} (N : Nat) (state : PLYReaderState V) (key : String)
    (slot : AttrState V) (hinv : SessionInv N state) (h : state.at key = some slot) :
    (TensorList.FromTensor slot.data_).size = N ∧
    (TensorList.FromTensor slot.data_).element_shape = [] ∧
    (TensorList.FromTensor slot.data_).dtype = slot.data_.dtype ∧
    (TensorList.FromTensor slot.data_).data = slot.data_.data.map fun v => [v] := by
  obtain ⟨p, -, hs⟩ := (at_eq_some state key slot).mp h
  obtain ⟨h1, -, -, -⟩ := hinv.slots slot (List.getElem?_mem hs)
  simp [TensorList.FromTensor, Tensor.dim0, h1]

theorem ConcatColumns_datatype_mismatch {V : Type} (a b c : Tensor V) (N : Nat)
    (hsa : a.shape = [N]) (hsb : b.shape = [N]) (hsc : c.shape = [N])
    (hd : ¬ (a.dtype = b.dtype ∧ a.dtype = c.dtype)) :
    ConcatColumns a b c = .error .datatype_mismatch := by
  have hd' : a.dtype ≠ b.dtype ∨ a.dtype ≠ c.dtype := by
    by_contra hn
    push_neg at hn
    exact hd hn
  simp only [ConcatColumns, Tensor.NumDims, Tensor.dim0, hsa, hsb, hsc, List.length_singleton,
    ne_eq, not_true_eq_false, or_self, if_false]
  rw [if_pos hd']

theorem SessionInv_of_sublist {V : Type} (N : Nat) (state state' : PLYReaderState V)
    (hids : state'.id_to_attr_state_ = state.id_to_attr_state_)
    (hsub : state'.name_to_attr_state_.Sublist state.name_to_attr_state_)
    (hinv : SessionInv N state) : SessionInv N state' :=
  ⟨hinv.keys_nodup.sublist (hsub.map _),
   fun key p hm => by rw [hids]; exact hinv.entries key p (hsub.subset hm),
   by rw [hids]; exact hinv.slots⟩

theorem at_congr {V : Type} (state state' : PLYReaderState V) (key : String)
    (hids : state'.id_to_attr_state_ = state.id_to_attr_state_)
    (hl : state'.name_to_attr_state_.lookup key = state.name_to_attr_state_.lookup key) :
    state'.at key = state.at key := by
  unfold PLYReaderState.at
  rw [hids, hl]

theorem at_of_count {V : Type} (N : Nat) (state : PLYReaderState V) (key : String)
    (hinv : SessionInv N state) (h : mapCount state.name_to_attr_state_ key ≠ 0) :
    ∃ slot, state.at key = some slot ∧ slot.data_.shape = [N] ∧
      slot.data_.data.length = N := by
  rw [mapCount_ne_zero] at h
  obtain ⟨p, hp⟩ := Option.isSome_iff_exists.mp h
  obtain ⟨slot, hs, -⟩ := hinv.entries key p (lookup_mem _ _ _ hp)
  obtain ⟨h1, h2, -, -⟩ := hinv.slots slot (List.getElem?_mem hs)
  exact ⟨slot, (at_eq_some state key slot).mpr ⟨p, hp, hs⟩, h1, h2⟩

theorem mergeTriplet_cases {V : Type} (N : Nat) (n1 n2 n3 : String)
    (setter : PointCloud V → TensorList V → PointCloud V)
    (state : PLYReaderState V) (pointcloud : PointCloud V) (hinv : SessionInv N state) :
    (inconsistentTriplet state n1 n2 n3 ∧ mergedAttr state n1 n2 n3 = none ∧
      mergeTriplet n1 n2 n3 setter state pointcloud = .threw .datatype_mismatch pointcloud) ∨
    (¬ inconsistentTriplet state n1 n2 n3 ∧
      ¬ tripletComplete state.name_to_attr_state_ n1 n2 n3 ∧
      mergedAttr state n1 n2 n3 = none ∧
      mergeTriplet n1 n2 n3 setter state pointcloud = .done state pointcloud) ∨
    (¬ inconsistentTriplet state n1 n2 n3 ∧
      tripletComplete state.name_to_attr_state_ n1 n2 n3 ∧
      ∃ columns, mergedAttr state n1 n2 n3 = some columns ∧
        mergeTriplet n1 n2 n3 setter state pointcloud =
          .done { state with
                  name_to_attr_state_ :=
                    mapErase (mapErase (mapErase state.name_to_attr_state_ n1) n2) n3 }
            (setter pointcloud columns)) := by
  by_cases hc : tripletComplete state.name_to_attr_state_ n1 n2 n3
  · obtain ⟨a, ha, hsa, hla⟩ := at_of_count N state n1 hinv hc.1
    obtain ⟨b, hb, hsb, hlb⟩ := at_of_count N state n2 hinv hc.2.1
    obtain ⟨c, hcc, hsc, hlc⟩ := at_of_count N state n3 hinv hc.2.2
    by_cases hd : a.data_.dtype = b.data_.dtype ∧ a.data_.dtype = c.data_.dtype
    · right; right
      obtain ⟨columns, hok⟩ : ∃ columns, ConcatColumns a.data_ b.data_ c.data_ = .ok columns :=
        ⟨_, ConcatColumns_ok a.data_ b.data_ c.data_ N a.data_.dtype hsa hsb hsc
          hla hlb hlc rfl hd.1.symm hd.2.symm⟩
      refine ⟨?_, hc, columns, ?_, ?_⟩
      · rintro ⟨a', b', c', ha', hb', hc', hne⟩
        rw [ha] at ha'; rw [hb] at hb'; rw [hcc] at hc'
        cases ha'; cases hb'; cases hc'
        exact hne hd
      · simp only [mergedAttr, ha, hb, hcc, hok]
      · simp only [mergeTriplet, if_pos hc, ha, hb, hcc, hok]
    · left
      have herr := ConcatColumns_datatype_mismatch a.data_ b.data_ c.data_ N hsa hsb hsc hd
      refine ⟨⟨a, b, c, ha, hb, hcc, hd⟩, ?_, ?_⟩
      · simp only [mergedAttr, ha, hb, hcc, herr]
      · simp only [mergeTriplet, if_pos hc, ha, hb, hcc, herr]
  · right; left
    have hnone : state.at n1 = none ∨ state.at n2 = none ∨ state.at n3 = none := by
      by_contra hn
      push_neg at hn
      obtain ⟨h1, h2, h3⟩ := hn
      obtain ⟨a, ha⟩ := Option.ne_none_iff_exists'.mp h1
      obtain ⟨b, hb⟩ := Option.ne_none_iff_exists'.mp h2
      obtain ⟨c, hcc⟩ := Option.ne_none_iff_exists'.mp h3
      exact hc ⟨at_isSome_count state n1 a ha, at_isSome_count state n2 b hb,
        at_isSome_count state n3 c hcc⟩
    refine ⟨?_, hc, ?_, ?_⟩
    · rintro ⟨a, b, c, ha, hb, hcc, -⟩
      rcases hnone with h | h | h
      · rw [h] at ha; cases ha
      · rw [h] at hb; cases hb
      · rw [h] at hcc; cases hcc
    · unfold mergedAttr
      rcases hnone with h | h | h
      · rw [h]
      · rw [h]; cases state.at n1 <;> rfl
      · rw [h]; cases state.at n1 <;> cases state.at n2 <;> rfl
    · simp only [mergeTriplet, if_neg hc]
theorem inconsistentTriplet_congr {V : Type} (state state' : PLYReaderState V)
    (n1 n2 n3 : String) (hids : state'.id_to_attr_state_ = state.id_to_attr_state_)
    (h1 : state'.name_to_attr_state_.lookup n1 = state.name_to_attr_state_.lookup n1)
    (h2 : state'.name_to_attr_state_.lookup n2 = state.name_to_attr_state_.lookup n2)
    (h3 : state'.name_to_attr_state_.lookup n3 = state.name_to_attr_state_.lookup n3) :
    inconsistentTriplet state' n1 n2 n3 ↔ inconsistentTriplet state n1 n2 n3 := by
  unfold inconsistentTriplet
  rw [at_congr state state' n1 hids h1, at_congr state state' n2 hids h2,
    at_congr state state' n3 hids h3]

theorem mergedAttr_congr {V : Type} (state state' : PLYReaderState V)
    (n1 n2 n3 : String) (hids : state'.id_to_attr_state_ = state.id_to_attr_state_)
    (h1 : state'.name_to_attr_state_.lookup n1 = state.name_to_attr_state_.lookup n1)
    (h2 : state'.name_to_attr_state_.lookup n2 = state.name_to_attr_state_.lookup n2)
    (h3 : state'.name_to_attr_state_.lookup n3 = state.name_to_attr_state_.lookup n3) :
    mergedAttr state' n1 n2 n3 = mergedAttr state n1 n2 n3 := by
  unfold mergedAttr
  rw [at_congr state state' n1 hids h1, at_congr state state' n2 hids h2,
    at_congr state state' n3 hids h3]

theorem mergeTriplet_step {V : Type} (N : Nat) (n1 n2 n3 : String)
    (setter : PointCloud V → TensorList V → PointCloud V)
    (state : PLYReaderState V) (pointcloud : PointCloud V) (hinv : SessionInv N state) :
    (inconsistentTriplet state n1 n2 n3 ∧ mergedAttr state n1 n2 n3 = none ∧
      mergeTriplet n1 n2 n3 setter state pointcloud = .threw .datatype_mismatch pointcloud) ∨
    (¬ inconsistentTriplet state n1 n2 n3 ∧
      ∃ state' pointcloud',
        mergeTriplet n1 n2 n3 setter state pointcloud = .done state' pointcloud' ∧
        SessionInv N state' ∧
        state'.id_to_attr_state_ = state.id_to_attr_state_ ∧
        (∀ key, key ≠ n1 → key ≠ n2 → key ≠ n3 →
          state'.name_to_attr_state_.lookup key = state.name_to_attr_state_.lookup key) ∧
        ((mergedAttr state n1 n2 n3 = none ∧ pointcloud' = pointcloud) ∨
          ∃ columns, mergedAttr state n1 n2 n3 = some columns ∧
            pointcloud' = setter pointcloud columns)) := by
  rcases mergeTriplet_cases N n1 n2 n3 setter state pointcloud hinv with
    ⟨hb, hm, h⟩ | ⟨hb, -, hm, h⟩ | ⟨hb, -, columns, hm, h⟩
  · exact Or.inl ⟨hb, hm, h⟩
  · obtain ⟨a, b, -, d, -⟩ := mergeTriplet_done _ _ _ _ _ _ _ _ h
    exact Or.inr ⟨hb, _, _, h, hinv, rfl, b, Or.inl ⟨hm, rfl⟩⟩
  · obtain ⟨a, b, -, d, -⟩ := mergeTriplet_done _ _ _ _ _ _ _ _ h
    exact Or.inr ⟨hb, _, _, h, SessionInv_of_sublist N state _ a d hinv, a, b,
      Or.inr ⟨columns, hm, rfl⟩⟩

theorem assemble_outcome {V : Type} (N : Nat) (state : PLYReaderState V)
    (pointcloud : PointCloud V) (hinv : SessionInv N state) :
    ∃ pointcloud',
      (assemble state pointcloud = .threw .datatype_mismatch pointcloud' ∧
          pointcloud'.point_attr = [] ∨
        assemble state pointcloud = .done true pointcloud') ∧
      (assemble state pointcloud = .done true pointcloud' ↔
        ¬ inconsistentTriplet state "x" "y" "z" ∧ ¬ inconsistentTriplet state "nx" "ny" "nz" ∧
          ¬ inconsistentTriplet state "red" "green" "blue") ∧
      pointcloud'.points = mergedAttr state "x" "y" "z" ∧
      (inconsistentTriplet state "x" "y" "z" → pointcloud'.point_normals = none) ∧
      (¬ inconsistentTriplet state "x" "y" "z" →
        pointcloud'.point_normals = mergedAttr state "nx" "ny" "nz") ∧
      (inconsistentTriplet state "x" "y" "z" ∨ inconsistentTriplet state "nx" "ny" "nz" →
        pointcloud'.point_colors = none) ∧
      (¬ inconsistentTriplet state "x" "y" "z" → ¬ inconsistentTriplet state "nx" "ny" "nz" →
        pointcloud'.point_colors = mergedAttr state "red" "green" "blue") := by
  rcases mergeTriplet_step N "x" "y" "z" PointCloud.SetPoints state pointcloud.Clear hinv with
    ⟨bx, mx, h1⟩ | ⟨bx, st1, pc1, h1, inv1, ids1, l1, e1⟩
  · have ha : assemble state pointcloud = .threw .datatype_mismatch pointcloud.Clear := by
      simp only [assemble, h1]
    refine ⟨pointcloud.Clear, Or.inl ⟨ha, rfl⟩, ?_, mx.symm, fun _ => rfl,
      fun h => absurd bx h, fun _ => rfl, fun h => absurd bx h⟩
    rw [ha]
    exact ⟨fun h => (by cases h), fun h => absurd bx h.1⟩
  have bn_iff : inconsistentTriplet st1 "nx" "ny" "nz" ↔
      inconsistentTriplet state "nx" "ny" "nz" :=
    inconsistentTriplet_congr state st1 _ _ _ ids1
      (l1 _ (by decide) (by decide) (by decide)) (l1 _ (by decide) (by decide) (by decide))
      (l1 _ (by decide) (by decide) (by decide))
  have mn_eq : mergedAttr st1 "nx" "ny" "nz" = mergedAttr state "nx" "ny" "nz" :=
    mergedAttr_congr state st1 _ _ _ ids1
      (l1 _ (by decide) (by decide) (by decide)) (l1 _ (by decide) (by decide) (by decide))
      (l1 _ (by decide) (by decide) (by decide))
  have hp1 : pc1.points = mergedAttr state "x" "y" "z" ∧ pc1.point_normals = none ∧
      pc1.point_colors = none ∧ pc1.point_attr = [] := by
    rcases e1 with ⟨hm, rfl⟩ | ⟨columns, hm, rfl⟩
    · exact ⟨hm.symm, rfl, rfl, rfl⟩
    · exact ⟨hm.symm, rfl, rfl, rfl⟩
  rcases mergeTriplet_step N "nx" "ny" "nz" PointCloud.SetPointNormals st1 pc1 inv1 with
    ⟨bn, mn, h2⟩ | ⟨bn, st2, pc2, h2, inv2, ids2, l2, e2⟩
  · have ha : assemble state pointcloud = .threw .datatype_mismatch pc1 := by
      simp only [assemble, h1, h2]
    refine ⟨pc1, Or.inl ⟨ha, hp1.2.2.2⟩, ?_, hp1.1, fun _ => hp1.2.1,
      fun _ => by rw [hp1.2.1, ← mn_eq, mn], fun _ => hp1.2.2.1,
      fun _ h => absurd (bn_iff.mp bn) h⟩
    rw [ha]
    exact ⟨fun h => (by cases h), fun h => absurd (bn_iff.mp bn) h.2.1⟩
  have bc_iff : inconsistentTriplet st2 "red" "green" "blue" ↔
      inconsistentTriplet state "red" "green" "blue" :=
    inconsistentTriplet_congr state st2 _ _ _ (ids2.trans ids1)
      ((l2 _ (by decide) (by decide) (by decide)).trans
        (l1 _ (by decide) (by decide) (by decide)))
      ((l2 _ (by decide) (by decide) (by decide)).trans
        (l1 _ (by decide) (by decide) (by decide)))
      ((l2 _ (by decide) (by decide) (by decide)).trans
        (l1 _ (by decide) (by decide) (by decide)))
  have mc_eq : mergedAttr st2 "red" "green" "blue" = mergedAttr state "red" "green" "blue" :=
    mergedAttr_congr state st2 _ _ _ (ids2.trans ids1)
      ((l2 _ (by decide) (by decide) (by decide)).trans
        (l1 _ (by decide) (by decide) (by decide)))
      ((l2 _ (by decide) (by decide) (by decide)).trans
        (l1 _ (by decide) (by decide) (by decide)))
      ((l2 _ (by decide) (by decide) (by decide)).trans
        (l1 _ (by decide) (by decide) (by decide)))
  have hp2 : pc2.points = mergedAttr state "x" "y" "z" ∧
      pc2.point_normals = mergedAttr state "nx" "ny" "nz" ∧
      pc2.point_colors = none ∧ pc2.point_attr = [] := by
    rcases e2 with ⟨hm, rfl⟩ | ⟨columns, hm, rfl⟩
    · exact ⟨hp1.1, by rw [hp1.2.1, ← mn_eq, hm], hp1.2.2.1, hp1.2.2.2⟩
    · exact ⟨hp1.1, by rw [← mn_eq, hm]; rfl, hp1.2.2.1, hp1.2.2.2⟩
  rcases mergeTriplet_step N "red" "green" "blue" PointCloud.SetPointColors st2 pc2 inv2 with
    ⟨bc, mc, h3⟩ | ⟨bc, st3, pc3, h3, inv3, ids3, l3, e3⟩
  · have ha : assemble state pointcloud = .threw .datatype_mismatch pc2 := by
      simp only [assemble, h1, h2, h3]
    refine ⟨pc2, Or.inl ⟨ha, hp2.2.2.2⟩, ?_, hp2.1, fun h => absurd h bx, fun _ => hp2.2.1,
      fun _ => hp2.2.2.1, fun _ _ => by rw [hp2.2.2.1, ← mc_eq, mc]⟩
    rw [ha]
    exact ⟨fun h => (by cases h), fun h => absurd (bc_iff.mp bc) h.2.2⟩
  have hp3 : pc3.points = mergedAttr state "x" "y" "z" ∧
      pc3.point_normals = mergedAttr state "nx" "ny" "nz" ∧
      pc3.point_colors = mergedAttr state "red" "green" "blue" := by
    rcases e3 with ⟨hm, rfl⟩ | ⟨columns, hm, rfl⟩
    · exact ⟨hp2.1, hp2.2.1, by rw [hp2.2.2.1, ← mc_eq, hm]⟩
    · exact ⟨hp2.1, hp2.2.1, by rw [← mc_eq, hm]; rfl⟩
  obtain ⟨pc4, h4⟩ := setRemainingAttrs_some st3 st3.name_to_attr_state_ pc3 inv3.entries
  obtain ⟨f1, f2, f3, -⟩ := setRemainingAttrs_frame st3 _ pc3 pc4 inv3.entries h4
  have ha : assemble state pointcloud = .done true pc4 := by
    simp only [assemble, h1, h2, h3, h4]
  exact ⟨pc4, Or.inr ha, ⟨fun _ => ⟨bx, mt bn_iff.mpr bn, mt bc_iff.mpr bc⟩, fun _ => ha⟩,
    f1.trans hp3.1, fun h => absurd h bx, fun _ => f2.trans hp3.2.1,
    fun h => (h.elim (fun h => absurd h bx) (fun h => absurd h (mt bn_iff.mpr bn))),
    fun _ _ => f3.trans hp3.2.2⟩

theorem mergedAttr_inconsistent {V : Type} (N : Nat) (state : PLYReaderState V)
    (n1 n2 n3 : String) (hinv : SessionInv N state)
    (h : inconsistentTriplet state n1 n2 n3) : mergedAttr state n1 n2 n3 = none := by
  rcases mergeTriplet_cases N n1 n2 n3 (fun pointcloud _ => pointcloud) state
    ⟨none, none, none, []⟩ hinv with ⟨-, hm, -⟩ | ⟨hb, -⟩ | ⟨hb, -⟩
  · exact hm
  · exact absurd h hb
  · exact absurd h hb

theorem ReadPointCloudFromPLY_vertex {R V : Type} (cast : Dtype → R → V) (fuel : Nat)
    (ply_file : PlyFile R) (pointcloud : PointCloud V) (element : PlyElement)
    (hopen : ply_file.open_ok = true) (hheader : ply_file.header_ok = true)
    (hel : ply_file.elements.head? = some element) (hname : element.name = "vertex") :
    ReadPointCloudFromPLY cast (fuel + 1) ply_file pointcloud =
      some (readVertexElement cast ply_file element pointcloud) := by
  simp [ReadPointCloudFromPLY, hopen, hheader, hel, elementLoop, hname]

theorem readVertexElement_assemble {R V : Type} (cast : Dtype → R → V) (ply_file : PlyFile R)
    (element : PlyElement) (pointcloud : PointCloud V) (state0 state : PLYReaderState V)
    (hreg : registerProperties ply_file element.name element.ninstances PLYReaderState.init
      element.properties = .ok state0)
    (hread : ply_read cast ply_file.read_ok state0 ply_file.events = some (state, true)) :
    readVertexElement cast ply_file element pointcloud = assemble state pointcloud ∧
    SessionInv element.ninstances state := by
  refine ⟨?_, ply_read_inv cast _ _ _ _ _ _
    (registerProperties_inv ply_file _ _ _ _ _ (SessionInv_init _) hreg) hread⟩
  simp [readVertexElement, hreg, hread]

theorem registerProperties_mismatch {R V : Type} (ply_file : PlyFile R) (element_name : String)
    (N : Nat) (attrs : List PlyProperty) (state : PLYReaderState V) (attr : PlyProperty)
    (hmem : attr ∈ attrs) (hsup : GetDtype attr.type ≠ Dtype.Undefined)
    (hcount : ply_file.set_read_cb element_name attr.name ≠ N) :
    ∃ (before after : List PlyProperty) (first : PlyProperty) (state' : PLYReaderState V),
      attrs = before ++ first :: after ∧
      (attr = first ∨ attr ∈ after) ∧
      GetDtype first.type ≠ Dtype.Undefined ∧
      ply_file.set_read_cb element_name first.name ≠ N ∧
      registerProperties ply_file element_name N state before = .ok state' ∧
      state'.id_to_attr_state_.length = state.id_to_attr_state_.length +
        (before.filter fun p => GetDtype p.type ≠ Dtype.Undefined).length ∧
      registerProperty ply_file element_name N state' first =
        .error (.total_size_mismatch first.name (ply_file.set_read_cb element_name first.name)
          element_name N) ∧
      registerProperties ply_file element_name N state attrs =
        .error (.total_size_mismatch first.name (ply_file.set_read_cb element_name first.name)
          element_name N) := by
  induction attrs generalizing state with
  | nil => simp at hmem
  | cons p rest ih =>
    by_cases hp : GetDtype p.type = Dtype.Undefined
    · have hne : attr ≠ p := fun e => hsup (e ▸ hp)
      have hmem' : attr ∈ rest := by
        rcases List.mem_cons.mp hmem with h | h
        · exact absurd h hne
        · exact h
      have hstep : registerProperty ply_file element_name N state p = .ok state := by
        simp [registerProperty, hp]
      obtain ⟨before, after, first, state', h1, h2, h3, h4, h5, h6, h7, h8⟩ :=
        ih state hmem'
      refine ⟨p :: before, after, first, state', by rw [h1]; rfl, h2, h3, h4, ?_, ?_, h7, ?_⟩
      · simp only [registerProperties, hstep, h5]
      · simp only [List.filter_cons, hp, ne_eq, not_true_eq_false, decide_False]
        exact h6
      · simp only [registerProperties, hstep, h8]
    · by_cases hc : ply_file.set_read_cb element_name p.name = N
      · have hne : attr ≠ p := fun e => hcount (e ▸ hc)
        have hmem' : attr ∈ rest := by
          rcases List.mem_cons.mp hmem with h | h
          · exact absurd h hne
          · exact h
        obtain ⟨st1, hstep, hlen⟩ : ∃ st1 : PLYReaderState V,
            registerProperty ply_file element_name N state p = .ok st1 ∧
            st1.id_to_attr_state_.length = state.id_to_attr_state_.length + 1 := by
          refine ⟨_, by simp only [registerProperty, hp, hc, if_false, ne_eq,
            not_true_eq_false]; rfl, by simp⟩
        obtain ⟨before, after, first, state', h1, h2, h3, h4, h5, h6, h7, h8⟩ :=
          ih st1 hmem'
        refine ⟨p :: before, after, first, state', by rw [h1]; rfl, h2, h3, h4, ?_, ?_, h7, ?_⟩
        · simp only [registerProperties, hstep, h5]
        · simp only [List.filter_cons, hp, ne_eq, not_false_eq_true, decide_True, if_true,
            List.length_cons]
          simp only [ne_eq] at h6
          omega
        · simp only [registerProperties, hstep, h8]
      · have hstep : registerProperty ply_file element_name N state p =
            .error (.total_size_mismatch p.name (ply_file.set_read_cb element_name p.name)
              element_name N) := by
          simp only [registerProperty, hp, if_false, ne_eq, hc, not_false_eq_true, if_true]
        refine ⟨[], rest, p, state, rfl, ?_, hp, hc, rfl, by simp, hstep, ?_⟩
        · rcases List.mem_cons.mp hmem with h | h
          · exact Or.inl h
          · exact Or.inr h
        · simp only [registerProperties, hstep]

theorem registerProperties_congr {R V : Type} (ply_file ply_file' : PlyFile R)
    (h : ply_file'.set_read_cb = ply_file.set_read_cb) (element_name : String) (N : Nat)
    (attrs : List PlyProperty) (state : PLYReaderState V) :
    registerProperties ply_file' element_name N state attrs =
      registerProperties ply_file element_name N state attrs := by
  induction attrs generalizing state with
  | nil => rfl
  | cons p rest ih =>
    have hstep : registerProperty ply_file' element_name N state p =
        registerProperty ply_file element_name N state p := by
      simp only [registerProperty, h]
    simp only [registerProperties, hstep]
    cases registerProperty ply_file element_name N state p with
    | error e => rfl
    | ok st => exact ih st
theorem registerProperties_slots {R V : Type} (ply_file : PlyFile R)
    (element_name : String) (N : Nat) (attrs : List PlyProperty)
    (state state' : PLYReaderState V)
    (h : registerProperties ply_file element_name N state attrs = .ok state') :
    state'.id_to_attr_state_ = state.id_to_attr_state_ ++
      (supportedProperties attrs).map (fun attr =>
        ({ name_ := attr.name, data_ := Tensor.create N (GetDtype attr.type),
           total_size_ := N, current_size_ := 0 } : AttrState V)) ∧
    (∀ key ∈ state'.name_to_attr_state_.map Prod.fst,
      key ∈ state.name_to_attr_state_.map Prod.fst ∨
        key ∈ (supportedProperties attrs).map PlyProperty.name) ∧
    state'.progress_bar_ = state.progress_bar_ := by
  induction attrs generalizing state with
  | nil =>
    simp only [registerProperties, Except.ok.injEq] at h
    subst h
    simp [supportedProperties]
  | cons p rest ih =>
    simp only [registerProperties] at h
    split at h
    · cases h
    · rename_i st1 h1
      obtain ⟨i1, i2, i3⟩ := ih st1 h
      by_cases hp : GetDtype p.type = Dtype.Undefined
      · have hf : supportedProperties (p :: rest) = supportedProperties rest := by
          simp [supportedProperties, List.filter_cons, hp]
        have hst : st1 = state := by
          simp [registerProperty, hp] at h1
          exact h1.symm
        subst hst
        rw [hf]
        exact ⟨i1, i2, i3⟩
      · have hf : supportedProperties (p :: rest) = p :: supportedProperties rest := by
          simp [supportedProperties, List.filter_cons, hp]
        rw [hf]
        simp only [registerProperty, hp, if_false] at h1
        split at h1
        · cases h1
        · rename_i hc
          have hc : ply_file.set_read_cb element_name p.name = N := by simpa using hc
          simp only [Except.ok.injEq] at h1
          subst h1
          simp only [hc] at i1 i2 i3
          refine ⟨by rw [i1]; simp, ?_, i3⟩
          intro key hk
          rcases i2 key hk with h2 | h2
          · simp only [mapInsert] at h2
            split at h2
            · exact Or.inl h2
            · simp only [List.map_append, List.map_cons, List.map_nil, List.mem_append,
                List.mem_singleton] at h2
              rcases h2 with h2 | h2
              · exact Or.inl h2
              · exact Or.inr (by simp [h2])
          · exact Or.inr (List.mem_cons_of_mem _ h2)

theorem ReadAttrCallback_map {R V : Type} (cast : Dtype → R → V)
    (state state' : PLYReaderState V) (id : Nat) (value : R) (ret : Nat)
    (h : ReadAttrCallback cast state id value = some (state', ret)) :
    state'.name_to_attr_state_ = state.name_to_attr_state_ ∧ ret = 1 := by
  unfold ReadAttrCallback at h
  split at h
  · cases h
  · split at h
    · simp only [Option.some.injEq, Prod.mk.injEq] at h
      obtain ⟨hst, hret⟩ := h
      refine ⟨?_, hret.symm⟩
      rw [← hst]; split <;> rfl
    · cases h

theorem ply_read_map {R V : Type} (cast : Dtype → R → V) (read_ok : Bool)
    (events : List (Nat × R)) (state state' : PLYReaderState V) (ok : Bool)
    (h : ply_read cast read_ok state events = some (state', ok)) :
    state'.name_to_attr_state_ = state.name_to_attr_state_ ∧ ok = read_ok := by
  induction events generalizing state with
  | nil =>
    simp only [ply_read, Option.some.injEq, Prod.mk.injEq] at h
    exact ⟨by rw [← h.1], h.2.symm⟩
  | cons ev rest ih =>
    obtain ⟨id, value⟩ := ev
    simp only [ply_read] at h
    split at h
    · cases h
    · rename_i st1 ret h1
      obtain ⟨hm, hr⟩ := ReadAttrCallback_map cast state st1 id value ret h1
      subst hr
      simp only [Nat.one_ne_zero, if_false] at h
      obtain ⟨i1, i2⟩ := ih st1 h
      exact ⟨i1.trans hm, i2⟩

theorem take_succ_set {α : Type} (l : List α) (c : Nat) (x : α) (h : c < l.length) :
    (l.set c x).take (c + 1) = l.take c ++ [x] := by
  induction l generalizing c with
  | nil => simp at h
  | cons a l ih =>
    cases c with
    | zero => simp
    | succ c =>
      simp only [List.length_cons, Nat.add_lt_add_iff_right] at h
      simp [ih c h]

theorem delivered_cons_self {R : Type} (id : Nat) (value : R) (rest : List (Nat × R)) :
    delivered ((id, value) :: rest) id = value :: delivered rest id := by
  simp [delivered, List.filter_cons]

theorem delivered_cons_of_ne {R : Type} (id k : Nat) (value : R) (rest : List (Nat × R))
    (h : id ≠ k) : delivered ((id, value) :: rest) k = delivered rest k := by
  simp [delivered, List.filter_cons, h]

theorem ReadAttrCallback_ok {R V : Type} (cast : Dtype → R → V) (state : PLYReaderState V)
    (id : Nat) (value : R) (slot : AttrState V)
    (hslot : state.id_to_attr_state_[id]? = some slot)
    (hroom : slot.current_size_ < slot.data_.data.length) :
    ∃ state', ReadAttrCallback cast state id value = some (state', 1) ∧
      state'.name_to_attr_state_ = state.name_to_attr_state_ ∧
      state'.id_to_attr_state_ = state.id_to_attr_state_.set id
        { name_ := slot.name_
          data_ := { shape := slot.data_.shape, dtype := slot.data_.dtype,
                     data := slot.data_.data.set slot.current_size_
                       (some (cast slot.data_.dtype value)) }
          total_size_ := slot.total_size_
          current_size_ := slot.current_size_ + 1 } ∧
      state'.progress_bar_ = state.progress_bar_ ++
        (if (slot.current_size_ + 1) % 1000 = 0 then [slot.current_size_ + 1] else []) := by
  unfold ReadAttrCallback
  simp only [hslot, hroom, if_true]
  by_cases hp : (slot.current_size_ + 1) % 1000 = 0
  · simp only [hp, if_true]
    exact ⟨_, rfl, rfl, rfl, rfl⟩
  · simp only [hp, if_false]
    exact ⟨_, rfl, rfl, rfl, by simp⟩

theorem ply_read_fill {R V : Type} (cast : Dtype → R → V) (read_ok : Bool)
    (events : List (Nat × R)) (state : PLYReaderState V)
    (hids : ∀ event ∈ events, event.1 < state.id_to_attr_state_.length)
    (hroom : ∀ k slot, state.id_to_attr_state_[k]? = some slot →
      slot.current_size_ + (delivered events k).length ≤ slot.data_.data.length) :
    ∃ state', ply_read cast read_ok state events = some (state', read_ok) ∧
      state'.id_to_attr_state_.length = state.id_to_attr_state_.length ∧
      ∀ k slot, state.id_to_attr_state_[k]? = some slot →
        ∃ slot', state'.id_to_attr_state_[k]? = some slot' ∧
          slot'.name_ = slot.name_ ∧ slot'.total_size_ = slot.total_size_ ∧
          slot'.data_.shape = slot.data_.shape ∧ slot'.data_.dtype = slot.data_.dtype ∧
          slot'.current_size_ = slot.current_size_ + (delivered events k).length ∧
          slot'.data_.data = slot.data_.data.take slot.current_size_ ++
            (delivered events k).map (fun value => some (cast slot.data_.dtype value)) ++
            slot.data_.data.drop (slot.current_size_ + (delivered events k).length) := by
  induction events generalizing state with
  | nil =>
    refine ⟨state, rfl, rfl, fun k slot hs => ⟨slot, hs, rfl, rfl, rfl, rfl, ?_, ?_⟩⟩
    · simp [delivered]
    · simp [delivered]
  | cons ev rest ih =>
    obtain ⟨id, value⟩ := ev
    have hid : id < state.id_to_attr_state_.length := hids (id, value) (List.mem_cons_self _ _)
    obtain ⟨slot0, hslot0⟩ : ∃ slot0, state.id_to_attr_state_[id]? = some slot0 :=
      ⟨_, List.getElem?_eq_getElem hid⟩
    have hroom0 := hroom id slot0 hslot0
    rw [delivered_cons_self, List.length_cons] at hroom0
    obtain ⟨state1, hcb, -, hids1, -⟩ :=
      ReadAttrCallback_ok cast state id value slot0 hslot0 (by omega)
    have hlen1 : state1.id_to_attr_state_.length = state.id_to_attr_state_.length := by
      rw [hids1, List.length_set]
    obtain ⟨state', hread, hlen, hfill⟩ := ih state1
      (fun event he => by rw [hlen1]; exact hids event (List.mem_cons_of_mem _ he))
      (by
        intro k slot1 hs1
        rw [hids1] at hs1
        by_cases hk : id = k
        · subst hk
          rw [List.getElem?_set_self hid] at hs1
          cases hs1
          simp only [List.length_set]
          omega
        · rw [List.getElem?_set_ne hk] at hs1
          have := hroom k slot1 hs1
          rw [delivered_cons_of_ne id k value rest hk] at this
          exact this)
    refine ⟨state', ?_, hlen.trans hlen1, ?_⟩
    · simp only [ply_read, hcb, Nat.one_ne_zero, if_false]
      exact hread
    · intro k slot hs
      by_cases hk : id = k
      · subst hk
        rw [hslot0] at hs
        cases hs
        obtain ⟨slot', g1, g2, g3, g4, g5, g6, g7⟩ := hfill id _
          (by rw [hids1]; exact List.getElem?_set_self hid)
        refine ⟨slot', g1, g2, g3, g4, g5, ?_, ?_⟩
        · rw [g6, delivered_cons_self, List.length_cons]
          simp only
          omega
        · rw [g7, delivered_cons_self]
          simp only [List.map_cons, List.length_cons]
          rw [take_succ_set _ _ _ (by omega), List.drop_set_of_lt _ _ (by omega)]
          simp only [List.append_assoc, List.singleton_append]
          congr 3
          omega
      · have hs1 : state1.id_to_attr_state_[k]? = some slot := by
          rw [hids1, List.getElem?_set_ne hk]; exact hs
        obtain ⟨slot', g⟩ := hfill k slot hs1
        rw [delivered_cons_of_ne id k value rest hk]
        exact ⟨slot', g⟩
theorem delivered_length_mono {R : Type} (small large : List (Nat × R)) (k : Nat)
    (h : small.Sublist large) : (delivered small k).length ≤ (delivered large k).length := by
  simp only [delivered, List.length_map]
  exact (h.filter _).length_le

theorem delivered_take_succ {R : Type} (events : List (Nat × R)) (n id : Nat) (value : R)
    (h : events[n]? = some (id, value)) :
    (delivered (events.take (n + 1)) id).length = (delivered (events.take n) id).length + 1 := by
  rw [List.take_succ, h]
  simp [delivered, List.filter_append]

theorem ply_read_prefix {R V : Type} (cast : Dtype → R → V) (read_ok : Bool) (N : Nat)
    (events : List (Nat × R)) (state : PLYReaderState V)
    (hslots : ∀ slot ∈ state.id_to_attr_state_,
      slot.total_size_ = N ∧ slot.data_.data.length = N ∧ slot.current_size_ = 0)
    (hids : ∀ event ∈ events, event.1 < state.id_to_attr_state_.length)
    (hcount : ∀ k, k < state.id_to_attr_state_.length → (delivered events k).length ≤ N)
    (n : Nat) :
    ∃ state', ply_read cast read_ok state (events.take n) = some (state', read_ok) ∧
      state'.id_to_attr_state_.length = state.id_to_attr_state_.length ∧
      ∀ k slot, state'.id_to_attr_state_[k]? = some slot →
        slot.total_size_ = N ∧ slot.data_.data.length = N ∧
        slot.current_size_ = (delivered (events.take n) k).length ∧
        (delivered (events.take n) k).length ≤ N := by
  have hle : ∀ k, k < state.id_to_attr_state_.length →
      (delivered (events.take n) k).length ≤ N := fun k hk =>
    (delivered_length_mono _ _ k (List.take_sublist n events)).trans (hcount k hk)
  obtain ⟨state', hread, hlen, hfill⟩ := ply_read_fill cast read_ok (events.take n) state
    (fun event he => hids event (List.mem_of_mem_take he))
    (by
      intro k slot hs
      have hk : k < state.id_to_attr_state_.length := by
        by_contra hge
        rw [List.getElem?_eq_none (by omega)] at hs
        cases hs
      obtain ⟨-, h2, h3⟩ := hslots slot (List.getElem?_mem hs)
      have := hle k hk
      omega)
  refine ⟨state', hread, hlen, ?_⟩
  intro k slot' hs'
  have hk : k < state.id_to_attr_state_.length := by
    by_contra hge
    rw [List.getElem?_eq_none (by omega)] at hs'
    cases hs'
  obtain ⟨slot, g1, -, g3, -, -, g6, g7⟩ := hfill k _ (List.getElem?_eq_getElem hk)
  rw [hs'] at g1
  cases g1
  obtain ⟨h1, h2, h3⟩ := hslots _ (List.getElem_mem hk)
  have hl := hle k hk
  refine ⟨g3.trans h1, ?_, by rw [g6, h3]; omega, hl⟩
  rw [g7]
  simp only [List.length_append, List.length_take, List.length_map, List.length_drop, h2, h3]
  omega
theorem updatesOfStep_ReadAttrCallback {R V : Type} (cast : Dtype → R → V)
    (state : PLYReaderState V) (id : Nat) (value : R) (slot : AttrState V)
    (hslot : state.id_to_attr_state_[id]? = some slot)
    (hroom : slot.current_size_ < slot.data_.data.length) :
    ∃ state', ReadAttrCallback cast state id value = some (state', 1) ∧
      updatesOfStep state state' =
        if (slot.current_size_ + 1) % 1000 = 0 then [slot.current_size_ + 1] else [] := by
  obtain ⟨state', h1, -, -, h4⟩ := ReadAttrCallback_ok cast state id value slot hslot hroom
  refine ⟨state', h1, ?_⟩
  simp [updatesOfStep, h4]

theorem multiples_of_thousand (n : Nat) :
    ((List.range n).map (fun j => 0 + j + 1)).filter (fun count => count % 1000 = 0) =
      (List.range (n / 1000)).map (fun j => 1000 * (j + 1)) := by
  induction n with
  | zero => simp
  | succ n ih =>
    rw [List.range_succ, List.map_append, List.filter_append, ih, Nat.succ_div]
    by_cases h : 1000 ∣ n + 1
    · have hmod : (0 + n + 1) % 1000 = 0 := by omega
      have hdiv : 1000 * (n / 1000 + 1) = 0 + n + 1 := by omega
      simp only [h, if_true, List.range_succ, List.map_append, List.map_cons, List.map_nil,
        List.filter_cons, hmod, decide_True, List.filter_nil, hdiv]
    · have hmod : ¬ (0 + n + 1) % 1000 = 0 := by omega
      simp only [h, if_false, Nat.add_zero, List.map_cons, List.map_nil, List.filter_cons, hmod,
        decide_False, List.filter_nil, List.append_nil]
      simp

theorem taggedUpdates_of_slot {R V : Type} (cast : Dtype → R → V)
    (events : List (Nat × R)) (state : PLYReaderState V)
    (hids : ∀ event ∈ events, event.1 < state.id_to_attr_state_.length)
    (hroom : ∀ k slot, state.id_to_attr_state_[k]? = some slot →
      slot.current_size_ + (delivered events k).length ≤ slot.data_.data.length)
    (k : Nat) (slot : AttrState V) (hslot : state.id_to_attr_state_[k]? = some slot) :
    ((taggedUpdates cast state events).filter (fun update => update.1 = k)).map Prod.snd =
      ((List.range (delivered events k).length).map
        (fun j => slot.current_size_ + j + 1)).filter (fun count => count % 1000 = 0) := by
  induction events generalizing state slot with
  | nil => simp [taggedUpdates, delivered]
  | cons ev rest ih =>
    obtain ⟨id, value⟩ := ev
    have hid : id < state.id_to_attr_state_.length := hids (id, value) (List.mem_cons_self _ _)
    obtain ⟨slot0, hslot0⟩ : ∃ slot0, state.id_to_attr_state_[id]? = some slot0 :=
      ⟨_, List.getElem?_eq_getElem hid⟩
    have hroom0 := hroom id slot0 hslot0
    rw [delivered_cons_self, List.length_cons] at hroom0
    obtain ⟨state1, hcb, -, hids1, hprog⟩ :=
      ReadAttrCallback_ok cast state id value slot0 hslot0 (by omega)
    have hupd : updatesOfStep state state1 =
        if (slot0.current_size_ + 1) % 1000 = 0 then [slot0.current_size_ + 1] else [] := by
      simp [updatesOfStep, hprog]
    have hlen1 : state1.id_to_attr_state_.length = state.id_to_attr_state_.length := by
      rw [hids1, List.length_set]
    have hids' : ∀ event ∈ rest, event.1 < state1.id_to_attr_state_.length :=
      fun event he => by rw [hlen1]; exact hids event (List.mem_cons_of_mem _ he)
    have hroom' : ∀ k slot, state1.id_to_attr_state_[k]? = some slot →
        slot.current_size_ + (delivered rest k).length ≤ slot.data_.data.length := by
      intro k slot1 hs1
      rw [hids1] at hs1
      by_cases hk : id = k
      · subst hk
        rw [List.getElem?_set_self hid] at hs1
        cases hs1
        simp only [List.length_set]
        omega
      · rw [List.getElem?_set_ne hk] at hs1
        have := hroom k slot1 hs1
        rw [delivered_cons_of_ne id k value rest hk] at this
        exact this
    simp only [taggedUpdates, hcb, List.filter_append, List.map_append]
    by_cases hk : id = k
    · subst hk
      rw [hslot0] at hslot
      cases hslot
      have hs1 : state1.id_to_attr_state_[id]? = some
          { name_ := slot.name_
            data_ := { shape := slot.data_.shape, dtype := slot.data_.dtype,
                       data := slot.data_.data.set slot.current_size_
                         (some (cast slot.data_.dtype value)) }
            total_size_ := slot.total_size_
            current_size_ := slot.current_size_ + 1 } := by
        rw [hids1]; exact List.getElem?_set_self hid
      rw [ih state1 hids' hroom' _ hs1, delivered_cons_self, List.length_cons,
        List.range_succ_eq_map, hupd]
      simp only [List.map_cons, List.map_map, List.filter_cons, Nat.add_zero]
      have hfun : ((fun j => slot.current_size_ + j + 1) ∘ Nat.succ) =
          fun j => slot.current_size_ + 1 + j + 1 := by
        funext j
        simp only [Function.comp, Nat.succ_eq_add_one]
        omega
      rw [hfun]
      by_cases hm : (slot.current_size_ + 1) % 1000 = 0
      · simp [hm]
      · simp [hm]
    · have hs1 : state1.id_to_attr_state_[k]? = some slot := by
        rw [hids1, List.getElem?_set_ne hk]; exact hslot
      rw [ih state1 hids' hroom' slot hs1, delivered_cons_of_ne id k value rest hk]
      have hnil : (List.filter (fun update => decide (update.1 = k))
          (List.map (fun count => (id, count)) (updatesOfStep state state1))) = [] := by
        rw [List.filter_eq_nil_iff]
        intro update hu
        obtain ⟨count, -, rfl⟩ := List.mem_map.mp hu
        simpa using hk
      rw [hnil]
      rfl

theorem ply_read_progress {R V : Type} (cast : Dtype → R → V) (read_ok : Bool)
    (events : List (Nat × R)) (state state' : PLYReaderState V) (ok : Bool)
    (h : ply_read cast read_ok state events = some (state', ok)) :
    state'.progress_bar_ =
      state.progress_bar_ ++ (taggedUpdates cast state events).map Prod.snd := by
  induction events generalizing state with
  | nil =>
    simp only [ply_read, Option.some.injEq, Prod.mk.injEq] at h
    simp [taggedUpdates, ← h.1]
  | cons ev rest ih =>
    obtain ⟨id, value⟩ := ev
    simp only [ply_read] at h
    split at h
    · cases h
    · rename_i st1 ret h1
      obtain ⟨-, hr⟩ := ReadAttrCallback_map cast state st1 id value ret h1
      subst hr
      simp only [Nat.one_ne_zero, if_false] at h
      have hgrow : st1.progress_bar_ =
          state.progress_bar_ ++ updatesOfStep state st1 := by
        have hid : ∃ slot, state.id_to_attr_state_[id]? = some slot ∧
            slot.current_size_ < slot.data_.data.length := by
          unfold ReadAttrCallback at h1
          split at h1
          · cases h1
          · rename_i slot hs
            split at h1
            · rename_i hlt; exact ⟨slot, hs, hlt⟩
            · cases h1
        obtain ⟨slot, hs, hlt⟩ := hid
        obtain ⟨st1', hcb, -, -, hp⟩ := ReadAttrCallback_ok cast state id value slot hs hlt
        rw [h1] at hcb
        cases hcb
        simp [updatesOfStep, hp]
      rw [ih st1 h, hgrow]
      simp [taggedUpdates, h1]
theorem lookup_append_singleton (m : List (String × Nat)) (key name : String) (p : Nat)
    (h : m.lookup name = none) :
    (m ++ [(name, p)]).lookup key =
      if key = name then some p else m.lookup key := by
  induction m with
  | nil =>
    by_cases hk : key = name
    · simp [List.lookup_cons, hk]
    · have h2 : (key == name) = false := by simpa using hk
      simp [List.lookup_cons, hk, h2]
  | cons kv m ih =>
    obtain ⟨k, q⟩ := kv
    by_cases hn : name = k
    · subst hn
      simp [List.lookup_cons] at h
    · have hn2 : (name == k) = false := by simpa using hn
      simp only [List.lookup_cons, hn2] at h
      by_cases hk : key = k
      · subst hk
        have : ¬ key = name := fun e => hn e.symm
        simp [List.lookup_cons, this]
      · have hk2 : (key == k) = false := by simpa using hk
        simp only [List.cons_append, List.lookup_cons, hk2]
        exact ih h

theorem registerProperties_names {R V : Type} (ply_file : PlyFile R) (element_name : String)
    (N : Nat) (attrs : List PlyProperty) (names : List String)
    (state state' : PLYReaderState V)
    (h : registerProperties ply_file element_name N state attrs = .ok state')
    (hids : state.id_to_attr_state_.map AttrState.name_ = names)
    (hlookup : ∀ key, state.name_to_attr_state_.lookup key =
      if key ∈ names then some (names.indexOf key) else none)
    (hkeys : names.Nodup → state.name_to_attr_state_.map Prod.fst = names) :
    state'.id_to_attr_state_.map AttrState.name_ =
      names ++ (supportedProperties attrs).map PlyProperty.name ∧
    (∀ key, state'.name_to_attr_state_.lookup key =
      if key ∈ names ++ (supportedProperties attrs).map PlyProperty.name then
        some ((names ++ (supportedProperties attrs).map PlyProperty.name).indexOf key)
      else none) ∧
    ((names ++ (supportedProperties attrs).map PlyProperty.name).Nodup →
      state'.name_to_attr_state_.map Prod.fst =
        names ++ (supportedProperties attrs).map PlyProperty.name) := by
  induction attrs generalizing state names with
  | nil =>
    simp only [registerProperties, Except.ok.injEq] at h
    subst h
    simpa [supportedProperties] using ⟨hids, hlookup, hkeys⟩
  | cons p rest ih =>
    simp only [registerProperties] at h
    split at h
    · cases h
    · rename_i st1 h1
      by_cases hp : GetDtype p.type = Dtype.Undefined
      · have hf : supportedProperties (p :: rest) = supportedProperties rest := by
          simp [supportedProperties, List.filter_cons, hp]
        have hst : st1 = state := by
          simp [registerProperty, hp] at h1
          exact h1.symm
        subst hst
        rw [hf]
        exact ih names st1 h hids hlookup hkeys
      · have hf : supportedProperties (p :: rest) = p :: supportedProperties rest := by
          simp [supportedProperties, List.filter_cons, hp]
        rw [hf]
        simp only [registerProperty, hp, if_false] at h1
        split at h1
        · cases h1
        · simp only [Except.ok.injEq] at h1
          subst h1
          have hlen : state.id_to_attr_state_.length = names.length := by
            rw [← hids, List.length_map]
          have hl : ∀ key, (mapInsert state.name_to_attr_state_ p.name
              state.id_to_attr_state_.length).lookup key =
              if key ∈ names ++ [p.name] then some ((names ++ [p.name]).indexOf key)
              else none := by
            intro key
            simp only [mapInsert]
            by_cases hmem : p.name ∈ names
            · have hsome : (state.name_to_attr_state_.lookup p.name).isSome = true := by
                rw [hlookup, if_pos hmem]; rfl
              rw [if_pos hsome, hlookup]
              by_cases hk : key ∈ names
              · rw [if_pos hk, if_pos (List.mem_append_left _ hk),
                  List.indexOf_append_of_mem hk]
              · have hk2 : key ∉ names ++ [p.name] := by
                  simp only [List.mem_append, List.mem_singleton, not_or]
                  exact ⟨hk, fun e => hk (e ▸ hmem)⟩
                rw [if_neg hk, if_neg hk2]
            · have hnone : state.name_to_attr_state_.lookup p.name = none := by
                rw [hlookup, if_neg hmem]
              have hns : ¬ (state.name_to_attr_state_.lookup p.name).isSome = true := by
                rw [hnone]; simp
              rw [if_neg hns, lookup_append_singleton _ _ _ _ hnone]
              by_cases hk : key = p.name
              · subst hk
                have hin : p.name ∈ names ++ [p.name] := by simp
                rw [if_pos rfl, if_pos hin, List.indexOf_append_of_not_mem hmem, hlen]
                simp
              · rw [if_neg hk, hlookup]
                by_cases hk2 : key ∈ names
                · rw [if_pos hk2, if_pos (List.mem_append_left _ hk2),
                    List.indexOf_append_of_mem hk2]
                · have hk3 : key ∉ names ++ [p.name] := by
                    simp only [List.mem_append, List.mem_singleton, not_or]
                    exact ⟨hk2, hk⟩
                  rw [if_neg hk2, if_neg hk3]
          have hkn : (names ++ [p.name]).Nodup →
              (mapInsert state.name_to_attr_state_ p.name
                state.id_to_attr_state_.length).map Prod.fst = names ++ [p.name] := by
            intro hnd
            rw [List.nodup_append] at hnd
            obtain ⟨hnd1, -, hdisj⟩ := hnd
            have hmem : p.name ∉ names := fun hm => hdisj hm (List.mem_singleton_self _)
            have hnone : state.name_to_attr_state_.lookup p.name = none := by
              rw [hlookup, if_neg hmem]
            have hns : ¬ (state.name_to_attr_state_.lookup p.name).isSome = true := by
              rw [hnone]; simp
            simp only [mapInsert, if_neg hns, List.map_append, List.map_cons, List.map_nil,
              hkeys hnd1]
          have hmain := ih (names ++ [p.name]) _ h (by simp [hids]) hl hkn
          simpa [List.append_assoc] using hmain

theorem registrationCalls_ids {R V : Type} (ply_file : PlyFile R) (element_name : String)
    (N : Nat) (attrs : List PlyProperty) (state state' : PLYReaderState V)
    (h : registerProperties ply_file element_name N state attrs = .ok state') :
    (registrationCalls ply_file element_name N state attrs).map Prod.fst =
      (supportedProperties attrs).map PlyProperty.name ∧
    (registrationCalls ply_file element_name N state attrs).map Prod.snd =
      List.range' state.id_to_attr_state_.length (supportedProperties attrs).length := by
  induction attrs generalizing state with
  | nil => simp [registrationCalls, supportedProperties]
  | cons p rest ih =>
    simp only [registerProperties] at h
    split at h
    · cases h
    · rename_i st1 h1
      obtain ⟨i1, i2⟩ := ih st1 h
      by_cases hp : GetDtype p.type = Dtype.Undefined
      · have hf : supportedProperties (p :: rest) = supportedProperties rest := by
          simp [supportedProperties, List.filter_cons, hp]
        have hst : st1 = state := by
          simp [registerProperty, hp] at h1
          exact h1.symm
        subst hst
        rw [hf]
        have hc : registrationCalls ply_file element_name N st1 (p :: rest) =
            registrationCalls ply_file element_name N st1 rest := by
          simp [registrationCalls, hp, h1]
        rw [hc]
        exact ⟨i1, i2⟩
      · have hf : supportedProperties (p :: rest) = p :: supportedProperties rest := by
          simp [supportedProperties, List.filter_cons, hp]
        have hlen : st1.id_to_attr_state_.length = state.id_to_attr_state_.length + 1 := by
          simp only [registerProperty, hp, if_false] at h1
          split at h1
          · cases h1
          · simp only [Except.ok.injEq] at h1
            subst h1
            simp
        have hc : registrationCalls ply_file element_name N state (p :: rest) =
            (p.name, state.id_to_attr_state_.length) ::
              registrationCalls ply_file element_name N st1 rest := by
          simp [registrationCalls, hp, h1]
        rw [hc, hf]
        simp only [List.map_cons, List.length_cons, List.range'_succ, i1, i2, hlen]
        exact ⟨trivial, trivial⟩

theorem registerProperties_prefix {R V : Type} (ply_file : PlyFile R) (element_name : String)
    (N : Nat) (before after : List PlyProperty) (state state' : PLYReaderState V)
    (h : registerProperties ply_file element_name N state (before ++ after) = .ok state') :
    ∃ middle, registerProperties ply_file element_name N state before = .ok middle ∧
      registerProperties ply_file element_name N middle after = .ok state' := by
  induction before generalizing state with
  | nil => exact ⟨state, rfl, h⟩
  | cons p rest ih =>
    simp only [List.cons_append, registerProperties] at h
    split at h
    · cases h
    · rename_i st1 h1
      obtain ⟨middle, hm1, hm2⟩ := ih st1 h
      exact ⟨middle, by simp only [registerProperties, h1]; exact hm1, hm2⟩

theorem ReadAttrCallback_stable {R V : Type} (cast : Dtype → R → V)
    (state state' : PLYReaderState V) (id : Nat) (value : R) (ret : Nat)
    (h : ReadAttrCallback cast state id value = some (state', ret)) :
    state'.id_to_attr_state_.length = state.id_to_attr_state_.length ∧
    ∀ (k : Nat) (slot : AttrState V), state.id_to_attr_state_[k]? = some slot →
      ∃ slot' : AttrState V, state'.id_to_attr_state_[k]? = some slot' ∧
        slot'.name_ = slot.name_ ∧ slot'.total_size_ = slot.total_size_ ∧
        slot'.data_.shape = slot.data_.shape ∧ slot'.data_.dtype = slot.data_.dtype := by
  have hid : ∃ slot, state.id_to_attr_state_[id]? = some slot ∧
      slot.current_size_ < slot.data_.data.length := by
    unfold ReadAttrCallback at h
    split at h
    · cases h
    · rename_i slot hs
      split at h
      · rename_i hlt; exact ⟨slot, hs, hlt⟩
      · cases h
  obtain ⟨slot0, hs0, hlt⟩ := hid
  obtain ⟨st1, hcb, -, hids, -⟩ := ReadAttrCallback_ok cast state id value slot0 hs0 hlt
  rw [h] at hcb
  simp only [Option.some.injEq, Prod.mk.injEq] at hcb
  obtain ⟨rfl, -⟩ := hcb
  refine ⟨by rw [hids, List.length_set], ?_⟩
  intro k slot hs
  rw [hids]
  by_cases hk : id = k
  · subst hk
    rw [hs0] at hs
    cases hs
    have hlen : id < state.id_to_attr_state_.length := by
      by_contra hge
      rw [List.getElem?_eq_none (by omega)] at hs0
      cases hs0
    exact ⟨_, List.getElem?_set_self hlen, rfl, rfl, rfl, rfl⟩
  · exact ⟨slot, by rw [List.getElem?_set_ne hk]; exact hs, rfl, rfl, rfl, rfl⟩

theorem ply_read_stable {R V : Type} (cast : Dtype → R → V) (read_ok : Bool)
    (events : List (Nat × R)) (state state' : PLYReaderState V) (ok : Bool)
    (h : ply_read cast read_ok state events = some (state', ok)) :
    state'.id_to_attr_state_.length = state.id_to_attr_state_.length ∧
    ∀ (k : Nat) (slot : AttrState V), state.id_to_attr_state_[k]? = some slot →
      ∃ slot' : AttrState V, state'.id_to_attr_state_[k]? = some slot' ∧
        slot'.name_ = slot.name_ ∧ slot'.total_size_ = slot.total_size_ ∧
        slot'.data_.shape = slot.data_.shape ∧ slot'.data_.dtype = slot.data_.dtype := by
  induction events generalizing state with
  | nil =>
    simp only [ply_read, Option.some.injEq, Prod.mk.injEq] at h
    obtain ⟨rfl, -⟩ := h
    exact ⟨rfl, fun k slot hs => ⟨slot, hs, rfl, rfl, rfl, rfl⟩⟩
  | cons ev rest ih =>
    obtain ⟨id, value⟩ := ev
    simp only [ply_read] at h
    split at h
    · cases h
    · rename_i st1 ret h1
      obtain ⟨-, hr⟩ := ReadAttrCallback_map cast state st1 id value ret h1
      subst hr
      simp only [Nat.one_ne_zero, if_false] at h
      obtain ⟨a1, a2⟩ := ReadAttrCallback_stable cast state st1 id value 1 h1
      obtain ⟨b1, b2⟩ := ih st1 h
      refine ⟨b1.trans a1, ?_⟩
      intro k slot hs
      obtain ⟨slot1, g1, g2, g3, g4, g5⟩ := a2 k slot hs
      obtain ⟨slot2, f1, f2, f3, f4, f5⟩ := b2 k slot1 g1
      exact ⟨slot2, f1, f2.trans g2, f3.trans g3, f4.trans g4, f5.trans g5⟩
theorem setRemainingAttrs_keys_eq {V : Type} (state : PLYReaderState V)
    (entries : List (String × Nat)) (pointcloud pointcloud' : PointCloud V)
    (hcons : ∀ key p, (key, p) ∈ entries →
      ∃ slot, state.id_to_attr_state_[p]? = some slot ∧ slot.name_ = key)
    (hnodup : (pointcloud.point_attr.map Prod.fst ++ entries.map Prod.fst).Nodup)
    (h : setRemainingAttrs state entries pointcloud = some pointcloud') :
    pointcloud'.point_attr.map Prod.fst =
      pointcloud.point_attr.map Prod.fst ++ entries.map Prod.fst := by
  induction entries generalizing pointcloud with
  | nil =>
    simp only [setRemainingAttrs, Option.some.injEq] at h
    subst h
    simp
  | cons it rest ih =>
    obtain ⟨slot, hs, hn⟩ := hcons it.1 it.2 (List.mem_cons_self _ _)
    simp only [setRemainingAttrs, hs] at h
    have hnot : it.1 ∉ pointcloud.point_attr.map Prod.fst := by
      intro hm
      rw [List.nodup_append] at hnodup
      exact hnodup.2.2 hm (by simp)
    have hfilter : (pointcloud.point_attr.filter fun kv => kv.1 ≠ it.1) =
        pointcloud.point_attr := by
      rw [List.filter_eq_self]
      intro kv hkv
      have : kv.1 ≠ it.1 := fun e => hnot (List.mem_map.mpr ⟨kv, hkv, e⟩)
      simpa using this
    have hkeys1 : (pointcloud.SetPointAttr slot.name_
        (TensorList.FromTensor slot.data_)).point_attr.map Prod.fst =
        pointcloud.point_attr.map Prod.fst ++ [it.1] := by
      simp only [PointCloud.SetPointAttr, hn, hfilter, List.map_append, List.map_cons,
        List.map_nil]
    have := ih _ (fun key p hm => hcons key p (List.mem_cons_of_mem _ hm))
      (by rw [hkeys1]; simpa [List.append_assoc] using hnodup) h
    rw [this, hkeys1]
    simp [List.append_assoc]

theorem mergeTriplet_done_lookup {V : Type} (n1 n2 n3 : String)
    (setter : PointCloud V → TensorList V → PointCloud V)
    (state state' : PLYReaderState V) (pointcloud pointcloud' : PointCloud V)
    (h : mergeTriplet n1 n2 n3 setter state pointcloud = .done state' pointcloud')
    (key : String) :
    (tripletComplete state.name_to_attr_state_ n1 n2 n3 → key ∈ [n1, n2, n3] →
      state'.name_to_attr_state_.lookup key = none) ∧
    (¬ (tripletComplete state.name_to_attr_state_ n1 n2 n3 ∧ key ∈ [n1, n2, n3]) →
      state'.name_to_attr_state_.lookup key = state.name_to_attr_state_.lookup key) := by
  obtain ⟨-, b, c, -, -⟩ := mergeTriplet_done _ _ _ _ _ _ _ _ h
  constructor
  · intro hc hk
    unfold mergeTriplet at h
    rw [if_pos hc] at h
    split at h
    · split at h
      · cases h
      · simp only [Outcome.done.injEq] at h
        obtain ⟨rfl, -⟩ := h
        simp only [List.mem_cons, List.mem_singleton, List.not_mem_nil, or_false] at hk
        have e3 := lookup_mapErase_self
          (mapErase (mapErase state.name_to_attr_state_ n1) n2) n3
        have e2 := lookup_mapErase_self (mapErase state.name_to_attr_state_ n1) n2
        have e1 := lookup_mapErase_self state.name_to_attr_state_ n1
        rcases hk with rfl | rfl | rfl
        · show List.lookup key (mapErase (mapErase (mapErase _ key) n2) n3) = none
          by_cases h3 : key = n3
          · subst h3; exact e3
          · rw [lookup_mapErase_of_ne _ _ _ h3]
            by_cases h2 : key = n2
            · subst h2; exact e2
            · rw [lookup_mapErase_of_ne _ _ _ h2]; exact e1
        · show List.lookup key (mapErase (mapErase (mapErase _ n1) key) n3) = none
          by_cases h3 : key = n3
          · subst h3; exact e3
          · rw [lookup_mapErase_of_ne _ _ _ h3]; exact e2
        · exact e3
    · cases h
  · intro hn
    by_cases hc : tripletComplete state.name_to_attr_state_ n1 n2 n3
    · have hk : key ∉ [n1, n2, n3] := fun hk => hn ⟨hc, hk⟩
      simp only [List.mem_cons, List.mem_singleton, List.not_mem_nil, or_false, not_or] at hk
      exact b key hk.1 hk.2.1 hk.2.2
    · rw [(c hc).1]

theorem assemble_done_attrs {V : Type} (N : Nat) (state : PLYReaderState V)
    (pointcloud pointcloud' : PointCloud V) (ok : Bool) (hinv : SessionInv N state)
    (h : assemble state pointcloud = .done ok pointcloud') :
    (pointcloud'.point_attr.map Prod.fst).Nodup ∧
    ∀ key, key ∈ pointcloud'.point_attr.map Prod.fst ↔
      key ∈ state.name_to_attr_state_.map Prod.fst ∧
        ¬ inCompleteTriplet state.name_to_attr_state_ key := by
  unfold assemble at h
  simp only at h
  split at h
  · cases h
  · cases h
  · rename_i st1 pc1 h1
    split at h
    · cases h
    · cases h
    · rename_i st2 pc2 h2
      split at h
      · cases h
      · cases h
      · rename_i st3 pc3 h3
        split at h
        · cases h
        · rename_i pc4 h4
          simp only [Outcome.done.injEq] at h
          obtain ⟨-, rfl⟩ := h
          obtain ⟨a1, b1, -, d1, e1⟩ := mergeTriplet_done _ _ _ _ _ _ _ _ h1
          obtain ⟨a2, b2, -, d2, e2⟩ := mergeTriplet_done _ _ _ _ _ _ _ _ h2
          obtain ⟨a3, -, -, d3, e3⟩ := mergeTriplet_done _ _ _ _ _ _ _ _ h3
          have hsub : st3.name_to_attr_state_.Sublist state.name_to_attr_state_ :=
            d3.trans (d2.trans d1)
          have hids : st3.id_to_attr_state_ = state.id_to_attr_state_ := by
            rw [a3, a2, a1]
          have hcons : ∀ key p, (key, p) ∈ st3.name_to_attr_state_ →
              ∃ slot, st3.id_to_attr_state_[p]? = some slot ∧ slot.name_ = key := by
            intro key p hm
            rw [hids]
            exact hinv.entries key p (hsub.subset hm)
          have hnd3 : (st3.name_to_attr_state_.map Prod.fst).Nodup :=
            hinv.keys_nodup.sublist (hsub.map _)
          have hp1 : pc1.point_attr = [] := by
            rcases e1 with rfl | ⟨c, rfl⟩ <;> rfl
          have hp2 : pc2.point_attr = [] := by
            rcases e2 with rfl | ⟨c, rfl⟩ <;> exact hp1
          have hp3 : pc3.point_attr = [] := by
            rcases e3 with rfl | ⟨c, rfl⟩ <;> exact hp2
          have hkeys := setRemainingAttrs_keys_eq st3 _ pc3 pc4 hcons
            (by rw [hp3]; simpa using hnd3) h4
          rw [hp3] at hkeys
          simp only [List.map_nil, List.nil_append] at hkeys
          have hn1 : tripletComplete st1.name_to_attr_state_ "nx" "ny" "nz" ↔
              tripletComplete state.name_to_attr_state_ "nx" "ny" "nz" :=
            tripletComplete_congr _ _ _ _ _
              (b1 _ (by decide) (by decide) (by decide))
              (b1 _ (by decide) (by decide) (by decide))
              (b1 _ (by decide) (by decide) (by decide))
          have hn2 : tripletComplete st2.name_to_attr_state_ "red" "green" "blue" ↔
              tripletComplete state.name_to_attr_state_ "red" "green" "blue" :=
            tripletComplete_congr _ _ _ _ _
              ((b2 _ (by decide) (by decide) (by decide)).trans
                (b1 _ (by decide) (by decide) (by decide)))
              ((b2 _ (by decide) (by decide) (by decide)).trans
                (b1 _ (by decide) (by decide) (by decide)))
              ((b2 _ (by decide) (by decide) (by decide)).trans
                (b1 _ (by decide) (by decide) (by decide)))
          refine ⟨by rw [hkeys]; exact hnd3, fun key => ?_⟩
          rw [hkeys]
          obtain ⟨x1, x2⟩ := mergeTriplet_done_lookup _ _ _ _ _ _ _ _ h1 key
          obtain ⟨y1, y2⟩ := mergeTriplet_done_lookup _ _ _ _ _ _ _ _ h2 key
          obtain ⟨z1, z2⟩ := mergeTriplet_done_lookup _ _ _ _ _ _ _ _ h3 key
          have hmem3 : key ∈ st3.name_to_attr_state_.map Prod.fst ↔
              st3.name_to_attr_state_.lookup key ≠ none := by
            rw [ne_eq, lookup_eq_none_iff, not_not]
          have hmem0 : key ∈ state.name_to_attr_state_.map Prod.fst ↔
              state.name_to_attr_state_.lookup key ≠ none := by
            rw [ne_eq, lookup_eq_none_iff, not_not]
          rw [hmem3, hmem0]
          constructor
          · intro hne
            have hz : ¬ (tripletComplete st2.name_to_attr_state_ "red" "green" "blue" ∧
                key ∈ ["red", "green", "blue"]) := fun hc => hne (z1 hc.1 hc.2)
            rw [z2 hz] at hne
            have hy : ¬ (tripletComplete st1.name_to_attr_state_ "nx" "ny" "nz" ∧
                key ∈ ["nx", "ny", "nz"]) := fun hc => hne (y1 hc.1 hc.2)
            rw [y2 hy] at hne
            have hx : ¬ (tripletComplete state.name_to_attr_state_ "x" "y" "z" ∧
                key ∈ ["x", "y", "z"]) := fun hc => hne (x1 hc.1 hc.2)
            rw [x2 hx] at hne
            refine ⟨hne, ?_⟩
            rintro (hc | hc | hc)
            · exact hx hc
            · exact hy ⟨hn1.mpr hc.1, hc.2⟩
            · exact hz ⟨hn2.mpr hc.1, hc.2⟩
          · rintro ⟨hne, hnot⟩
            have hx : ¬ (tripletComplete state.name_to_attr_state_ "x" "y" "z" ∧
                key ∈ ["x", "y", "z"]) := fun hc => hnot (Or.inl hc)
            have hy : ¬ (tripletComplete st1.name_to_attr_state_ "nx" "ny" "nz" ∧
                key ∈ ["nx", "ny", "nz"]) :=
              fun hc => hnot (Or.inr (Or.inl ⟨hn1.mp hc.1, hc.2⟩))
            have hz : ¬ (tripletComplete st2.name_to_attr_state_ "red" "green" "blue" ∧
                key ∈ ["red", "green", "blue"]) :=
              fun hc => hnot (Or.inr (Or.inr ⟨hn2.mp hc.1, hc.2⟩))
            rw [z2 hz, y2 hy, x2 hx]
            exact hne
theorem slot_reachable_by_name {R V : Type} (cast : Dtype → R → V) (ply_file : PlyFile R)
    (element_name : String) (N : Nat) (attrs : List PlyProperty) (read_ok ok : Bool)
    (events : List (Nat × R)) (state0 state : PLYReaderState V)
    (hreg : registerProperties ply_file element_name N PLYReaderState.init attrs = .ok state0)
    (hread : ply_read cast read_ok state0 events = some (state, ok))
    (hnd : ((supportedProperties attrs).map PlyProperty.name).Nodup) :
    state.name_to_attr_state_.map Prod.fst = (supportedProperties attrs).map PlyProperty.name ∧
    ∀ (k : Nat) (slot : AttrState V), state.id_to_attr_state_[k]? = some slot →
      state.at slot.name_ = some slot := by
  obtain ⟨s1, -, -⟩ := registerProperties_slots ply_file element_name N attrs _ state0 hreg
  obtain ⟨-, n2, n3⟩ := registerProperties_names ply_file element_name N attrs []
    PLYReaderState.init state0 hreg rfl (by simp [PLYReaderState.init])
    (by simp [PLYReaderState.init])
  simp only [List.nil_append] at n2 n3
  simp only [PLYReaderState.init, List.nil_append] at s1
  obtain ⟨hmap, -⟩ := ply_read_map cast read_ok events state0 state ok hread
  obtain ⟨hlen, hstable⟩ := ply_read_stable cast read_ok events state0 state ok hread
  refine ⟨by rw [hmap]; exact n3 hnd, ?_⟩
  intro k slot hs
  have hk : k < state0.id_to_attr_state_.length := by
    rw [← hlen]
    by_contra hge
    rw [List.getElem?_eq_none (by omega)] at hs
    cases hs
  obtain ⟨slot', g1, g2, -⟩ := hstable k _ (List.getElem?_eq_getElem hk)
  rw [hs] at g1
  cases g1
  have hk2 : k < (supportedProperties attrs).length := by
    rw [s1, List.length_map] at hk
    exact hk
  have hname0 : (state0.id_to_attr_state_[k]).name_ = (supportedProperties attrs)[k].name := by
    simp only [s1, List.getElem_map]
  have hlt : k < ((supportedProperties attrs).map PlyProperty.name).length := by
    rw [List.length_map]; exact hk2
  have hname : ((supportedProperties attrs).map PlyProperty.name)[k] = slot.name_ := by
    rw [g2, hname0, List.getElem_map]
  rw [at_eq_some]
  refine ⟨k, ?_, hs⟩
  rw [hmap, n2, if_pos (by rw [← hname]; exact List.getElem_mem hlt), ← hname,
    List.indexOf_getElem hnd k hlt]
theorem mergedAttr_some_complete {V : Type} (state : PLYReaderState V) (n1 n2 n3 : String)
    (h : mergedAttr state n1 n2 n3 ≠ none) :
    tripletComplete state.name_to_attr_state_ n1 n2 n3 := by
  unfold mergedAttr at h
  split at h
  · rename_i a b c ha hb hc
    exact ⟨at_isSome_count state n1 a ha, at_isSome_count state n2 b hb,
      at_isSome_count state n3 c hc⟩
  · exact absurd rfl h

theorem ReadPointCloudFromPLY_success {R V : Type} (cast : Dtype → R → V) (fuel : Nat)
    (ply_file : PlyFile R) (pointcloud pointcloud' : PointCloud V)
    (h : ReadPointCloudFromPLY cast fuel ply_file pointcloud = some (.done true pointcloud')) :
    ∃ (element : PlyElement) (state0 state : PLYReaderState V),
      ply_file.open_ok = true ∧ ply_file.header_ok = true ∧
      ply_file.elements.head? = some element ∧ element.name = "vertex" ∧
      registerProperties ply_file element.name element.ninstances PLYReaderState.init
        element.properties = .ok state0 ∧
      ply_read cast ply_file.read_ok state0 ply_file.events = some (state, true) ∧
      SessionInv element.ninstances state ∧
      assemble state pointcloud = .done true pointcloud' ∧
      ∃ n, fuel = n + 1 := by
  obtain ⟨element, hel, hname, hread⟩ := ReadPointCloudFromPLY_true cast fuel ply_file _ _ h
  obtain ⟨state0, state, read_ok, h0, h1, hinv, hcase⟩ :=
    readVertexElement_done cast ply_file element _ _ _ hread
  rcases hcase with ⟨-, hf, -⟩ | ⟨rfl, hasm⟩
  · cases hf
  have hopen : ply_file.open_ok = true := by
    by_contra hn
    simp [ReadPointCloudFromPLY, hn] at h
  have hheader : ply_file.header_ok = true := by
    by_contra hn
    simp [ReadPointCloudFromPLY, hopen, hn] at h
  refine ⟨element, state0, state, hopen, hheader, hel, hname, h0, h1, hinv, hasm, ?_⟩
  cases fuel with
  | zero => simp [ReadPointCloudFromPLY, hopen, hheader, elementLoop] at h
  | succ n => exact ⟨n, rfl⟩
/-- C3: on three one-dimensional columns `ConcatColumns` fails exactly when
the lengths are not all equal or the element types are not all equal; it fails
with the size mismatch whenever the lengths differ, and with the datatype
mismatch exactly when the lengths agree and the element types differ. -/
theorem ConcatColumns_failure {V : Type} (a b c : Tensor V)
    (ha : a.NumDims = 1) (hb : b.NumDims = 1) (hc : c.NumDims = 1) :
    ((∃ e, ConcatColumns a b c = .error e) ↔
      ¬ (a.dim0 = b.dim0 ∧ a.dim0 = c.dim0 ∧ b.dim0 = c.dim0) ∨
      ¬ (a.dtype = b.dtype ∧ a.dtype = c.dtype ∧ b.dtype = c.dtype)) ∧
    (¬ (a.dim0 = b.dim0 ∧ a.dim0 = c.dim0 ∧ b.dim0 = c.dim0) →
      ConcatColumns a b c = .error .size_mismatch) ∧
    (ConcatColumns a b c = .error .datatype_mismatch ↔
      (a.dim0 = b.dim0 ∧ a.dim0 = c.dim0 ∧ b.dim0 = c.dim0) ∧
      ¬ (a.dtype = b.dtype ∧ a.dtype = c.dtype ∧ b.dtype = c.dtype)) := by
  have hdim : (a.dim0 ≠ b.dim0 ∨ a.dim0 ≠ c.dim0) ↔
      ¬ (a.dim0 = b.dim0 ∧ a.dim0 = c.dim0 ∧ b.dim0 = c.dim0) := by
    constructor
    · rintro (h | h) ⟨h1, h2, _⟩
      · exact h h1
      · exact h h2
    · intro h
      by_contra hn
      push_neg at hn
      exact h ⟨hn.1, hn.2, hn.1.symm.trans hn.2⟩
  have hdt : (a.dtype ≠ b.dtype ∨ a.dtype ≠ c.dtype) ↔
      ¬ (a.dtype = b.dtype ∧ a.dtype = c.dtype ∧ b.dtype = c.dtype) := by
    constructor
    · rintro (h | h) ⟨h1, h2, _⟩
      · exact h h1
      · exact h h2
    · intro h
      by_contra hn
      push_neg at hn
      exact h ⟨hn.1, hn.2, hn.1.symm.trans hn.2⟩
  unfold ConcatColumns
  rw [if_neg (by simp [ha, hb, hc])]
  by_cases h1 : a.dim0 ≠ b.dim0 ∨ a.dim0 ≠ c.dim0
  · rw [if_pos h1]
    have h1' := hdim.mp h1
    refine ⟨⟨fun _ => Or.inl h1', fun _ => ⟨_, rfl⟩⟩, fun _ => rfl, ?_⟩
    constructor
    · intro h; cases h
    · intro h; exact absurd h.1 h1'
  · rw [if_neg h1]
    have h1' : a.dim0 = b.dim0 ∧ a.dim0 = c.dim0 ∧ b.dim0 = c.dim0 := by
      by_contra hn; exact h1 (hdim.mpr hn)
    by_cases h2 : a.dtype ≠ b.dtype ∨ a.dtype ≠ c.dtype
    · rw [if_pos h2]
      have h2' := hdt.mp h2
      exact ⟨⟨fun _ => Or.inr h2', fun _ => ⟨_, rfl⟩⟩, fun h => absurd h1' h,
        fun _ => ⟨h1', h2'⟩, fun _ => rfl⟩
    · rw [if_neg h2]
      have h2' : a.dtype = b.dtype ∧ a.dtype = c.dtype ∧ b.dtype = c.dtype := by
        by_contra hn; exact h2 (hdt.mpr hn)
      refine ⟨⟨?_, ?_⟩, fun h => absurd h1' h, ?_, ?_⟩
      · rintro ⟨e, he⟩; cases he
      · rintro (h | h)
        · exact absurd h1' h
        · exact absurd h2' h
      · intro h; cases h
      · intro h; exact absurd h2' h.2

theorem ConcatColumns_failure_witness :
    (Tensor.create 1 Dtype.Float32 : Tensor Int).NumDims = 1 ∧
    ConcatColumns (Tensor.create 1 Dtype.Float32 : Tensor Int) (Tensor.create 2 Dtype.UInt8)
      (Tensor.create 1 Dtype.Float32) = .error .size_mismatch :=
  ⟨rfl, (ConcatColumns_failure (Tensor.create 1 Dtype.Float32 : Tensor Int)
    (Tensor.create 2 Dtype.UInt8) (Tensor.create 1 Dtype.Float32) rfl rfl rfl).2.1 (by decide)⟩

/-- C4 (as stated, refuted): on a file whose `x`, `y`, `z` are `float32` and
whose `nx`, `ny` are `float32` while `nz` is `float64`, read into a point cloud
that holds data, the run throws the datatype mismatch and leaves the point
cloud different from its prior value and populated with the positions. -/
theorem inconsistent_triplet_mutates_output :
    ReadPointCloudFromPLY identityCast 1 mixedNormalsFile twoNormalsCloud =
      some (.threw .datatype_mismatch mixedNormalsCloud) ∧
    mixedNormalsCloud ≠ twoNormalsCloud ∧ mixedNormalsCloud.points ≠ none :=
  ⟨rfl, by decide, by decide⟩

/-- C4 (amended): when the session of the vertex element reaches assembly with
a complete triplet whose element types are not all equal, every run throws the
datatype mismatch, with one and the same output whatever the point cloud held
before: no named attribute, no colors, the positions merged from `x`, `y`, `z`
when that triplet is complete and consistent (unset otherwise), and the
normals merged from `nx`, `ny`, `nz` when the positions triplet is not
inconsistent and that triplet is complete and consistent (unset otherwise). -/
theorem inconsistent_triplet_throws {R V : Type} (cast : Dtype → R → V)
    (ply_file : PlyFile R) (element : PlyElement) (state0 state : PLYReaderState V)
    (hopen : ply_file.open_ok = true) (hheader : ply_file.header_ok = true)
    (hel : ply_file.elements.head? = some element) (hname : element.name = "vertex")
    (hreg : registerProperties ply_file element.name element.ninstances PLYReaderState.init
      element.properties = .ok state0)
    (hread : ply_read cast ply_file.read_ok state0 ply_file.events = some (state, true))
    (hbad : inconsistentTriplet state "x" "y" "z" ∨ inconsistentTriplet state "nx" "ny" "nz" ∨
      inconsistentTriplet state "red" "green" "blue") :
    ∃ pointcloud' : PointCloud V,
      (∀ (fuel : Nat) (prior : PointCloud V),
        ReadPointCloudFromPLY cast (fuel + 1) ply_file prior =
          some (.threw .datatype_mismatch pointcloud')) ∧
      pointcloud'.point_attr = [] ∧
      pointcloud'.point_colors = none ∧
      pointcloud'.points = mergedAttr state "x" "y" "z" ∧
      (inconsistentTriplet state "x" "y" "z" → pointcloud'.point_normals = none) ∧
      (¬ inconsistentTriplet state "x" "y" "z" →
        pointcloud'.point_normals = mergedAttr state "nx" "ny" "nz") := by
  have hinv : SessionInv element.ninstances state :=
    (readVertexElement_assemble cast ply_file element ⟨none, none, none, []⟩ state0 state
      hreg hread).2
  obtain ⟨pc', h1, h2, h3, h4, h5, h6, h7⟩ :=
    assemble_outcome element.ninstances state ⟨none, none, none, []⟩ hinv
  have hthrew : assemble state ⟨none, none, none, []⟩ = .threw .datatype_mismatch pc' ∧
      pc'.point_attr = [] := by
    rcases h1 with h1 | h1
    · exact h1
    · obtain ⟨n1, n2, n3⟩ := h2.mp h1
      rcases hbad with h | h | h
      · exact absurd h n1
      · exact absurd h n2
      · exact absurd h n3
  refine ⟨pc', ?_, hthrew.2, ?_, h3, h4, h5⟩
  · intro fuel prior
    rw [ReadPointCloudFromPLY_vertex cast fuel ply_file prior element hopen hheader hel hname,
      (readVertexElement_assemble cast ply_file element prior state0 state hreg hread).1]
    exact congrArg some hthrew.1
  · by_cases hx : inconsistentTriplet state "x" "y" "z"
    · exact h6 (Or.inl hx)
    · by_cases hn : inconsistentTriplet state "nx" "ny" "nz"
      · exact h6 (Or.inr hn)
      · rw [h7 hx hn]
        rcases hbad with h | h | h
        · exact absurd h hx
        · exact absurd h hn
        · exact mergedAttr_inconsistent _ state _ _ _ hinv h

theorem inconsistent_triplet_throws_witness :
    inconsistentTriplet mixedNormalsSession "nx" "ny" "nz" ∧
    ∃ pointcloud' : PointCloud Int,
      (∀ (fuel : Nat) (prior : PointCloud Int),
        ReadPointCloudFromPLY identityCast (fuel + 1) mixedNormalsFile prior =
          some (.threw .datatype_mismatch pointcloud')) ∧
      pointcloud'.point_attr = [] ∧
      pointcloud'.point_colors = none ∧
      pointcloud'.points = mergedAttr mixedNormalsSession "x" "y" "z" ∧
      (inconsistentTriplet mixedNormalsSession "x" "y" "z" →
        pointcloud'.point_normals = none) ∧
      (¬ inconsistentTriplet mixedNormalsSession "x" "y" "z" →
        pointcloud'.point_normals = mergedAttr mixedNormalsSession "nx" "ny" "nz") :=
  have hbad : inconsistentTriplet mixedNormalsSession "nx" "ny" "nz" :=
    ⟨column "nx" Dtype.Float32 [4], column "ny" Dtype.Float32 [5],
      column "nz" Dtype.Float64 [6], rfl, rfl, rfl, by decide⟩
  ⟨hbad, inconsistent_triplet_throws identityCast mixedNormalsFile
    ⟨"vertex", 1, mixedNormalsProperties⟩ mixedNormalsRegistered mixedNormalsSession
    rfl rfl rfl rfl rfl rfl (Or.inr (Or.inl hbad))⟩

/-- C5: when a supported property of the vertex element has a promised count
different from the element's record count, registration throws at the first
such property (that one or an earlier one): the properties before it are
registered, it gets no slot, and the run ends in that exception whatever the
stream holds and leaves the point cloud as it was. -/
theorem count_mismatch_aborts {R V : Type} (cast : Dtype → R → V) (ply_file : PlyFile R)
    (element : PlyElement) (attr : PlyProperty)
    (hopen : ply_file.open_ok = true) (hheader : ply_file.header_ok = true)
    (hel : ply_file.elements.head? = some element) (hname : element.name = "vertex")
    (hmem : attr ∈ element.properties)
    (hsup : GetDtype attr.type ≠ Dtype.Undefined)
    (hcount : ply_file.set_read_cb element.name attr.name ≠ element.ninstances) :
    ∃ (before after : List PlyProperty) (first : PlyProperty) (state : PLYReaderState V),
      element.properties = before ++ first :: after ∧
      (attr = first ∨ attr ∈ after) ∧
      GetDtype first.type ≠ Dtype.Undefined ∧
      ply_file.set_read_cb element.name first.name ≠ element.ninstances ∧
      registerProperties ply_file element.name element.ninstances PLYReaderState.init before =
        .ok state ∧
      state.id_to_attr_state_.length =
        (before.filter fun p => GetDtype p.type ≠ Dtype.Undefined).length ∧
      registerProperty ply_file element.name element.ninstances state first =
        .error (.total_size_mismatch first.name (ply_file.set_read_cb element.name first.name)
          element.name element.ninstances) ∧
      ∀ (fuel : Nat) (pointcloud : PointCloud V) (events : List (Nat × R)) (read_ok : Bool),
        ReadPointCloudFromPLY cast (fuel + 1)
            { ply_file with events := events, read_ok := read_ok } pointcloud =
          some (.threw (.total_size_mismatch first.name
            (ply_file.set_read_cb element.name first.name) element.name element.ninstances)
            pointcloud) := by
  obtain ⟨before, after, first, state, h1, h2, h3, h4, h5, h6, h7, h8⟩ :=
    registerProperties_mismatch ply_file element.name element.ninstances element.properties
      (PLYReaderState.init : PLYReaderState V) attr hmem hsup hcount
  refine ⟨before, after, first, state, h1, h2, h3, h4, h5, ?_, h7, ?_⟩
  · simpa [PLYReaderState.init] using h6
  · intro fuel pointcloud events read_ok
    rw [ReadPointCloudFromPLY_vertex cast fuel
      { ply_file with events := events, read_ok := read_ok } pointcloud element hopen hheader
      hel hname]
    simp only [readVertexElement]
    rw [registerProperties_congr ply_file
      { ply_file with events := events, read_ok := read_ok } rfl, h8]

theorem count_mismatch_aborts_witness :
    shortCountFile.set_read_cb "vertex" "y" ≠ 2 ∧
    ∃ first : PlyProperty,
      ∀ (fuel : Nat) (pointcloud : PointCloud Int) (events : List (Nat × Int))
        (read_ok : Bool),
        ReadPointCloudFromPLY identityCast (fuel + 1)
            { shortCountFile with events := events, read_ok := read_ok } pointcloud =
          some (.threw (.total_size_mismatch first.name
            (shortCountFile.set_read_cb "vertex" first.name) "vertex" 2) pointcloud) := by
  refine ⟨by decide, ?_⟩
  obtain ⟨-, -, first, -, -, -, -, -, -, -, -, h⟩ :=
    count_mismatch_aborts identityCast shortCountFile
      ⟨"vertex", 2, [⟨"x", e_ply_type.PLY_FLOAT32⟩, ⟨"y", e_ply_type.PLY_FLOAT32⟩]⟩
      ⟨"y", e_ply_type.PLY_FLOAT32⟩ rfl rfl rfl rfl (by decide) (by decide) (by decide)
  exact ⟨first, h⟩

/-- C6 (the code at the failing input): on a file whose header parses and
whose only element is named "face", the element loop never leaves its first
element, so the reader has not returned after any number of iterations. -/
theorem face_only_file_never_returns :
    ∀ fuel : Nat, ReadPointCloudFromPLY identityCast fuel faceOnlyFile emptyCloud = none := by
  intro fuel
  simp only [ReadPointCloudFromPLY, faceOnlyFile, Bool.not_true, Bool.false_eq_true, if_false,
    List.head?_cons]
  exact elementLoop_diverges identityCast _ emptyCloud _ (by decide) fuel

/-- C7: `GetDtype` returns one of `UInt8`, `UInt16`, `Int32`, `Float32`,
`Float64`, `Undefined` on every tag; the list tag gives `Undefined`; a result
other than `Undefined` has the bit width and kind of the declared tag; and the
accepted tags are exactly the nine listed ones. -/
theorem GetDtype_no_conversion :
    (∀ t, GetDtype t ∈ [Dtype.UInt8, Dtype.UInt16, Dtype.Int32, Dtype.Float32,
      Dtype.Float64, Dtype.Undefined]) ∧
    GetDtype e_ply_type.PLY_LIST = Dtype.Undefined ∧
    (∀ t, GetDtype t = Dtype.Undefined ∨ dtypeScalar (GetDtype t) = plyScalar t) ∧
    (∀ t, GetDtype t ≠ Dtype.Undefined ↔
      t ∈ [e_ply_type.PLY_UINT8, e_ply_type.PLY_UCHAR, e_ply_type.PLY_UINT16,
        e_ply_type.PLY_INT32, e_ply_type.PLY_INT, e_ply_type.PLY_FLOAT32,
        e_ply_type.PLY_FLOAT, e_ply_type.PLY_FLOAT64, e_ply_type.PLY_DOUBLE]) ∧
    GetDtype e_ply_type.PLY_UINT8 = Dtype.UInt8 ∧
    GetDtype e_ply_type.PLY_UCHAR = Dtype.UInt8 ∧
    GetDtype e_ply_type.PLY_UINT16 = Dtype.UInt16 ∧
    GetDtype e_ply_type.PLY_INT32 = Dtype.Int32 ∧
    GetDtype e_ply_type.PLY_INT = Dtype.Int32 ∧
    GetDtype e_ply_type.PLY_FLOAT32 = Dtype.Float32 ∧
    GetDtype e_ply_type.PLY_FLOAT = Dtype.Float32 ∧
    GetDtype e_ply_type.PLY_FLOAT64 = Dtype.Float64 ∧
    GetDtype e_ply_type.PLY_DOUBLE = Dtype.Float64 := by
  refine ⟨?_, rfl, ?_, ?_, rfl, rfl, rfl, rfl, rfl, rfl, rfl, rfl, rfl⟩ <;>
    intro t <;> cases t <;> decide

/-- C9: from a session whose slots all have capacity `N`, an `N`-entry buffer
and cursor `0`, a pass over events that name only registered ids and deliver
exactly `N` values to each of them, in any interleaving, succeeds and leaves
every slot with cursor and capacity `N` and with the values delivered for its
id, in delivery order, each cast to the element type of the slot. -/
theorem full_pass_fills_slots {R V : Type} (cast : Dtype → R → V) (read_ok : Bool) (N : Nat)
    (events : List (Nat × R)) (state : PLYReaderState V)
    (hslots : ∀ slot ∈ state.id_to_attr_state_,
      slot.total_size_ = N ∧ slot.data_.data.length = N ∧ slot.current_size_ = 0)
    (hids : ∀ event ∈ events, event.1 < state.id_to_attr_state_.length)
    (hcount : ∀ k, k < state.id_to_attr_state_.length → (delivered events k).length = N) :
    ∃ state', ply_read cast read_ok state events = some (state', read_ok) ∧
      state'.id_to_attr_state_.length = state.id_to_attr_state_.length ∧
      state'.name_to_attr_state_ = state.name_to_attr_state_ ∧
      ∀ k slot, state.id_to_attr_state_[k]? = some slot →
        ∃ slot', state'.id_to_attr_state_[k]? = some slot' ∧
          slot'.current_size_ = N ∧ slot'.total_size_ = N ∧
          slot'.data_.data =
            (delivered events k).map (fun value => some (cast slot.data_.dtype value)) ∧
          slot'.name_ = slot.name_ ∧ slot'.data_.dtype = slot.data_.dtype ∧
          slot'.data_.shape = slot.data_.shape := by
  have hk : ∀ k slot, state.id_to_attr_state_[k]? = some slot →
      k < state.id_to_attr_state_.length ∧ slot.total_size_ = N ∧
        slot.data_.data.length = N ∧ slot.current_size_ = 0 := by
    intro k slot hs
    refine ⟨?_, hslots slot (List.getElem?_mem hs)⟩
    by_contra hge
    rw [List.getElem?_eq_none (by omega)] at hs
    cases hs
  obtain ⟨state', hread, hlen, hfill⟩ := ply_read_fill cast read_ok events state hids
    (by
      intro k slot hs
      obtain ⟨h1, -, h3, h4⟩ := hk k slot hs
      rw [h4, hcount k h1, h3]
      omega)
  refine ⟨state', hread, hlen, (ply_read_map cast read_ok events state state' read_ok hread).1,
    ?_⟩
  intro k slot hs
  obtain ⟨h1, h2, h3, h4⟩ := hk k slot hs
  obtain ⟨slot', g1, g2, g3, g4, g5, g6, g7⟩ := hfill k slot hs
  refine ⟨slot', g1, ?_, g3.trans h2, ?_, g2, g5, g4⟩
  · rw [g6, h4, hcount k h1]; omega
  · rw [g7, h4, hcount k h1]
    simp only [List.take_zero, List.nil_append, Nat.zero_add]
    rw [List.drop_of_length_le (by omega), List.append_nil]

theorem full_pass_fills_slots_witness :
    ∃ state', ply_read identityCast true twoSlotSession [(0, 1), (1, 2), (1, 3), (0, 4)] =
        some (state', true) ∧
      ∃ slot', state'.id_to_attr_state_[1]? = some slot' ∧ slot'.current_size_ = 2 ∧
        slot'.data_.data = [some 2, some 3] := by
  obtain ⟨state', h1, -, -, h4⟩ :=
    full_pass_fills_slots identityCast true 2 [(0, 1), (1, 2), (1, 3), (0, 4)] twoSlotSession
      (by decide) (by decide) (by decide)
  obtain ⟨slot', g1, g2, -, g4, -⟩ := h4 1 (freshSlot "red" Dtype.UInt8 2) rfl
  exact ⟨state', h1, slot', g1, g2, g4⟩

/-- C10: with a cast that is exact on `0`, `1` as `float32` and on `0`, `255`
as `uint8`, reading the file of three vertices with `float32` `x`, `y`, `z`
and `uint8` `red`, `green`, `blue` returns `true` and leaves the positions
`(0,0,0), (1,0,0), (0,1,0)`, the colors `(255,0,0), (0,255,0), (0,0,255)`, no
normals and no named attribute, whatever the point cloud held before. -/
theorem triangle_file_decodes (cast : Dtype → Int → Int)
    (hf0 : cast Dtype.Float32 0 = 0) (hf1 : cast Dtype.Float32 1 = 1)
    (hu0 : cast Dtype.UInt8 0 = 0) (hu255 : cast Dtype.UInt8 255 = 255)
    (fuel : Nat) (prior : PointCloud Int) :
    ReadPointCloudFromPLY cast (fuel + 1) triangleFile prior =
      some (.done true
        { points := some
            { size := 3, element_shape := [3], dtype := Dtype.Float32,
              data := [[some 0, some 0, some 0], [some 1, some 0, some 0],
                [some 0, some 1, some 0]] }
          point_normals := none
          point_colors := some
            { size := 3, element_shape := [3], dtype := Dtype.UInt8,
              data := [[some 255, some 0, some 0], [some 0, some 255, some 0],
                [some 0, some 0, some 255]] }
          point_attr := [] }) := by
  have hreg : registerProperties triangleFile "vertex" 3 PLYReaderState.init
      [⟨"x", e_ply_type.PLY_FLOAT32⟩, ⟨"y", e_ply_type.PLY_FLOAT32⟩,
       ⟨"z", e_ply_type.PLY_FLOAT32⟩, ⟨"red", e_ply_type.PLY_UINT8⟩,
       ⟨"green", e_ply_type.PLY_UINT8⟩, ⟨"blue", e_ply_type.PLY_UINT8⟩] =
      .ok triangleRegistered := rfl
  have hread : ply_read cast triangleFile.read_ok triangleRegistered triangleFile.events =
      some (triangleSession, true) := by
    simp [triangleFile, recordEvents, ply_read, ReadAttrCallback, triangleRegistered,
      freshSlot, Tensor.create, hf0, hf1, hu0, hu255, triangleSession, column, List.replicate]
  rw [ReadPointCloudFromPLY_vertex cast fuel triangleFile prior
    ⟨"vertex", 3, [⟨"x", e_ply_type.PLY_FLOAT32⟩, ⟨"y", e_ply_type.PLY_FLOAT32⟩,
       ⟨"z", e_ply_type.PLY_FLOAT32⟩, ⟨"red", e_ply_type.PLY_UINT8⟩,
       ⟨"green", e_ply_type.PLY_UINT8⟩, ⟨"blue", e_ply_type.PLY_UINT8⟩]⟩ rfl rfl rfl rfl,
    (readVertexElement_assemble cast triangleFile _ prior triangleRegistered triangleSession
      hreg hread).1]
  rfl

theorem triangle_file_decodes_witness :
    identityCast Dtype.UInt8 255 = 255 ∧
    ReadPointCloudFromPLY identityCast 1 triangleFile emptyCloud =
      some (.done true
        { points := some
            { size := 3, element_shape := [3], dtype := Dtype.Float32,
              data := [[some 0, some 0, some 0], [some 1, some 0, some 0],
                [some 0, some 1, some 0]] }
          point_normals := none
          point_colors := some
            { size := 3, element_shape := [3], dtype := Dtype.UInt8,
              data := [[some 255, some 0, some 0], [some 0, some 255, some 0],
                [some 0, some 0, some 255]] }
          point_attr := [] }) :=
  ⟨rfl, triangle_file_decodes identityCast rfl rfl rfl rfl 0 emptyCloud⟩

/-- C11: when the session of the vertex element is registered and `ply_read`
reports failure after delivering events to registered ids only, at most the
record count to each, the reader returns `false` and the point cloud is the
one the caller passed in: it is neither cleared nor assigned, and no slot of
the session reaches it. -/
theorem read_failure_leaves_output {R V : Type} (cast : Dtype → R → V)
    (ply_file : PlyFile R) (element : PlyElement) (state0 : PLYReaderState V)
    (hopen : ply_file.open_ok = true) (hheader : ply_file.header_ok = true)
    (hel : ply_file.elements.head? = some element) (hname : element.name = "vertex")
    (hreg : registerProperties ply_file element.name element.ninstances PLYReaderState.init
      element.properties = .ok state0)
    (hfail : ply_file.read_ok = false)
    (hids : ∀ event ∈ ply_file.events, event.1 < state0.id_to_attr_state_.length)
    (hcount : ∀ k, k < state0.id_to_attr_state_.length →
      (delivered ply_file.events k).length ≤ element.ninstances) :
    (∃ state, ply_read cast ply_file.read_ok state0 ply_file.events = some (state, false)) ∧
    ∀ (fuel : Nat) (pointcloud : PointCloud V),
      ReadPointCloudFromPLY cast (fuel + 1) ply_file pointcloud =
        some (.done false pointcloud) := by
  obtain ⟨hslots, -, -⟩ := registerProperties_slots ply_file _ _ _ _ state0 hreg
  obtain ⟨state, hread, -, -⟩ := ply_read_fill cast ply_file.read_ok ply_file.events state0 hids
    (by
      intro k slot hs
      have hk : k < state0.id_to_attr_state_.length := by
        by_contra hge
        rw [List.getElem?_eq_none (by omega)] at hs
        cases hs
      have hm := List.getElem?_mem hs
      rw [hslots] at hm
      simp only [PLYReaderState.init, List.nil_append, List.mem_map] at hm
      obtain ⟨attr, -, rfl⟩ := hm
      have := hcount k hk
      simp only [Tensor.create, List.length_replicate]
      omega)
  rw [hfail] at hread
  refine ⟨⟨state, by rw [hfail]; exact hread⟩, fun fuel pointcloud => ?_⟩
  rw [ReadPointCloudFromPLY_vertex cast fuel ply_file pointcloud element hopen hheader hel hname]
  simp [readVertexElement, hreg, hfail, hread]

theorem read_failure_leaves_output_witness :
    truncatedFile.read_ok = false ∧
    ∀ (fuel : Nat) (pointcloud : PointCloud Int),
      ReadPointCloudFromPLY identityCast (fuel + 1) truncatedFile pointcloud =
        some (.done false pointcloud) :=
  ⟨rfl, (read_failure_leaves_output identityCast truncatedFile
    ⟨"vertex", 2, [⟨"x", e_ply_type.PLY_FLOAT32⟩, ⟨"y", e_ply_type.PLY_FLOAT32⟩]⟩
    ⟨[("x", 0), ("y", 1)], [freshSlot "x" Dtype.Float32 2, freshSlot "y" Dtype.Float32 2], []⟩
    rfl rfl rfl rfl rfl rfl (by decide) (by decide)).2⟩

/-- C12: after a successful decode the names of the named attributes of the
output are pairwise distinct and are exactly the names of the name map that
are not a member of a complete triplet; each such name carries the data of its
slot, one scalar per record, with the slot's element type; positions, normals
and colors are the merged columns of their triplets; and when the supported
properties have pairwise distinct names the name map holds exactly those names
and every slot of the id table is the slot its own name points to, so that it
is exposed either in a merged attribute or as a named attribute and not in
both. -/
theorem named_attributes_exact {R V : Type} (cast : Dtype → R → V) (fuel : Nat)
    (ply_file : PlyFile R) (pointcloud pointcloud' : PointCloud V)
    (h : ReadPointCloudFromPLY cast fuel ply_file pointcloud = some (.done true pointcloud')) :
    ∃ (element : PlyElement) (state0 state : PLYReaderState V),
      ply_file.elements.head? = some element ∧
      registerProperties ply_file element.name element.ninstances PLYReaderState.init
        element.properties = .ok state0 ∧
      ply_read cast ply_file.read_ok state0 ply_file.events = some (state, true) ∧
      (pointcloud'.point_attr.map Prod.fst).Nodup ∧
      (∀ key, key ∈ pointcloud'.point_attr.map Prod.fst ↔
        key ∈ state.name_to_attr_state_.map Prod.fst ∧
          ¬ inCompleteTriplet state.name_to_attr_state_ key) ∧
      (∀ (key : String) (slot : AttrState V), state.at key = some slot →
        ¬ inCompleteTriplet state.name_to_attr_state_ key →
        pointcloud'.GetPointAttr key = some (TensorList.FromTensor slot.data_) ∧
        (TensorList.FromTensor slot.data_).size = element.ninstances ∧
        (TensorList.FromTensor slot.data_).element_shape = [] ∧
        (TensorList.FromTensor slot.data_).dtype = slot.data_.dtype ∧
        (TensorList.FromTensor slot.data_).data = slot.data_.data.map fun v => [v]) ∧
      pointcloud'.points = mergedAttr state "x" "y" "z" ∧
      pointcloud'.point_normals = mergedAttr state "nx" "ny" "nz" ∧
      pointcloud'.point_colors = mergedAttr state "red" "green" "blue" ∧
      (((supportedProperties element.properties).map PlyProperty.name).Nodup →
        state.name_to_attr_state_.map Prod.fst =
          (supportedProperties element.properties).map PlyProperty.name ∧
        ∀ (k : Nat) (slot : AttrState V), state.id_to_attr_state_[k]? = some slot →
          state.at slot.name_ = some slot) := by
  obtain ⟨element, hel, -, hread⟩ := ReadPointCloudFromPLY_true cast fuel ply_file _ _ h
  obtain ⟨state0, state, read_ok, h0, h1, hinv, hcase⟩ :=
    readVertexElement_done cast ply_file element _ _ _ hread
  rcases hcase with ⟨-, hf, -⟩ | ⟨rfl, hasm⟩
  · cases hf
  obtain ⟨hnd, hkeys⟩ := assemble_done_attrs _ state _ _ _ hinv hasm
  obtain ⟨-, -, -, -, hattr⟩ := assemble_done _ state _ _ _ hinv hasm
  obtain ⟨pc', o1, o2, o3, -, o5, -, o7⟩ := assemble_outcome _ state pointcloud hinv
  have hpc : pc' = pointcloud' := by
    rcases o1 with ⟨o1, -⟩ | o1
    · rw [o1] at hasm; cases hasm
    · rw [o1] at hasm
      simp only [Outcome.done.injEq, true_and] at hasm
      exact hasm
  subst hpc
  obtain ⟨nx, nn, -⟩ := o2.mp hasm
  refine ⟨element, state0, state, hel, h0, h1, hnd, hkeys, ?_, o3, o5 nx, o7 nx nn, ?_⟩
  · intro key slot hat hnot
    obtain ⟨s1, s2, s3, s4⟩ := FromTensor_slot _ state key slot hinv hat
    exact ⟨hattr key slot hat
      (fun hk hc => hnot (Or.inl ⟨hc, hk⟩))
      (fun hk hc => hnot (Or.inr (Or.inl ⟨hc, hk⟩)))
      (fun hk hc => hnot (Or.inr (Or.inr ⟨hc, hk⟩))), s1, s2, s3, s4⟩
  · intro hdistinct
    exact slot_reachable_by_name cast ply_file _ _ _ _ _ _ state0 state h0 h1 hdistinct

theorem named_attributes_exact_witness :
    ReadPointCloudFromPLY identityCast 1 twoNormalsFile emptyCloud =
      some (.done true twoNormalsCloud) ∧
    (twoNormalsCloud.point_attr.map Prod.fst).Nodup := by
  refine ⟨rfl, ?_⟩
  obtain ⟨-, -, -, -, -, -, h, -⟩ :=
    named_attributes_exact identityCast 1 twoNormalsFile emptyCloud twoNormalsCloud rfl
  exact h

/-- C13: for a slot `id` whose buffer has `total_size_` entries and whose
cursor is below `total_size_`, one call of `ReadAttrCallback` returns `1`,
writes the cast value at the index the cursor had, advances that cursor by one
and changes nothing else: the other entries of the buffer, the slot's name,
capacity, shape and element type, every other slot, the number of slots and
the name map are as before. -/
theorem ReadAttrCallback_step {R V : Type} (cast : Dtype → R → V)
    (state : PLYReaderState V) (id : Nat) (value : R) (slot : AttrState V)
    (hslot : state.id_to_attr_state_[id]? = some slot)
    (hcap : slot.data_.data.length = slot.total_size_)
    (hroom : slot.current_size_ < slot.total_size_) :
    ∃ (state' : PLYReaderState V) (slot' : AttrState V),
      ReadAttrCallback cast state id value = some (state', 1) ∧
      state'.id_to_attr_state_[id]? = some slot' ∧
      slot'.data_.data[slot.current_size_]? = some (some (cast slot.data_.dtype value)) ∧
      slot'.current_size_ = slot.current_size_ + 1 ∧
      (∀ i, i ≠ slot.current_size_ → slot'.data_.data[i]? = slot.data_.data[i]?) ∧
      slot'.data_.data.length = slot.data_.data.length ∧
      slot'.name_ = slot.name_ ∧ slot'.total_size_ = slot.total_size_ ∧
      slot'.data_.shape = slot.data_.shape ∧ slot'.data_.dtype = slot.data_.dtype ∧
      (∀ k, k ≠ id → state'.id_to_attr_state_[k]? = state.id_to_attr_state_[k]?) ∧
      state'.id_to_attr_state_.length = state.id_to_attr_state_.length ∧
      state'.name_to_attr_state_ = state.name_to_attr_state_ := by
  have hid : id < state.id_to_attr_state_.length := by
    by_contra hge
    rw [List.getElem?_eq_none (by omega)] at hslot
    cases hslot
  obtain ⟨state', h1, h2, h3, -⟩ :=
    ReadAttrCallback_ok cast state id value slot hslot (by omega)
  refine ⟨state',
    { name_ := slot.name_
      data_ := { shape := slot.data_.shape, dtype := slot.data_.dtype,
                 data := slot.data_.data.set slot.current_size_
                   (some (cast slot.data_.dtype value)) }
      total_size_ := slot.total_size_
      current_size_ := slot.current_size_ + 1 },
    h1, by rw [h3]; exact List.getElem?_set_self hid, ?_, rfl, ?_, ?_,
    rfl, rfl, rfl, rfl, ?_, by rw [h3, List.length_set], h2⟩
  · exact List.getElem?_set_self (by omega)
  · intro i hi
    exact List.getElem?_set_ne (fun e => hi e.symm)
  · simp
  · intro k hk
    rw [h3]
    exact List.getElem?_set_ne (fun e => hk e.symm)

theorem ReadAttrCallback_step_witness :
    ∃ (state' : PLYReaderState Int) (slot' : AttrState Int),
      ReadAttrCallback identityCast twoSlotSession 1 7 = some (state', 1) ∧
      state'.id_to_attr_state_[1]? = some slot' ∧
      slot'.data_.data[0]? = some (some 7) ∧ slot'.current_size_ = 1 := by
  obtain ⟨state', slot', h1, h2, h3, h4, -⟩ :=
    ReadAttrCallback_step identityCast twoSlotSession 1 7 (freshSlot "red" Dtype.UInt8 2)
      rfl rfl (by decide)
  exact ⟨state', slot', h1, h2, h3, h4⟩

/-- C14: from a session as registration leaves it (every slot with capacity
and buffer size `N` and cursor `0`) and events that name registered ids only
and deliver at most `N` values to each, the pass over every prefix of the
events succeeds; after it every slot has its cursor within its capacity, the
cursor being the number of values delivered to the slot so far; a cursor after
a shorter prefix is at most the cursor after a longer one; and the next event
finds the cursor of its slot strictly below the capacity and the buffer size,
so that its call of `ReadAttrCallback` writes inside the buffer. -/
theorem cursor_within_capacity {R V : Type} (cast : Dtype → R → V) (read_ok : Bool) (N : Nat)
    (events : List (Nat × R)) (state : PLYReaderState V)
    (hslots : ∀ slot ∈ state.id_to_attr_state_,
      slot.total_size_ = N ∧ slot.data_.data.length = N ∧ slot.current_size_ = 0)
    (hids : ∀ event ∈ events, event.1 < state.id_to_attr_state_.length)
    (hcount : ∀ k, k < state.id_to_attr_state_.length → (delivered events k).length ≤ N)
    (n : Nat) :
    ∃ state_n, ply_read cast read_ok state (events.take n) = some (state_n, read_ok) ∧
      (∀ k slot, state_n.id_to_attr_state_[k]? = some slot →
        0 ≤ slot.current_size_ ∧ slot.current_size_ ≤ slot.total_size_ ∧
        slot.total_size_ = N ∧
        slot.current_size_ = (delivered (events.take n) k).length) ∧
      (∀ m, m ≤ n →
        ∃ state_m, ply_read cast read_ok state (events.take m) = some (state_m, read_ok) ∧
          ∀ (k : Nat) (slot_m slot_n : AttrState V),
            state_m.id_to_attr_state_[k]? = some slot_m →
            state_n.id_to_attr_state_[k]? = some slot_n →
            slot_m.current_size_ ≤ slot_n.current_size_) ∧
      (∀ id value, events[n]? = some (id, value) →
        ∃ slot, state_n.id_to_attr_state_[id]? = some slot ∧
          slot.current_size_ < slot.total_size_ ∧
          slot.current_size_ < slot.data_.data.length ∧
          ∃ state', ReadAttrCallback cast state_n id value = some (state', 1)) := by
  obtain ⟨state_n, hread, hlen, hn⟩ :=
    ply_read_prefix cast read_ok N events state hslots hids hcount n
  refine ⟨state_n, hread, ?_, ?_, ?_⟩
  · intro k slot hs
    obtain ⟨h1, -, h3, h4⟩ := hn k slot hs
    exact ⟨Nat.zero_le _, by omega, h1, h3⟩
  · intro m hm
    obtain ⟨state_m, hreadm, -, hmm⟩ :=
      ply_read_prefix cast read_ok N events state hslots hids hcount m
    refine ⟨state_m, hreadm, ?_⟩
    intro k slot_m slot_n hsm hsn
    rw [(hmm k slot_m hsm).2.2.1, (hn k slot_n hsn).2.2.1]
    exact delivered_length_mono _ _ k (List.take_sublist_take_left events hm)
  · intro id value hev
    have hid : id < state_n.id_to_attr_state_.length := by
      rw [hlen]
      exact hids (id, value) (List.getElem?_mem hev)
    have hs : state_n.id_to_attr_state_[id]? = some state_n.id_to_attr_state_[id] :=
      List.getElem?_eq_getElem hid
    obtain ⟨h1, h2, h3, -⟩ := hn id _ hs
    obtain ⟨state1, -, hlen1, hn1⟩ :=
      ply_read_prefix cast read_ok N events state hslots hids hcount (n + 1)
    have hid1 : id < state1.id_to_attr_state_.length := by rw [hlen1, ← hlen]; exact hid
    obtain ⟨-, -, -, g4⟩ := hn1 id _ (List.getElem?_eq_getElem hid1)
    rw [delivered_take_succ events n id value hev] at g4
    have hlt : (state_n.id_to_attr_state_[id]).current_size_ < N := by omega
    obtain ⟨state', hcb, -⟩ := ReadAttrCallback_ok cast state_n id value _ hs (by omega)
    exact ⟨_, hs, by omega, by omega, state', hcb⟩

theorem cursor_within_capacity_witness :
    ∃ state_n, ply_read identityCast true twoSlotSession
        ([(0, 1), (1, 2), (1, 3)].take 2) = some (state_n, true) ∧
      ∀ k slot, state_n.id_to_attr_state_[k]? = some slot →
        0 ≤ slot.current_size_ ∧ slot.current_size_ ≤ slot.total_size_ ∧
        slot.total_size_ = 2 ∧
        slot.current_size_ =
          (delivered (([(0, 1), (1, 2), (1, 3)] : List (Nat × Int)).take 2) k).length := by
  obtain ⟨state_n, h1, h2, -⟩ :=
    cursor_within_capacity identityCast true 2 [(0, 1), (1, 2), (1, 3)] twoSlotSession
      (by decide) (by decide) (by decide) 2
  exact ⟨state_n, h1, h2⟩

/-- C15: a call of `ReadAttrCallback` that writes inside the buffer makes one
`Update` call, with the new cursor as argument, when the new cursor is
divisible by 1000 and none otherwise; hence in a pass from a session as
registration leaves it, whose events name registered ids only and deliver at
most `N` values to each, the log of the reporter grows by the `Update` calls of
the pass, and the calls made for a registered id that received `n` values are
`1000, 2000, ..., 1000 * (n / 1000)` in this order, none when `n < 1000`. -/
theorem progress_updates {R V : Type} (cast : Dtype → R → V) (read_ok : Bool) (N : Nat)
    (events : List (Nat × R)) (state : PLYReaderState V)
    (hslots : ∀ slot ∈ state.id_to_attr_state_,
      slot.total_size_ = N ∧ slot.data_.data.length = N ∧ slot.current_size_ = 0)
    (hids : ∀ event ∈ events, event.1 < state.id_to_attr_state_.length)
    (hcount : ∀ k, k < state.id_to_attr_state_.length → (delivered events k).length ≤ N) :
    (∀ (session : PLYReaderState V) (id : Nat) (value : R) (slot : AttrState V),
      session.id_to_attr_state_[id]? = some slot →
      slot.current_size_ < slot.data_.data.length →
      ∃ session', ReadAttrCallback cast session id value = some (session', 1) ∧
        updatesOfStep session session' =
          if (slot.current_size_ + 1) % 1000 = 0 then [slot.current_size_ + 1] else []) ∧
    (∃ state', ply_read cast read_ok state events = some (state', read_ok) ∧
      state'.progress_bar_ =
        state.progress_bar_ ++ (taggedUpdates cast state events).map Prod.snd) ∧
    (∀ k, k < state.id_to_attr_state_.length →
      ((taggedUpdates cast state events).filter (fun update => update.1 = k)).map Prod.snd =
        (List.range ((delivered events k).length / 1000)).map (fun j => 1000 * (j + 1))) ∧
    (∀ k, k < state.id_to_attr_state_.length → (delivered events k).length < 1000 →
      (taggedUpdates cast state events).filter (fun update => update.1 = k) = []) := by
  have hroom : ∀ k slot, state.id_to_attr_state_[k]? = some slot →
      slot.current_size_ + (delivered events k).length ≤ slot.data_.data.length := by
    intro k slot hs
    have hk : k < state.id_to_attr_state_.length := by
      by_contra hge
      rw [List.getElem?_eq_none (by omega)] at hs
      cases hs
    obtain ⟨-, h2, h3⟩ := hslots slot (List.getElem?_mem hs)
    have := hcount k hk
    omega
  have hmult : ∀ k, k < state.id_to_attr_state_.length →
      ((taggedUpdates cast state events).filter (fun update => update.1 = k)).map Prod.snd =
        (List.range ((delivered events k).length / 1000)).map (fun j => 1000 * (j + 1)) := by
    intro k hk
    rw [taggedUpdates_of_slot cast events state hids hroom k _ (List.getElem?_eq_getElem hk),
      (hslots _ (List.getElem_mem hk)).2.2]
    exact multiples_of_thousand _
  refine ⟨fun session id value slot hs hr =>
    updatesOfStep_ReadAttrCallback cast session id value slot hs hr, ?_, hmult, ?_⟩
  · obtain ⟨state', hread, -, -⟩ := ply_read_fill cast read_ok events state hids hroom
    exact ⟨state', hread, ply_read_progress cast read_ok events state state' read_ok hread⟩
  · intro k hk hsmall
    have h := hmult k hk
    rw [Nat.div_eq_of_lt hsmall] at h
    simpa using h

theorem progress_updates_witness :
    (∃ state', ply_read identityCast true twoSlotSession [(0, 1), (1, 2), (1, 3), (0, 4)] =
        some (state', true) ∧
      state'.progress_bar_ = twoSlotSession.progress_bar_ ++
        (taggedUpdates identityCast twoSlotSession [(0, 1), (1, 2), (1, 3), (0, 4)]).map
          Prod.snd) ∧
    ∃ session', ReadAttrCallback identityCast nearThousandSession 0 5 = some (session', 1) ∧
      updatesOfStep nearThousandSession session' = [1000] := by
  have h := progress_updates identityCast true 2 [(0, 1), (1, 2), (1, 3), (0, 4)]
    twoSlotSession (by decide) (by decide) (by decide)
  refine ⟨h.2.1, ?_⟩
  obtain ⟨session', h1, h2⟩ := h.1 nearThousandSession 0 5
    { name_ := "x", data_ := Tensor.create 1000 Dtype.Float32, total_size_ := 1000,
      current_size_ := 999 } rfl
    (by simp only [Tensor.create, List.length_replicate]; omega)
  exact ⟨session', h1, by simpa using h2⟩

/-- C16: after a registration that succeeds, the ids passed to
`ply_set_read_cb` are `0, 1, ..., m - 1` for the `m` supported properties in
declared order, and `id_to_attr_state_` holds at index `k` the slot created
for the `k`-th supported property; the table after a part of the declaration
is an initial segment of the final table, and the pass keeps its length and
the name, capacity, shape and element type of the slot at every index; the
name map sends a name to the index of the first supported property of that
name, and when the supported names are pairwise distinct its keys are exactly
those names, the name of the `k`-th supported property being mapped to `k`,
the index of its own slot. -/
theorem registration_ids_dense {R V : Type} (ply_file : PlyFile R) (element_name : String)
    (N : Nat) (attrs : List PlyProperty) (state : PLYReaderState V)
    (hreg : registerProperties ply_file element_name N PLYReaderState.init attrs = .ok state) :
    (registrationCalls ply_file element_name N (PLYReaderState.init : PLYReaderState V)
        attrs).map Prod.snd = List.range (supportedProperties attrs).length ∧
    (registrationCalls ply_file element_name N (PLYReaderState.init : PLYReaderState V)
        attrs).map Prod.fst = (supportedProperties attrs).map PlyProperty.name ∧
    state.id_to_attr_state_ = (supportedProperties attrs).map (fun attr =>
      ({ name_ := attr.name, data_ := Tensor.create N (GetDtype attr.type),
         total_size_ := N, current_size_ := 0 } : AttrState V)) ∧
    (∀ before after : List PlyProperty, attrs = before ++ after →
      ∃ middle : PLYReaderState V,
        registerProperties ply_file element_name N PLYReaderState.init before = .ok middle ∧
        middle.id_to_attr_state_ <+: state.id_to_attr_state_) ∧
    (∀ (cast : Dtype → R → V) (read_ok : Bool) (events : List (Nat × R))
      (state' : PLYReaderState V) (ok : Bool),
      ply_read cast read_ok state events = some (state', ok) →
      state'.id_to_attr_state_.length = state.id_to_attr_state_.length ∧
      ∀ (k : Nat) (slot : AttrState V), state.id_to_attr_state_[k]? = some slot →
        ∃ slot' : AttrState V, state'.id_to_attr_state_[k]? = some slot' ∧
          slot'.name_ = slot.name_ ∧ slot'.total_size_ = slot.total_size_ ∧
          slot'.data_.shape = slot.data_.shape ∧ slot'.data_.dtype = slot.data_.dtype) ∧
    (∀ key, state.name_to_attr_state_.lookup key =
      if key ∈ (supportedProperties attrs).map PlyProperty.name then
        some (((supportedProperties attrs).map PlyProperty.name).indexOf key)
      else none) ∧
    (((supportedProperties attrs).map PlyProperty.name).Nodup →
      state.name_to_attr_state_.map Prod.fst =
        (supportedProperties attrs).map PlyProperty.name ∧
      state.name_to_attr_state_.length = (supportedProperties attrs).length ∧
      ∀ (k : Nat) (attr : PlyProperty), (supportedProperties attrs)[k]? = some attr →
        state.name_to_attr_state_.lookup attr.name = some k ∧
        ∃ slot : AttrState V, state.id_to_attr_state_[k]? = some slot ∧
          slot.name_ = attr.name) := by
  obtain ⟨c1, c2⟩ := registrationCalls_ids ply_file element_name N attrs _ state hreg
  obtain ⟨s1, -, -⟩ := registerProperties_slots ply_file element_name N attrs _ state hreg
  obtain ⟨n1, n2, n3⟩ := registerProperties_names ply_file element_name N attrs []
    PLYReaderState.init state hreg rfl (by simp [PLYReaderState.init])
    (by simp [PLYReaderState.init])
  simp only [List.nil_append] at n1 n2 n3
  simp only [PLYReaderState.init, List.nil_append] at s1
  refine ⟨?_, c1, s1, ?_, ?_, n2, ?_⟩
  · rw [c2, List.range_eq_range']
    rfl
  · intro before after hsplit
    subst hsplit
    obtain ⟨middle, hm1, hm2⟩ :=
      registerProperties_prefix ply_file element_name N before after _ state hreg
    obtain ⟨m1, -, -⟩ := registerProperties_slots ply_file element_name N before _ middle hm1
    refine ⟨middle, hm1, ?_⟩
    simp only [PLYReaderState.init, List.nil_append] at m1
    rw [m1, s1]
    simp only [supportedProperties, List.filter_append, List.map_append]
    exact List.prefix_append _ _
  · intro cast read_ok events state' ok hread
    exact ply_read_stable cast read_ok events state state' ok hread
  · intro hnd
    refine ⟨n3 hnd, ?_, ?_⟩
    · have := congrArg List.length (n3 hnd)
      simpa using this
    · intro k attr hk
      have hlt : k < ((supportedProperties attrs).map PlyProperty.name).length := by
        rw [List.length_map]
        by_contra hge
        rw [List.getElem?_eq_none (by omega)] at hk
        cases hk
      have hname : ((supportedProperties attrs).map PlyProperty.name)[k] = attr.name := by
        have := List.getElem?_map PlyProperty.name (supportedProperties attrs) k
        rw [hk, List.getElem?_eq_getElem hlt] at this
        simpa using this
      refine ⟨?_, ?_⟩
      · rw [n2, if_pos (by rw [← hname]; exact List.getElem_mem hlt), ← hname,
          List.indexOf_getElem hnd k hlt]
      · refine ⟨_, by rw [s1, List.getElem?_map, hk]; rfl, rfl⟩

theorem registration_ids_dense_witness :
    (registrationCalls triangleFile "vertex" 3 (PLYReaderState.init : PLYReaderState Int)
        [⟨"x", e_ply_type.PLY_FLOAT32⟩, ⟨"y", e_ply_type.PLY_FLOAT32⟩,
         ⟨"z", e_ply_type.PLY_FLOAT32⟩, ⟨"red", e_ply_type.PLY_UINT8⟩,
         ⟨"green", e_ply_type.PLY_UINT8⟩, ⟨"blue", e_ply_type.PLY_UINT8⟩]).map Prod.snd =
      List.range (supportedProperties
        [⟨"x", e_ply_type.PLY_FLOAT32⟩, ⟨"y", e_ply_type.PLY_FLOAT32⟩,
         ⟨"z", e_ply_type.PLY_FLOAT32⟩, ⟨"red", e_ply_type.PLY_UINT8⟩,
         ⟨"green", e_ply_type.PLY_UINT8⟩, ⟨"blue", e_ply_type.PLY_UINT8⟩]).length :=
  (registration_ids_dense triangleFile "vertex" 3
    [⟨"x", e_ply_type.PLY_FLOAT32⟩, ⟨"y", e_ply_type.PLY_FLOAT32⟩,
     ⟨"z", e_ply_type.PLY_FLOAT32⟩, ⟨"red", e_ply_type.PLY_UINT8⟩,
     ⟨"green", e_ply_type.PLY_UINT8⟩, ⟨"blue", e_ply_type.PLY_UINT8⟩]
    triangleRegistered rfl).1

/-- C17 (the code at the failing input): on a file that declares "face" and
then "vertex", the element loop stays at "face" and the reader has not
returned after any number of iterations, while the same file without the
"face" element is decoded. -/
theorem vertex_after_face_never_reached :
    (∀ fuel : Nat,
      ReadPointCloudFromPLY identityCast fuel vertexAfterFaceFile emptyCloud = none) ∧
    ReadPointCloudFromPLY identityCast 1
        { vertexAfterFaceFile with elements := vertexAfterFaceFile.elements.tail }
        emptyCloud =
      some (.done true
        { points := some ⟨1, [3], Dtype.Float32, [[some 1, some 2, some 3]]⟩
          point_normals := none, point_colors := none, point_attr := [] }) := by
  refine ⟨fun fuel => ?_, rfl⟩
  simp only [ReadPointCloudFromPLY, vertexAfterFaceFile, Bool.not_true, Bool.false_eq_true,
    if_false, List.head?_cons]
  exact elementLoop_diverges identityCast _ emptyCloud _ (by decide) fuel

/-- C18: when the session of the vertex element reaches assembly, every slot
the name map points to is one-dimensional with the element's record count as
length and buffer size; `ConcatColumns` on three such slots either succeeds or
fails with the datatype mismatch, never with "only 1D" or the size mismatch;
and the run either returns `true` or throws the datatype mismatch, the latter
exactly when some complete triplet has element types that are not all
equal. -/
theorem assembly_fails_only_on_dtype {R V : Type} (cast : Dtype → R → V)
    (ply_file : PlyFile R) (element : PlyElement) (state0 state : PLYReaderState V)
    (hopen : ply_file.open_ok = true) (hheader : ply_file.header_ok = true)
    (hel : ply_file.elements.head? = some element) (hname : element.name = "vertex")
    (hreg : registerProperties ply_file element.name element.ninstances PLYReaderState.init
      element.properties = .ok state0)
    (hread : ply_read cast ply_file.read_ok state0 ply_file.events = some (state, true)) :
    (∀ (key : String) (slot : AttrState V), state.at key = some slot →
      slot.data_.NumDims = 1 ∧ slot.data_.dim0 = element.ninstances ∧
      slot.data_.data.length = element.ninstances) ∧
    (∀ (ka kb kc : String) (a b c : AttrState V),
      state.at ka = some a → state.at kb = some b → state.at kc = some c →
      ConcatColumns a.data_ b.data_ c.data_ = .error .datatype_mismatch ∨
        ∃ columns, ConcatColumns a.data_ b.data_ c.data_ = .ok columns) ∧
    (∀ (fuel : Nat) (pointcloud : PointCloud V),
      ∃ pointcloud',
        (ReadPointCloudFromPLY cast (fuel + 1) ply_file pointcloud =
            some (.threw .datatype_mismatch pointcloud') ∨
          ReadPointCloudFromPLY cast (fuel + 1) ply_file pointcloud =
            some (.done true pointcloud')) ∧
        (ReadPointCloudFromPLY cast (fuel + 1) ply_file pointcloud =
            some (.threw .datatype_mismatch pointcloud') ↔
          inconsistentTriplet state "x" "y" "z" ∨ inconsistentTriplet state "nx" "ny" "nz" ∨
            inconsistentTriplet state "red" "green" "blue")) := by
  have hinv : SessionInv element.ninstances state :=
    (readVertexElement_assemble cast ply_file element ⟨none, none, none, []⟩ state0 state
      hreg hread).2
  have hslot : ∀ (key : String) (slot : AttrState V), state.at key = some slot →
      slot.data_.shape = [element.ninstances] ∧
      slot.data_.data.length = element.ninstances := by
    intro key slot hat
    obtain ⟨p, -, hs⟩ := (at_eq_some state key slot).mp hat
    obtain ⟨h1, h2, -, -⟩ := hinv.slots slot (List.getElem?_mem hs)
    exact ⟨h1, h2⟩
  refine ⟨?_, ?_, ?_⟩
  · intro key slot hat
    obtain ⟨h1, h2⟩ := hslot key slot hat
    exact ⟨by simp [Tensor.NumDims, h1], by simp [Tensor.dim0, h1], h2⟩
  · intro ka kb kc a b c ha hb hc
    obtain ⟨a1, a2⟩ := hslot ka a ha
    obtain ⟨b1, b2⟩ := hslot kb b hb
    obtain ⟨c1, c2⟩ := hslot kc c hc
    by_cases hd : a.data_.dtype = b.data_.dtype ∧ a.data_.dtype = c.data_.dtype
    · exact Or.inr ⟨_, ConcatColumns_ok a.data_ b.data_ c.data_ _ a.data_.dtype a1 b1 c1
        a2 b2 c2 rfl hd.1.symm hd.2.symm⟩
    · exact Or.inl (ConcatColumns_datatype_mismatch a.data_ b.data_ c.data_ _ a1 b1 c1 hd)
  · intro fuel pointcloud
    rw [ReadPointCloudFromPLY_vertex cast fuel ply_file pointcloud element hopen hheader hel
      hname, (readVertexElement_assemble cast ply_file element pointcloud state0 state hreg
        hread).1]
    obtain ⟨pc', h1, h2, -⟩ := assemble_outcome element.ninstances state pointcloud hinv
    refine ⟨pc', ?_, ?_⟩
    · rcases h1 with ⟨h1, -⟩ | h1
      · exact Or.inl (congrArg some h1)
      · exact Or.inr (congrArg some h1)
    · constructor
      · intro ht
        by_contra hn
        push_neg at hn
        have hd := h2.mpr ⟨hn.1, hn.2.1, hn.2.2⟩
        rw [hd] at ht
        cases ht
      · intro hbad
        rcases h1 with ⟨h1, -⟩ | h1
        · exact congrArg some h1
        · obtain ⟨n1, n2, n3⟩ := h2.mp h1
          rcases hbad with h | h | h
          · exact absurd h n1
          · exact absurd h n2
          · exact absurd h n3

theorem assembly_fails_only_on_dtype_witness :
    ∃ pointcloud',
      (ReadPointCloudFromPLY identityCast 1 mixedNormalsFile emptyCloud =
          some (.threw .datatype_mismatch pointcloud') ∨
        ReadPointCloudFromPLY identityCast 1 mixedNormalsFile emptyCloud =
          some (.done true pointcloud')) ∧
      (ReadPointCloudFromPLY identityCast 1 mixedNormalsFile emptyCloud =
          some (.threw .datatype_mismatch pointcloud') ↔
        inconsistentTriplet mixedNormalsSession "x" "y" "z" ∨
          inconsistentTriplet mixedNormalsSession "nx" "ny" "nz" ∨
          inconsistentTriplet mixedNormalsSession "red" "green" "blue") :=
  (assembly_fails_only_on_dtype identityCast mixedNormalsFile
    ⟨"vertex", 1, mixedNormalsProperties⟩ mixedNormalsRegistered mixedNormalsSession
    rfl rfl rfl rfl rfl rfl).2.2 0 emptyCloud

/-- C20: a successful decode does not depend on what the point cloud held
before: a call that returns `true` returns `true` with the same output from
every prior point cloud; positions, normals and colors are the merged columns
of their triplets, set only when the three names of the triplet are in the
name map and hence declared with a supported type, and unset when the triplet
is not complete; and a session that reaches assembly without an inconsistent
triplet succeeds, whether or not `x`, `y`, `z` are all declared. -/
theorem output_independent_of_prior {R V : Type} (cast : Dtype → R → V) (fuel : Nat)
    (ply_file : PlyFile R) (prior pointcloud' : PointCloud V)
    (h : ReadPointCloudFromPLY cast fuel ply_file prior = some (.done true pointcloud')) :
    (∀ other : PointCloud V,
      ReadPointCloudFromPLY cast fuel ply_file other = some (.done true pointcloud')) ∧
    ∃ (element : PlyElement) (state0 state : PLYReaderState V),
      ply_file.elements.head? = some element ∧
      registerProperties ply_file element.name element.ninstances PLYReaderState.init
        element.properties = .ok state0 ∧
      ply_read cast ply_file.read_ok state0 ply_file.events = some (state, true) ∧
      pointcloud'.points = mergedAttr state "x" "y" "z" ∧
      pointcloud'.point_normals = mergedAttr state "nx" "ny" "nz" ∧
      pointcloud'.point_colors = mergedAttr state "red" "green" "blue" ∧
      (pointcloud'.points ≠ none →
        tripletComplete state.name_to_attr_state_ "x" "y" "z" ∧
        ∀ name ∈ ["x", "y", "z"],
          name ∈ (supportedProperties element.properties).map PlyProperty.name) ∧
      (pointcloud'.point_normals ≠ none →
        tripletComplete state.name_to_attr_state_ "nx" "ny" "nz" ∧
        ∀ name ∈ ["nx", "ny", "nz"],
          name ∈ (supportedProperties element.properties).map PlyProperty.name) ∧
      (pointcloud'.point_colors ≠ none →
        tripletComplete state.name_to_attr_state_ "red" "green" "blue" ∧
        ∀ name ∈ ["red", "green", "blue"],
          name ∈ (supportedProperties element.properties).map PlyProperty.name) ∧
      (¬ tripletComplete state.name_to_attr_state_ "x" "y" "z" →
        pointcloud'.points = none) ∧
      (∀ (events : List (Nat × R)) (session : PLYReaderState V),
        ply_read cast true state0 events = some (session, true) →
        ¬ inconsistentTriplet session "x" "y" "z" →
        ¬ inconsistentTriplet session "nx" "ny" "nz" →
        ¬ inconsistentTriplet session "red" "green" "blue" →
        ∃ output : PointCloud V,
          ∀ other : PointCloud V,
            ReadPointCloudFromPLY cast fuel
                { ply_file with events := events, read_ok := true } other =
              some (.done true output)) := by
  obtain ⟨element, state0, state, hopen, hheader, hel, hname, h0, h1, hinv, hasm, n, rfl⟩ :=
    ReadPointCloudFromPLY_success cast fuel ply_file prior pointcloud' h
  obtain ⟨pc', o1, o2, o3, -, o5, -, o7⟩ := assemble_outcome _ state prior hinv
  have hpc : pc' = pointcloud' := by
    rcases o1 with ⟨o1, -⟩ | o1
    · rw [o1] at hasm; cases hasm
    · rw [o1] at hasm
      simp only [Outcome.done.injEq, true_and] at hasm
      exact hasm
  subst hpc
  obtain ⟨nx, nn, -⟩ := o2.mp hasm
  have hdecl : ∀ n1 n2 n3 : String, tripletComplete state.name_to_attr_state_ n1 n2 n3 →
      ∀ name ∈ [n1, n2, n3],
        name ∈ (supportedProperties element.properties).map PlyProperty.name := by
    intro n1 n2 n3 hc name hmem
    have hcount : mapCount state.name_to_attr_state_ name ≠ 0 := by
      simp only [List.mem_cons, List.mem_singleton, List.not_mem_nil, or_false] at hmem
      rcases hmem with rfl | rfl | rfl
      · exact hc.1
      · exact hc.2.1
      · exact hc.2.2
    have hkey : name ∈ state.name_to_attr_state_.map Prod.fst := by
      by_contra hn
      rw [← lookup_eq_none_iff, ← mapCount_eq_zero] at hn
      exact hcount hn
    rw [(ply_read_map cast _ _ _ _ _ h1).1] at hkey
    rcases (registerProperties_slots ply_file _ _ _ _ state0 h0).2.1 name hkey with hk | hk
    · simp [PLYReaderState.init] at hk
    · exact hk
  refine ⟨?_, element, state0, state, hel, h0, h1, o3, o5 nx, o7 nx nn, ?_, ?_, ?_, ?_, ?_⟩
  · intro other
    rw [ReadPointCloudFromPLY_vertex cast n ply_file other element hopen hheader hel hname,
      (readVertexElement_assemble cast ply_file element other state0 state h0 h1).1]
    exact congrArg some hasm
  · intro hne
    rw [o3] at hne
    have hc := mergedAttr_some_complete state _ _ _ hne
    exact ⟨hc, hdecl _ _ _ hc⟩
  · intro hne
    rw [o5 nx] at hne
    have hc := mergedAttr_some_complete state _ _ _ hne
    exact ⟨hc, hdecl _ _ _ hc⟩
  · intro hne
    rw [o7 nx nn] at hne
    have hc := mergedAttr_some_complete state _ _ _ hne
    exact ⟨hc, hdecl _ _ _ hc⟩
  · intro hnc
    by_contra hne
    rw [o3] at hne
    exact hnc (mergedAttr_some_complete state _ _ _ hne)
  · intro events session hread bx bn bc
    have h0' : registerProperties { ply_file with events := events, read_ok := true }
        element.name element.ninstances (PLYReaderState.init : PLYReaderState V)
        element.properties = .ok state0 := by
      rw [registerProperties_congr ply_file
        { ply_file with events := events, read_ok := true } rfl]
      exact h0
    have hr := readVertexElement_assemble cast
      { ply_file with events := events, read_ok := true } element ⟨none, none, none, []⟩
      state0 session h0' hread
    obtain ⟨output, -, q2, -⟩ :=
      assemble_outcome _ session ⟨none, none, none, []⟩ hr.2
    have hdone := q2.mpr ⟨bx, bn, bc⟩
    refine ⟨output, fun other => ?_⟩
    rw [ReadPointCloudFromPLY_vertex cast n
      { ply_file with events := events, read_ok := true } other element hopen hheader hel
      hname,
      (readVertexElement_assemble cast { ply_file with events := events, read_ok := true }
        element other state0 session h0' hread).1]
    exact congrArg some hdone

theorem output_independent_of_prior_witness :
    ReadPointCloudFromPLY identityCast 1 intensityFile twoNormalsCloud =
      some (.done true intensityCloud) ∧
    intensityCloud.points = none ∧
    ∀ other : PointCloud Int,
      ReadPointCloudFromPLY identityCast 1 intensityFile other =
        some (.done true intensityCloud) :=
  ⟨rfl, rfl,
    (output_independent_of_prior identityCast 1 intensityFile twoNormalsCloud intensityCloud
      rfl).1⟩

end FilePLY
